import Mathlib

/-!
# CS415MP kernel: block driver drafts

A shallow embedding of the two VirtIO block driver drafts of the kernel,
`src/kern/vioblk.c` (namespace `Vioblk`) and `src/kern/vioblk_my.c`
(namespace `VioblkMy`).  C records become structures, machine words are
natural numbers reduced modulo their width where the code can overflow, memory
reached through a numeric pointer is a byte map, and every call into a
collaborator whose source is not part of the repository is kept in an event
log and takes its effect from an explicit environment.
-/

namespace CS415MP

/-! ## Machine words, return values, memory -/

/-- Conversion of an `unsigned long` to the `long` a function returns. -/
def toLong (x : Nat) : Int :=
  if x % 2 ^ 64 < 2 ^ 63 then ((x % 2 ^ 64 : Nat) : Int) else ((x % 2 ^ 64 : Nat) : Int) - 2 ^ 64

/-- Error numbers of `error.h`.  The header is not among the sources, so a
return of `-E...` is kept symbolic; `ioerr` stands for the C name of the
input/output error number. -/
inductive Errno where
  | EINVAL
  | EBUSY
  | ENOTSUP
  | ioerr
  deriving DecidableEq, Repr

/-- Value returned by a driver entry point: a number, or minus an error number. -/
inductive Ret where
  | val (v : Int)
  | neg (e : Errno)
  deriving DecidableEq, Repr

/-- Byte-addressed memory reached through numeric pointers (address 0 included). -/
abbrev Mem := Nat → Nat

/-- Little-endian store of the low `w` bytes of `v` at address `a`. -/
def store_le (m : Mem) (a w v : Nat) : Mem :=
  fun x => if a ≤ x ∧ x < a + w then (v / 256 ^ (x - a)) % 256 else m x

/-- Little-endian load of `w` bytes at address `a`. -/
def load_le (m : Mem) (a : Nat) : Nat → Nat
  | 0 => 0
  | w + 1 => m a % 256 + 256 * load_le m (a + 1) w

/-- The C call `memcpy(dst + d, src + s, n)` on byte maps. -/
def memcpy (dst : Nat → Nat) (d : Nat) (src : Nat → Nat) (s n : Nat) : Nat → Nat :=
  fun x => if d ≤ x ∧ x < d + n then src (s + (x - d)) else dst x

/-! ## Constants of the headers -/

def VIOBLK_IRQ_PRIO : Nat := 1
def VIRTIO_BLK_F_BLK_SIZE : Nat := 6
def VIRTIO_BLK_F_TOPOLOGY : Nat := 10
def VIRTIO_BLK_T_IN : Nat := 0
def VIRTIO_BLK_T_OUT : Nat := 1
def VIRTIO_BLK_S_OK : Nat := 0
def VIRTIO_BLK_S_IOERR : Nat := 1
def VIRTIO_BLK_S_UNSUPP : Nat := 2
def VIRTIO_BLK_QID : Nat := 0

/-- Modelled from the spec: `virtio.h` is not among the sources.  The flag bits
of a descriptor (chained/has-next, write-permission-for-device, indirect) carry
the values of the VirtIO standard. -/
def VIRTQ_DESC_F_NEXT : Nat := 1

/-- Modelled from the spec: write-permission-for-device flag, see `VIRTQ_DESC_F_NEXT`. -/
def VIRTQ_DESC_F_WRITE : Nat := 2

/-- Modelled from the spec: indirect flag, see `VIRTQ_DESC_F_NEXT`. -/
def VIRTQ_DESC_F_INDIRECT : Nat := 4

/-- Modelled from the spec: feature bit number of indirect descriptors (`virtio.h`
is not among the sources; VirtIO standard value). -/
def VIRTIO_F_INDIRECT_DESC : Nat := 28

/-- Modelled from the spec: feature bit number of queue reset (`virtio.h` is not
among the sources; VirtIO standard value). -/
def VIRTIO_F_RING_RESET : Nat := 40

/-- Modelled from the spec: the "driver found" status bit (`virtio.h` is not among
the sources; VirtIO standard value). -/
def VIRTIO_STAT_DRIVER : Nat := 2

/-- Modelled from the spec: the "driver ready" status bit (`virtio.h` is not among
the sources; VirtIO standard value). -/
def VIRTIO_STAT_DRIVER_OK : Nat := 4

/-- Modelled from the spec: device id of a block device (`virtio.h` is not among the
sources; VirtIO standard value). -/
def VIRTIO_ID_BLOCK : Nat := 2

/-- Command codes of `io.h` (not among the sources); the values are the ones
`kfs.c` quotes in its commented-out definitions. -/
def IOCTL_GETLEN : Int := 1
def IOCTL_GETPOS : Int := 2
def IOCTL_SETPOS : Int := 3
def IOCTL_GETBLKSZ : Int := 4

/-! ## Data model -/

/-- Value of an address-typed word.  `abs a` is the numeric value of a stored
pointer; the other constructors are the addresses of members of the device
record, whose numeric value depends on where the allocator placed the record. -/
inductive Addr where
  | abs (a : Nat)
  | desc (i : Nat)
  | avail
  | used
  | req_header
  | req_status
  | io_intf
  deriving DecidableEq, Repr

/-- Descriptor of the virtqueue (`struct virtq_desc`). -/
structure virtq_desc where
  addr : Addr
  len : Nat
  flags : Nat
  next : Nat

/-- Request header (`struct vioblk_request_header`). -/
structure vioblk_request_header where
  type : Nat
  reserved : Nat
  sector : Nat

/-- Submission ring (`struct virtq_avail`).  The record reserves one ring slot;
a slot index outside it is kept in the map as written, the overlap of such a
slot with the members that follow is not modelled. -/
structure virtq_avail where
  flags : Nat
  idx : Nat
  ring : Nat → Nat

/-- Completion ring (`struct virtq_used`), the members the drivers touch. -/
structure virtq_used where
  flags : Nat
  idx : Nat

/-- Member `vq` of the device record. -/
structure vioblk_vq where
  avail : virtq_avail
  used : virtq_used
  desc : Nat → virtq_desc
  req_header : vioblk_request_header
  req_status : Nat

/-- Device record (`struct vioblk_device`).  `regs` points at the register
block, which lives in the system state; `io_intf_ops` tells whether
`io_intf.ops` points at the driver's operation table. -/
structure vioblk_device where
  io_intf_ops : Bool
  instno : Nat
  irqno : Nat
  opened : Int
  readonly : Int
  blksz : Nat
  pos : Nat
  size : Nat
  blkcnt : Nat
  vq : vioblk_vq
  bufblkno : Nat
  blkbuf : Nat

/-- Registers of the MMIO block (`struct virtio_mmio_regs`) that the drivers access. -/
structure virtio_mmio_regs where
  device_id : Nat
  status : Nat
  queue_sel : Nat
  queue_num : Nat
  queue_ready : Nat
  interrupt_status : Nat
  interrupt_ack : Nat
  config_blk_capacity : Nat
  config_blk_blk_size : Nat

/-- Calls into collaborators, in program order.  `kmalloc extra` is the
allocation of a device record followed by `extra` bytes; a doorbell
notification keeps the device record as it stands at the call. -/
inductive Event where
  | kprintf
  | kmalloc (extra : Nat)
  | negotiate (wanted needed : List Nat)
  | virtio_attach_virtq (qid len : Nat) (desc_addr used_addr avail_addr : Addr)
  | intr_register_isr (irqno : Int) (prio : Nat)
  | device_register (name : String)
  | condition_init (name : String)
  | virtio_enable_virtq (qid : Nat)
  | intr_enable_irq (irqno : Nat)
  | virtio_reset_virtq (qid : Nat)
  | intr_disable_irq (irqno : Nat)
  | virtio_notify_avail (qid : Nat) (dev : vioblk_device)
  | condition_wait
  | condition_broadcast

/-- State a driver entry point runs in: the device record, the register block,
memory reached through numeric pointers, the `tail` bytes that follow the record
in its allocation, the state `hw` of the device behind the registers, and the
log of collaborator calls. -/
structure Sys (σ : Type) where
  dev : vioblk_device
  regs : virtio_mmio_regs
  mem : Mem
  tail : Nat → Nat
  hw : σ
  log : List Event

/-- Collaborators whose source is not part of the repository: the VirtIO
transport, the device registry and the device itself.  `serve` is what the
device has done to its own state, to memory and to the status byte by the time
`condition_wait` returns. -/
structure Env (σ : Type) where
  virtio_negotiate_features :
    virtio_mmio_regs → List Nat → List Nat → Int × List Nat × virtio_mmio_regs
  virtio_attach_virtq : virtio_mmio_regs → Nat → Nat → Addr → Addr → Addr → virtio_mmio_regs
  virtio_enable_virtq : virtio_mmio_regs → Nat → virtio_mmio_regs
  virtio_reset_virtq : virtio_mmio_regs → Nat → virtio_mmio_regs
  virtio_notify_avail : virtio_mmio_regs → Nat → virtio_mmio_regs
  device_register : String → Nat
  serve : σ → vioblk_device → Mem → σ × Mem × Nat

/-- Bytes found at the address of member `blkbuf` of the device record: the
eight bytes of the pointer itself (little-endian), then, the member being the
last one of the record, the bytes that follow the record. -/
def blkbuf_member_bytes (dev : vioblk_device) (tail : Nat → Nat) (i : Nat) : Nat :=
  if i < 8 then (dev.blkbuf / 256 ^ i) % 256 else tail (i - 8)

/-- Result of a read or write call: the value returned, the state left behind,
the caller's buffer, and the value of the local byte counter at the return. -/
structure RW (σ : Type) where
  ret : Ret
  sys : Sys σ
  buf : Nat → Nat
  count : Nat

/-- Update of one entry of the descriptor table. -/
def set_desc (t : Nat → virtq_desc) (i : Nat) (d : virtq_desc) : Nat → virtq_desc :=
  fun j => if j = i then d else t j

/-- Update of one slot of a ring. -/
def set_slot (r : Nat → Nat) (i v : Nat) : Nat → Nat :=
  fun j => if j = i then v else r j

/-- The device completes the request the driver has notified: `condition_wait`
returns with the device's effect on its state, on memory and on the status byte. -/
def condition_wait {σ : Type} (E : Env σ) (s : Sys σ) : Sys σ :=
  let r := E.serve s.hw s.dev s.mem
  { s with
    hw := r.1
    mem := r.2.1
    dev := { s.dev with vq := { s.dev.vq with req_status := r.2.2 % 256 } }
    log := s.log ++ [Event.condition_wait] }

/-- Doorbell: the transport call, logged with the device record as it stands. -/
def virtio_notify_avail {σ : Type} (E : Env σ) (s : Sys σ) (qid : Nat) : Sys σ :=
  { s with
    regs := E.virtio_notify_avail s.regs qid
    log := s.log ++ [Event.virtio_notify_avail qid s.dev] }

/-- Result of `vioblk_attach`: the register block and the call log it leaves,
and the device record when one was allocated. -/
structure AttachOutcome where
  regs : virtio_mmio_regs
  log : List Event
  dev : Option vioblk_device

/-- Feature sets (`virtio_featset_t`) as lists of feature bit numbers. -/
def virtio_featset_init : List Nat := []

def virtio_featset_add (s : List Nat) (f : Nat) : List Nat := f :: s

def virtio_featset_test (s : List Nat) (f : Nat) : Bool := decide (f ∈ s)

/-- A record after `memset(dev, 0, sizeof(struct vioblk_device))`. -/
def zeroed_device : vioblk_device where
  io_intf_ops := false
  instno := 0
  irqno := 0
  opened := 0
  readonly := 0
  blksz := 0
  pos := 0
  size := 0
  blkcnt := 0
  vq :=
    { avail := { flags := 0, idx := 0, ring := fun _ => 0 }
      used := { flags := 0, idx := 0 }
      desc := fun _ => { addr := Addr.abs 0, len := 0, flags := 0, next := 0 }
      req_header := { type := 0, reserved := 0, sector := 0 }
      req_status := 0 }
  bufblkno := 0
  blkbuf := 0

/-- State in which the entry points of an attached device run. -/
def Sys.ofAttach {σ : Type} (dev : vioblk_device) (o : AttachOutcome) (mem : Mem)
    (tail : Nat → Nat) (hw : σ) : Sys σ :=
  { dev := dev, regs := o.regs, mem := mem, tail := tail, hw := hw, log := o.log }

/-! ## `src/kern/vioblk_my.c` -/

namespace VioblkMy

/-- Translation of `vioblk_attach`; `none` is the failed assertion on the device id. -/
def vioblk_attach {σ : Type} (E : Env σ) (regs : virtio_mmio_regs) (irqno : Int) :
    Option AttachOutcome :=
  if regs.device_id ≠ VIRTIO_ID_BLOCK then none
  else
    let regs : virtio_mmio_regs := { regs with status := regs.status ||| VIRTIO_STAT_DRIVER }
    let needed_features : List Nat := virtio_featset_init
    let needed_features : List Nat := virtio_featset_add needed_features VIRTIO_F_RING_RESET
    let needed_features : List Nat := virtio_featset_add needed_features VIRTIO_F_INDIRECT_DESC
    let wanted_features : List Nat := virtio_featset_init
    let wanted_features : List Nat := virtio_featset_add wanted_features VIRTIO_BLK_F_BLK_SIZE
    let wanted_features : List Nat := virtio_featset_add wanted_features VIRTIO_BLK_F_TOPOLOGY
    let r : Int × List Nat × virtio_mmio_regs := E.virtio_negotiate_features regs wanted_features needed_features
    let result : Int := r.1
    let enabled_features : List Nat := r.2.1
    let regs : virtio_mmio_regs := r.2.2
    let log : List Event := [Event.negotiate wanted_features needed_features]
    if result ≠ 0 then
      some { regs := regs, log := log ++ [Event.kprintf], dev := none }
    else
      let blksz : Nat := if virtio_featset_test enabled_features VIRTIO_BLK_F_BLK_SIZE
        then regs.config_blk_blk_size else 512
      let log : List Event := log ++ [Event.kmalloc blksz]
      let dev : vioblk_device := zeroed_device
      let dev : vioblk_device := { dev with opened := 0 }
      let dev : vioblk_device := { dev with irqno := (irqno % 65536).toNat }
      let dev : vioblk_device := { dev with blksz := blksz }
      let dev : vioblk_device := { dev with size := (regs.config_blk_capacity * blksz) % 2 ^ 64 }
      let dev : vioblk_device := { dev with blkcnt := regs.config_blk_capacity }
      let desc : Nat → virtq_desc := dev.vq.desc
      let desc : Nat → virtq_desc := set_desc desc 0
        { addr := Addr.desc 0, len := 16 * 3, flags := VIRTQ_DESC_F_INDIRECT, next := 0 }
      let desc : Nat → virtq_desc := set_desc desc 1
        { addr := Addr.req_header, len := 16, flags := VIRTQ_DESC_F_NEXT, next := 2 }
      let desc : Nat → virtq_desc := set_desc desc 2
        { addr := Addr.abs dev.blkbuf, len := dev.blksz, flags := VIRTQ_DESC_F_NEXT, next := 3 }
      let desc : Nat → virtq_desc := set_desc desc 3
        { addr := Addr.req_status, len := 1, flags := VIRTQ_DESC_F_WRITE, next := 0 }
      let dev : vioblk_device := { dev with vq := { dev.vq with desc := desc } }
      let regs : virtio_mmio_regs := { regs with queue_sel := 0 }
      let regs : virtio_mmio_regs := { regs with queue_ready := 0 }
      let regs : virtio_mmio_regs := E.virtio_attach_virtq regs 0 4 (Addr.desc 0) Addr.used Addr.avail
      let log : List Event := log ++ [Event.virtio_attach_virtq 0 4 (Addr.desc 0) Addr.used Addr.avail]
      let log : List Event := log ++ [Event.intr_register_isr irqno VIOBLK_IRQ_PRIO]
      let dev : vioblk_device := { dev with instno := E.device_register "blk" % 65536 }
      let log : List Event := log ++ [Event.device_register "blk"]
      let log : List Event := log ++ [Event.condition_init "used"]
      let dev : vioblk_device := { dev with io_intf_ops := true }
      let regs : virtio_mmio_regs := { regs with status := regs.status ||| VIRTIO_STAT_DRIVER_OK }
      some { regs := regs, log := log, dev := some dev }

/-- Translation of `vioblk_open`; `ioptr` is the content of the caller's `*ioptr`. -/
def vioblk_open {σ : Type} (E : Env σ) (s : Sys σ) (ioptr : Addr) : Ret × Sys σ × Addr :=
  if s.dev.opened ≠ 0 then (Ret.neg Errno.EBUSY, s, ioptr)
  else
    let s : Sys σ := { s with
      regs := E.virtio_enable_virtq s.regs 0
      log := s.log ++ [Event.virtio_enable_virtq 0] }
    let s : Sys σ := { s with log := s.log ++ [Event.intr_enable_irq s.dev.irqno] }
    let ioptr : Addr := Addr.io_intf
    let s : Sys σ := { s with dev := { s.dev with opened := 1 } }
    (Ret.val 0, s, ioptr)

/-- Translation of `vioblk_close`. -/
def vioblk_close {σ : Type} (E : Env σ) (s : Sys σ) : Sys σ :=
  if s.dev.opened = 0 then s
  else
    let s : Sys σ := { s with
      regs := E.virtio_reset_virtq s.regs 0
      log := s.log ++ [Event.virtio_reset_virtq 0] }
    let s : Sys σ := { s with log := s.log ++ [Event.intr_disable_irq s.dev.irqno] }
    { s with dev := { s.dev with opened := 0 } }

/-- One chunk of `vioblk_read`, from the request header to the wait: the header,
the three descriptors, the ring slot and the submission index are written, the
doorbell is rung and the caller waits for the completion.  Lean's `/` is total
where C's is not: the sector is meaningful for `blksz > 0` only. -/
def vioblk_read_submit {σ : Type} (E : Env σ) (s : Sys σ) (copy_size : Nat) : Sys σ :=
  let desc_idx : Nat := 1
  let dev : vioblk_device := s.dev
  let dev : vioblk_device := { dev with vq := { dev.vq with req_header :=
    { type := VIRTIO_BLK_T_IN, reserved := 0, sector := dev.pos / dev.blksz } } }
  let desc : Nat → virtq_desc := dev.vq.desc
  let desc : Nat → virtq_desc := set_desc desc desc_idx
    { addr := Addr.req_header, len := 16, flags := VIRTQ_DESC_F_NEXT, next := desc_idx + 1 }
  let desc : Nat → virtq_desc := set_desc desc (desc_idx + 1)
    { addr := Addr.abs dev.blkbuf, len := copy_size % 2 ^ 32,
      flags := VIRTQ_DESC_F_NEXT ||| VIRTQ_DESC_F_WRITE, next := desc_idx + 2 }
  let desc : Nat → virtq_desc := set_desc desc (desc_idx + 2)
    { addr := Addr.req_status, len := 1, flags := VIRTQ_DESC_F_WRITE, next := 0 }
  let dev : vioblk_device := { dev with vq := { dev.vq with desc := desc } }
  let avail_idx : Nat := 0
  let dev : vioblk_device := { dev with vq := { dev.vq with avail :=
    { dev.vq.avail with ring := set_slot dev.vq.avail.ring avail_idx desc_idx } } }
  let dev : vioblk_device := { dev with vq := { dev.vq with avail :=
    { dev.vq.avail with idx := (dev.vq.avail.idx + 1) % 2 ^ 16 } } }
  let s : Sys σ := { s with dev := dev }
  let s : Sys σ := virtio_notify_avail E s 0
  condition_wait E s

/-- The `while` loop of `vioblk_read`: `fuel` bounds the number of iterations,
`none` means the loop is still running when the fuel is spent. -/
def vioblk_read_loop {σ : Type} (E : Env σ) (bufsz : Nat) :
    Nat → Sys σ → (Nat → Nat) → Nat → Option (RW σ)
  | 0, _, _, _ => none
  | fuel + 1, s, buf, bytes_read =>
    if bytes_read < bufsz then
      if s.dev.pos ≥ s.dev.size then
        some { ret := Ret.val (toLong bytes_read), sys := s, buf := buf, count := bytes_read }
      else
        let copy_size : Nat :=
          if bufsz - bytes_read < s.dev.blksz then bufsz - bytes_read else s.dev.blksz
        let s : Sys σ := vioblk_read_submit E s copy_size
        if s.dev.vq.req_status ≠ VIRTIO_BLK_S_OK then
          some { ret := Ret.neg Errno.ioerr, sys := s, buf := buf, count := bytes_read }
        else
          let buf : Nat → Nat :=
            memcpy buf bytes_read (blkbuf_member_bytes s.dev s.tail) 0 copy_size
          let s : Sys σ :=
            { s with dev := { s.dev with pos := (s.dev.pos + copy_size) % 2 ^ 64 } }
          vioblk_read_loop E bufsz fuel s buf (bytes_read + copy_size)
    else
      some { ret := Ret.val (toLong bytes_read), sys := s, buf := buf, count := bytes_read }

/-- Translation of `vioblk_read`. -/
def vioblk_read {σ : Type} (E : Env σ) (fuel : Nat) (s : Sys σ) (buf : Nat → Nat)
    (bufsz : Nat) : Option (RW σ) :=
  vioblk_read_loop E bufsz fuel s buf 0

/-- One chunk of `vioblk_write`, from the request header to the wait: the header
is written, the caller's bytes are copied to where `blkbuf` points, the ring slot
and the submission index are written, the doorbell is rung and the caller waits
for the completion. -/
def vioblk_write_submit {σ : Type} (E : Env σ) (s : Sys σ) (buf : Nat → Nat)
    (bytes_written copy_size : Nat) : Sys σ :=
  let dev : vioblk_device := s.dev
  let dev : vioblk_device := { dev with vq := { dev.vq with req_header :=
    { dev.vq.req_header with type := VIRTIO_BLK_T_OUT } } }
  let dev : vioblk_device := { dev with vq := { dev.vq with req_header :=
    { dev.vq.req_header with sector := dev.pos / dev.blksz } } }
  let mem : Mem := memcpy s.mem dev.blkbuf buf bytes_written copy_size
  let dev : vioblk_device := { dev with vq := { dev.vq with avail :=
    { dev.vq.avail with ring := set_slot dev.vq.avail.ring dev.vq.avail.idx 0 } } }
  let dev : vioblk_device :=
    { dev with vq := { dev.vq with avail := { dev.vq.avail with idx := 0 } } }
  let s : Sys σ := { s with dev := dev, mem := mem }
  let s : Sys σ := virtio_notify_avail E s 0
  condition_wait E s

/-- The `while` loop of `vioblk_write`, with the local `status_byte` the loop tests. -/
def vioblk_write_loop {σ : Type} (E : Env σ) (buf : Nat → Nat) (n : Nat)
    (block_size_write status_byte : Nat) : Nat → Sys σ → Nat → Option (RW σ)
  | 0, _, _ => none
  | fuel + 1, s, bytes_written =>
    if bytes_written < n then
      if s.dev.pos ≥ s.dev.size then
        some { ret := Ret.val (toLong bytes_written), sys := s, buf := buf, count := bytes_written }
      else
        let copy_size : Nat :=
          if n - bytes_written < block_size_write then n - bytes_written else block_size_write
        let s : Sys σ := vioblk_write_submit E s buf bytes_written copy_size
        if status_byte ≠ VIRTIO_BLK_S_OK then
          some { ret := Ret.neg Errno.ioerr, sys := s, buf := buf, count := bytes_written }
        else
          let s : Sys σ :=
            { s with dev := { s.dev with pos := (s.dev.pos + copy_size) % 2 ^ 64 } }
          vioblk_write_loop E buf n block_size_write status_byte fuel s (bytes_written + copy_size)
    else
      some { ret := Ret.val (toLong bytes_written), sys := s, buf := buf, count := bytes_written }

/-- Translation of `vioblk_write`. -/
def vioblk_write {σ : Type} (E : Env σ) (fuel : Nat) (s : Sys σ) (buf : Nat → Nat)
    (n : Nat) : Option (RW σ) :=
  let bytes_written : Nat := 0
  let block_size_write : Nat := s.dev.blksz
  let status_byte : Nat := 0
  if s.dev.readonly ≠ 0 then
    some { ret := Ret.val (-2), sys := s, buf := buf, count := bytes_written }
  else
    vioblk_write_loop E buf n block_size_write status_byte fuel s bytes_written

/-- Translation of `vioblk_getlen`: `*lenptr = dev->size` is a 64-bit store. -/
def vioblk_getlen {σ : Type} (s : Sys σ) (lenptr : Nat) : Ret × Sys σ :=
  (Ret.val 0, { s with mem := store_le s.mem lenptr 8 s.dev.size })

/-- Translation of `vioblk_getpos`. -/
def vioblk_getpos {σ : Type} (s : Sys σ) (posptr : Nat) : Ret × Sys σ :=
  (Ret.val 0, { s with mem := store_le s.mem posptr 8 s.dev.pos })

/-- Translation of `vioblk_setpos`: `dev->pos = *posptr` is a 64-bit load. -/
def vioblk_setpos {σ : Type} (s : Sys σ) (posptr : Nat) : Ret × Sys σ :=
  (Ret.val 0, { s with dev := { s.dev with pos := load_le s.mem posptr 8 } })

/-- Translation of `vioblk_getblksz`: `*blkszptr = dev->blksz` is a 32-bit store. -/
def vioblk_getblksz {σ : Type} (s : Sys σ) (blkszptr : Nat) : Ret × Sys σ :=
  (Ret.val 0, { s with mem := store_le s.mem blkszptr 4 s.dev.blksz })

/-- Translation of `vioblk_ioctl`; `arg` is the numeric value of the pointer. -/
def vioblk_ioctl {σ : Type} (s : Sys σ) (cmd : Int) (arg : Nat) : Ret × Sys σ :=
  if cmd = IOCTL_GETLEN then vioblk_getlen s arg
  else if cmd = IOCTL_GETPOS then vioblk_getpos s arg
  else if cmd = IOCTL_SETPOS then vioblk_setpos s arg
  else if cmd = IOCTL_GETBLKSZ then vioblk_getblksz s arg
  else (Ret.neg Errno.ENOTSUP, s)

end VioblkMy

/-! ## `src/kern/vioblk.c` -/

namespace Vioblk

/-- Translation of `vioblk_attach`; `none` is the failed assertion on the device id. -/
def vioblk_attach {σ : Type} (E : Env σ) (regs : virtio_mmio_regs) (irqno : Int) :
    Option AttachOutcome :=
  if regs.device_id ≠ VIRTIO_ID_BLOCK then none
  else
    let regs : virtio_mmio_regs := { regs with status := regs.status ||| VIRTIO_STAT_DRIVER }
    let needed_features : List Nat := virtio_featset_init
    let needed_features : List Nat := virtio_featset_add needed_features VIRTIO_F_RING_RESET
    let needed_features : List Nat := virtio_featset_add needed_features VIRTIO_F_INDIRECT_DESC
    let wanted_features : List Nat := virtio_featset_init
    let wanted_features : List Nat := virtio_featset_add wanted_features VIRTIO_BLK_F_BLK_SIZE
    let wanted_features : List Nat := virtio_featset_add wanted_features VIRTIO_BLK_F_TOPOLOGY
    let r : Int × List Nat × virtio_mmio_regs := E.virtio_negotiate_features regs wanted_features needed_features
    let result : Int := r.1
    let enabled_features : List Nat := r.2.1
    let regs : virtio_mmio_regs := r.2.2
    let log : List Event := [Event.negotiate wanted_features needed_features]
    if result ≠ 0 then
      some { regs := regs, log := log ++ [Event.kprintf], dev := none }
    else
      let blksz : Nat := if virtio_featset_test enabled_features VIRTIO_BLK_F_BLK_SIZE
        then regs.config_blk_blk_size else 512
      let log : List Event := log ++ [Event.kmalloc blksz]
      let dev : vioblk_device := zeroed_device
      let dev : vioblk_device := { dev with io_intf_ops := true }
      let dev : vioblk_device := { dev with irqno := (irqno % 65536).toNat }
      let dev : vioblk_device := { dev with opened := 0 }
      let dev : vioblk_device := { dev with blksz := blksz }
      let dev : vioblk_device := { dev with pos := 0 }
      let dev : vioblk_device := { dev with size := (regs.config_blk_capacity * blksz) % 2 ^ 64 }
      let dev : vioblk_device := { dev with blkcnt := regs.config_blk_capacity }
      let log : List Event := log ++ [Event.condition_init "usedupdated"]
      let dev : vioblk_device := { dev with bufblkno := 2 ^ 64 - 1 }
      let descaddr : Addr := Addr.desc 0
      let usedaddr : Addr := Addr.used
      let availaddr : Addr := Addr.avail
      let regs : virtio_mmio_regs := E.virtio_attach_virtq regs VIRTIO_BLK_QID 4 descaddr usedaddr availaddr
      let log : List Event := log ++ [Event.virtio_attach_virtq VIRTIO_BLK_QID 4 descaddr usedaddr availaddr]
      let desc : Nat → virtq_desc := dev.vq.desc
      let desc : Nat → virtq_desc := set_desc desc 0
        { desc 0 with len := 1, flags := VIRTIO_F_INDIRECT_DESC, next := 0 }
      let desc : Nat → virtq_desc := set_desc desc 1
        { addr := Addr.req_header, flags := VIRTQ_DESC_F_NEXT, len := 16, next := 2 }
      let desc : Nat → virtq_desc := set_desc desc 2
        { addr := Addr.abs dev.blkbuf, flags := VIRTQ_DESC_F_NEXT, len := dev.blksz, next := 3 }
      let desc : Nat → virtq_desc := set_desc desc 3
        { addr := Addr.req_status, flags := VIRTQ_DESC_F_NEXT, len := 8, next := 0 }
      let dev : vioblk_device := { dev with vq := { dev.vq with desc := desc } }
      let log : List Event := log ++ [Event.intr_register_isr irqno VIOBLK_IRQ_PRIO]
      let dev : vioblk_device := { dev with instno := E.device_register "blk" % 65536 }
      let log : List Event := log ++ [Event.device_register "blk"]
      let dev : vioblk_device := { dev with vq := { dev.vq with avail := { dev.vq.avail with idx := 0 } } }
      let dev : vioblk_device := { dev with vq := { dev.vq with used := { dev.vq.used with idx := 0 } } }
      let regs : virtio_mmio_regs := { regs with status := regs.status ||| VIRTIO_STAT_DRIVER_OK }
      some { regs := regs, log := log, dev := some dev }

/-- Translation of `vioblk_open`; `ioptr` is the content of the caller's `*ioptr`. -/
def vioblk_open {σ : Type} (E : Env σ) (s : Sys σ) (ioptr : Addr) : Ret × Sys σ × Addr :=
  if s.dev.opened ≠ 0 then (Ret.neg Errno.EBUSY, s, ioptr)
  else
    let s : Sys σ := { s with
      regs := E.virtio_enable_virtq s.regs VIRTIO_BLK_QID
      log := s.log ++ [Event.virtio_enable_virtq VIRTIO_BLK_QID] }
    let s : Sys σ := { s with log := s.log ++ [Event.intr_enable_irq s.dev.irqno] }
    let ioptr : Addr := Addr.io_intf
    let s : Sys σ := { s with dev := { s.dev with opened := 1 } }
    (Ret.val 0, s, ioptr)

/-- Translation of `vioblk_close`. -/
def vioblk_close {σ : Type} (E : Env σ) (s : Sys σ) : Sys σ :=
  if s.dev.opened = 0 then s
  else
    let s : Sys σ := { s with
      regs := E.virtio_reset_virtq s.regs VIRTIO_BLK_QID
      log := s.log ++ [Event.virtio_reset_virtq VIRTIO_BLK_QID] }
    let s : Sys σ := { s with log := s.log ++ [Event.intr_disable_irq s.dev.irqno] }
    { s with dev := { s.dev with opened := 0 } }

/-- One pass of the loop of `vioblk_read` or `vioblk_write`, from the request
header to the wait: the header gets `type` and the sector, the doorbell is rung,
the ring slot is written and the caller waits for the completion. -/
def vioblk_submit {σ : Type} (E : Env σ) (s : Sys σ) (type blksec : Nat) : Sys σ :=
  let dev : vioblk_device := s.dev
  let dev : vioblk_device := { dev with vq := { dev.vq with req_header :=
    { dev.vq.req_header with type := type } } }
  let dev : vioblk_device := { dev with vq := { dev.vq with req_header :=
    { dev.vq.req_header with sector := blksec } } }
  let s : Sys σ := { s with dev := dev }
  let s : Sys σ := virtio_notify_avail E s VIRTIO_BLK_QID
  let dev : vioblk_device := s.dev
  let dev : vioblk_device := { dev with vq := { dev.vq with avail :=
    { dev.vq.avail with ring := set_slot dev.vq.avail.ring dev.vq.avail.idx 0 } } }
  let s : Sys σ := { s with dev := dev }
  condition_wait E s

/-- The `while (n < bufsz)` loop of `vioblk_read`; the loop body never assigns
`n`.  `fuel` bounds the number of iterations, `none` means the loop is still
running when the fuel is spent. -/
def vioblk_read_loop {σ : Type} (E : Env σ) (bufsz n : Nat) :
    Nat → Sys σ → (Nat → Nat) → Nat → Nat → Option (RW σ)
  | 0, _, _, _, _ => none
  | fuel + 1, s, buf, blksec, offset =>
    if n < bufsz then
      let bytes_copy : Nat := if bufsz - n > s.dev.blksz then s.dev.blksz else bufsz - n
      let s : Sys σ := vioblk_submit E s VIRTIO_BLK_T_IN blksec
      if s.dev.vq.req_status ≠ VIRTIO_BLK_S_OK then
        some { ret := Ret.neg Errno.ioerr, sys := s, buf := buf, count := n }
      else
        let buf : Nat → Nat := memcpy buf offset s.mem s.dev.blkbuf bytes_copy
        let offset : Nat := (offset + s.dev.blksz) % 2 ^ 64
        let blksec : Nat := (blksec + s.dev.blksz / 512) % 2 ^ 64
        vioblk_read_loop E bufsz n fuel s buf blksec offset
    else
      some { ret := Ret.val (toLong bufsz), sys := s, buf := buf, count := n }

/-- Translation of `vioblk_read`. -/
def vioblk_read {σ : Type} (E : Env σ) (fuel : Nat) (s : Sys σ) (buf : Nat → Nat)
    (bufsz : Nat) : Option (RW σ) :=
  let n : Nat := 0
  let blksec : Nat := 0
  let offset : Nat := 0
  let s : Sys σ := { s with dev := { s.dev with vq := { s.dev.vq with avail :=
    { s.dev.vq.avail with idx := 0 } } } }
  vioblk_read_loop E bufsz n fuel s buf blksec offset

/-- The `while (bw < n)` loop of `vioblk_write`; the loop body never assigns `bw`. -/
def vioblk_write_loop {σ : Type} (E : Env σ) (buf : Nat → Nat) (n bw : Nat) :
    Nat → Sys σ → Nat → Nat → Option (RW σ)
  | 0, _, _, _ => none
  | fuel + 1, s, blksec, offset =>
    if bw < n then
      let bytes_copy : Nat := if n - bw > s.dev.blksz then s.dev.blksz else n - bw
      let s : Sys σ := vioblk_submit E s VIRTIO_BLK_T_OUT blksec
      if s.dev.vq.req_status ≠ VIRTIO_BLK_S_OK then
        some { ret := Ret.neg Errno.ioerr, sys := s, buf := buf, count := bw }
      else
        let s : Sys σ := { s with mem := memcpy s.mem s.dev.blkbuf buf offset bytes_copy }
        let offset : Nat := (offset + s.dev.blksz) % 2 ^ 64
        let blksec : Nat := (blksec + s.dev.blksz / 512) % 2 ^ 64
        vioblk_write_loop E buf n bw fuel s blksec offset
    else
      some { ret := Ret.val (toLong n), sys := s, buf := buf, count := bw }

/-- Translation of `vioblk_write`. -/
def vioblk_write {σ : Type} (E : Env σ) (fuel : Nat) (s : Sys σ) (buf : Nat → Nat)
    (n : Nat) : Option (RW σ) :=
  let bw : Nat := 0
  let blksec : Nat := 0
  let offset : Nat := 0
  let s : Sys σ := { s with dev := { s.dev with vq := { s.dev.vq with avail :=
    { s.dev.vq.avail with idx := 0 } } } }
  vioblk_write_loop E buf n bw fuel s blksec offset

/-- Translation of `vioblk_getlen`: `*lenptr = dev->regs->queue_num` is a 64-bit store. -/
def vioblk_getlen {σ : Type} (s : Sys σ) (lenptr : Nat) : Ret × Sys σ :=
  (Ret.val 0, { s with mem := store_le s.mem lenptr 8 s.regs.queue_num })

/-- Translation of `vioblk_getpos`. -/
def vioblk_getpos {σ : Type} (s : Sys σ) (posptr : Nat) : Ret × Sys σ :=
  (Ret.val 0, { s with mem := store_le s.mem posptr 8 s.dev.pos })

/-- Translation of `vioblk_setpos`: `dev->pos = *posptr` is a 64-bit load. -/
def vioblk_setpos {σ : Type} (s : Sys σ) (posptr : Nat) : Ret × Sys σ :=
  (Ret.val 0, { s with dev := { s.dev with pos := load_le s.mem posptr 8 } })

/-- Translation of `vioblk_getblksz`: `*blkszptr = dev->blksz` is a 32-bit store. -/
def vioblk_getblksz {σ : Type} (s : Sys σ) (blkszptr : Nat) : Ret × Sys σ :=
  (Ret.val 0, { s with mem := store_le s.mem blkszptr 4 s.dev.blksz })

/-- Translation of `vioblk_ioctl`; `arg` is the numeric value of the pointer. -/
def vioblk_ioctl {σ : Type} (s : Sys σ) (cmd : Int) (arg : Nat) : Ret × Sys σ :=
  if cmd = IOCTL_GETLEN then vioblk_getlen s arg
  else if cmd = IOCTL_GETPOS then vioblk_getpos s arg
  else if cmd = IOCTL_SETPOS then vioblk_setpos s arg
  else if cmd = IOCTL_GETBLKSZ then vioblk_getblksz s arg
  else (Ret.neg Errno.ENOTSUP, s)

end Vioblk

/-! ## Environments used to run the drivers -/

/-- The negotiation call `vioblk_attach` makes in both drafts. -/
def attach_negotiation {σ : Type} (E : Env σ) (regs : virtio_mmio_regs) :
    Int × List Nat × virtio_mmio_regs :=
  E.virtio_negotiate_features { regs with status := regs.status ||| VIRTIO_STAT_DRIVER }
    [VIRTIO_BLK_F_TOPOLOGY, VIRTIO_BLK_F_BLK_SIZE] [VIRTIO_F_INDIRECT_DESC, VIRTIO_F_RING_RESET]

/-- Modelled from the spec: the VirtIO transport and the device registry are not
among the sources.  Negotiation against a device advertising `features` fails
when a required feature is absent and otherwise enables the required features
and the advertised optional ones; attaching a queue records its size in the
queue-size register; enabling and resetting a queue set and clear its ready
register; the registry hands out instance 0.  The device completes requests
with `serve`. -/
def transport_env {σ : Type} (features : List Nat)
    (serve : σ → vioblk_device → Mem → σ × Mem × Nat) : Env σ where
  virtio_negotiate_features := fun regs wanted needed =>
    if needed.all (fun f => decide (f ∈ features)) then
      (0, needed ++ wanted.filter (fun f => decide (f ∈ features)), regs)
    else (-1, [], regs)
  virtio_attach_virtq := fun regs _ len _ _ _ => { regs with queue_num := len }
  virtio_enable_virtq := fun regs _ => { regs with queue_ready := 1 }
  virtio_reset_virtq := fun regs _ => { regs with queue_ready := 0 }
  virtio_notify_avail := fun regs _ => regs
  device_register := fun _ => 0
  serve := serve

/-- Device of the round-trip property, in the property's words: it stores the
data buffer at the header's sector on a write request, fills the data buffer
from that sector on a read request, and sets status OK.  The data buffer is the
one the data descriptor `desc[2]` addresses; the disk maps a sector number and
an offset to a byte. -/
def faithful_serve (disk : Nat → Nat → Nat) (dev : vioblk_device) (mem : Mem) :
    (Nat → Nat → Nat) × Mem × Nat :=
  let h := dev.vq.req_header
  let d := dev.vq.desc 2
  match d.addr with
  | Addr.abs a =>
    if h.type = VIRTIO_BLK_T_OUT then
      (fun sec i => if sec = h.sector ∧ i < d.len then mem (a + i) else disk sec i,
        mem, VIRTIO_BLK_S_OK)
    else
      (disk, memcpy mem a (disk h.sector) 0 d.len, VIRTIO_BLK_S_OK)
  | _ => (disk, mem, VIRTIO_BLK_S_OK)

/-- Device that completes its `k`-th request (counting from 0) with status
`st k` and touches no memory; its state is the number of requests completed. -/
def status_serve (st : Nat → Nat) (k : Nat) (_ : vioblk_device) (mem : Mem) :
    Nat × Mem × Nat :=
  (k + 1, mem, st k)

/-- Register block of a block device that reports `capacity` sectors and block
size `blk_size`. -/
def block_regs (capacity blk_size : Nat) : virtio_mmio_regs where
  device_id := VIRTIO_ID_BLOCK
  status := 0
  queue_sel := 0
  queue_num := 0
  queue_ready := 0
  interrupt_status := 0
  interrupt_ack := 0
  config_blk_capacity := capacity
  config_blk_blk_size := blk_size

/-- Calls of the open/close interface. -/
inductive Call where
  | vioblk_open
  | vioblk_close
  deriving DecidableEq, Repr

/-- The device is open after `calls`: an earlier open with no close since. -/
def OpenBefore (calls : List Call) : Prop :=
  ∃ pre post, calls = pre ++ Call.vioblk_open :: post ∧ Call.vioblk_close ∉ post

/-- State after a sequence of open/close calls of `vioblk_my.c`. -/
def VioblkMy.run_calls {σ : Type} (E : Env σ) (ioptr : Addr) : List Call → Sys σ → Sys σ
  | [], s => s
  | Call.vioblk_open :: cs, s => VioblkMy.run_calls E ioptr cs (VioblkMy.vioblk_open E s ioptr).2.1
  | Call.vioblk_close :: cs, s => VioblkMy.run_calls E ioptr cs (VioblkMy.vioblk_close E s)

/-- State after a sequence of open/close calls of `vioblk.c`. -/
def Vioblk.run_calls {σ : Type} (E : Env σ) (ioptr : Addr) : List Call → Sys σ → Sys σ
  | [], s => s
  | Call.vioblk_open :: cs, s => Vioblk.run_calls E ioptr cs (Vioblk.vioblk_open E s ioptr).2.1
  | Call.vioblk_close :: cs, s => Vioblk.run_calls E ioptr cs (Vioblk.vioblk_close E s)

/-- Attach outcome of a successful attach (a placeholder outcome otherwise). -/
def outcome_of (x : Option AttachOutcome) : AttachOutcome :=
  x.getD { regs := block_regs 0 0, log := [], dev := none }

/-- Device record of an attach outcome (the zeroed record when none was allocated). -/
def device_of (o : AttachOutcome) : vioblk_device :=
  o.dev.getD zeroed_device

/-- Environment of the examples: the transport over a device that advertises
the two required features and serves requests faithfully. -/
def demo_env : Env (Nat → Nat → Nat) :=
  transport_env [VIRTIO_F_INDIRECT_DESC, VIRTIO_F_RING_RESET] faithful_serve

/-- The device of the spec's scenario: 16 blocks of 512 bytes. -/
def demo_regs : virtio_mmio_regs := block_regs 16 512

/-- Memory holding zero everywhere. -/
def zero_mem : Mem := fun _ => 0

/-- Disk holding zero everywhere. -/
def empty_disk : Nat → Nat → Nat := fun _ _ => 0

/-- State after `vioblk_attach` of `vioblk_my.c` on the scenario device, with
zeroed memory and an empty disk. -/
def demo_my : Sys (Nat → Nat → Nat) :=
  Sys.ofAttach (device_of (outcome_of (VioblkMy.vioblk_attach demo_env demo_regs 1)))
    (outcome_of (VioblkMy.vioblk_attach demo_env demo_regs 1)) zero_mem zero_mem empty_disk

/-- State after `vioblk_attach` of `vioblk.c` on the scenario device, with
zeroed memory and an empty disk. -/
def demo_vioblk : Sys (Nat → Nat → Nat) :=
  Sys.ofAttach (device_of (outcome_of (Vioblk.vioblk_attach demo_env demo_regs 1)))
    (outcome_of (Vioblk.vioblk_attach demo_env demo_regs 1)) zero_mem zero_mem empty_disk

/-- Environment of the examples whose device also advertises the BLK_SIZE feature. -/
def demo_env_blk_size : Env (Nat → Nat → Nat) :=
  transport_env [VIRTIO_F_INDIRECT_DESC, VIRTIO_F_RING_RESET, VIRTIO_BLK_F_BLK_SIZE]
    faithful_serve

/-- State after `vioblk_attach` of `vioblk_my.c` on a device that advertises
BLK_SIZE and reports 16 blocks of 4096 bytes. -/
def demo_my_4096 : Sys (Nat → Nat → Nat) :=
  Sys.ofAttach
    (device_of (outcome_of (VioblkMy.vioblk_attach demo_env_blk_size (block_regs 16 4096) 1)))
    (outcome_of (VioblkMy.vioblk_attach demo_env_blk_size (block_regs 16 4096) 1))
    zero_mem zero_mem empty_disk

/-- The caller places the 64-bit argument `v` at address `a` before an ioctl. -/
def with_arg {σ : Type} (s : Sys σ) (a v : Nat) : Sys σ :=
  { s with mem := store_le s.mem a 8 v }

/-- Environment whose device completes its `k`-th request with status `st k`. -/
def status_env (st : Nat → Nat) : Env Nat :=
  transport_env [VIRTIO_F_INDIRECT_DESC, VIRTIO_F_RING_RESET] (status_serve st)

/-- State after `vioblk_attach` and `vioblk_open` of `vioblk_my.c` on a device of
2 blocks of 512 bytes (capacity 1024) followed by SETPOS(`pos`), the ioctl
argument being placed at address 4096. -/
def small_my (st : Nat → Nat) (pos : Nat) : Sys Nat :=
  (VioblkMy.vioblk_ioctl
    (with_arg
      (VioblkMy.vioblk_open (status_env st)
        (Sys.ofAttach
          (device_of (outcome_of (VioblkMy.vioblk_attach (status_env st) (block_regs 2 512) 1)))
          (outcome_of (VioblkMy.vioblk_attach (status_env st) (block_regs 2 512) 1))
          zero_mem zero_mem 0)
        (Addr.abs 0)).2.1
      4096 pos)
    IOCTL_SETPOS 4096).2

/-- The scenario device of `vioblk_my.c` after `vioblk_open`. -/
def demo_my_open : Sys (Nat → Nat → Nat) :=
  (VioblkMy.vioblk_open demo_env demo_my (Addr.abs 0)).2.1

/-- The scenario device of `vioblk.c` after `vioblk_open`. -/
def demo_vioblk_open : Sys (Nat → Nat → Nat) :=
  (Vioblk.vioblk_open demo_env demo_vioblk (Addr.abs 0)).2.1

/-- The round-trip scenario on `vioblk_my.c`: SETPOS(`P`), `vioblk_write(buf, N)`,
SETPOS(`P`), `vioblk_read(out, N)`, the ioctl argument being placed at address
`arg`.  The result is the value the write returned and the result of the read. -/
def VioblkMy.roundtrip {σ : Type} (E : Env σ) (fuel : Nat) (s : Sys σ) (arg P : Nat)
    (buf out : Nat → Nat) (N : Nat) : Option (Ret × RW σ) :=
  let s1 := (VioblkMy.vioblk_ioctl (with_arg s arg P) IOCTL_SETPOS arg).2
  match VioblkMy.vioblk_write E fuel s1 buf N with
  | none => none
  | some w =>
    let s2 := (VioblkMy.vioblk_ioctl (with_arg w.sys arg P) IOCTL_SETPOS arg).2
    match VioblkMy.vioblk_read E fuel s2 out N with
    | none => none
    | some r => some (w.ret, r)

/-- Result of a read or write call that returned (a placeholder built from `s`
and `buf` when it did not). -/
def RW.ofOption {σ : Type} (x : Option (RW σ)) (s : Sys σ) (buf : Nat → Nat) : RW σ :=
  x.getD { ret := Ret.val 0, sys := s, buf := buf, count := 0 }

/-- Status sequence of a device that completes its first request and fails every later one. -/
def second_fails (k : Nat) : Nat :=
  if k = 0 then VIRTIO_BLK_S_OK else VIRTIO_BLK_S_IOERR

/-- Result of `vioblk_read(out, 1024)` of `vioblk_my.c` at position 0 of the
2-block device whose second request fails, `out` holding 9 everywhere. -/
def second_fails_read : RW Nat :=
  RW.ofOption
    (VioblkMy.vioblk_read (status_env second_fails) 2 (small_my second_fails 0) (fun _ => 9) 1024)
    (small_my second_fails 0) (fun _ => 9)

/-- Number of doorbell notifications in a call log. -/
def doorbells : List Event → Nat
  | [] => 0
  | Event.virtio_notify_avail _ _ :: l => doorbells l + 1
  | _ :: l => doorbells l

/-! ## Interrupt handlers of the two drafts -/

/-- Translation of `vioblk_isr` of `vioblk_my.c`.  The read of the
`interrupt_status` register delivers the value the register block holds. -/
def VioblkMy.vioblk_isr {σ : Type} (s : Sys σ) (irqno : Int) : Sys σ :=
  if irqno ≠ (s.dev.irqno : Int) then s
  else
    let interrupt_status : Nat := s.regs.interrupt_status
    let s : Sys σ :=
      if interrupt_status = 0 then { s with log := s.log ++ [Event.condition_broadcast] }
      else s
    { s with regs := { s.regs with interrupt_ack := interrupt_status } }

/-- Translation of `vioblk_isr` of `vioblk.c`. -/
def Vioblk.vioblk_isr {σ : Type} (s : Sys σ) (irqno : Int) : Sys σ :=
  if irqno ≠ (s.dev.irqno : Int) then s
  else
    let status : Nat := s.regs.interrupt_status
    if status = 0 then
      let s : Sys σ := { s with log := s.log ++ [Event.condition_broadcast] }
      { s with regs := { s.regs with interrupt_ack := 0 } }
    else s

/-- The state `s` at a moment when the device's `interrupt_status` register reads `v`. -/
def with_interrupt_status {σ : Type} (s : Sys σ) (v : Nat) : Sys σ :=
  { s with regs := { s.regs with interrupt_status := v } }

/-- Environment of a device that advertises none of the required features. -/
def featureless_env : Env (Nat → Nat → Nat) :=
  transport_env [] faithful_serve

/-! ## `src/kern/plic.c` -/

namespace Plic

def PLIC_IOBASE : Nat := 0x0C000000
def PLIC_SRCCNT : Nat := 0x400
def PLIC_CTXCNT : Nat := 1
def PENDING : Nat := 0x1000
def ENABLE : Nat := 0x2000
def PRIORITY : Nat := 0x200000
def CLAIM : Nat := 0x200004

/-- The 32-bit store `*address = v` on a register file that maps the byte
address of a word to the word. -/
def store32 (r : Nat → Nat) (address v : Nat) : Nat → Nat :=
  fun a => if a = address then v % 2 ^ 32 else r a

/-- Translation of `plic_set_source_priority`: the word pointer
`(uint32_t*)PLIC_IOBASE + srcno` is the byte address `PLIC_IOBASE + 4 * srcno`. -/
def plic_set_source_priority (r : Nat → Nat) (srcno level : Nat) : Nat → Nat :=
  let address : Nat := PLIC_IOBASE + 4 * srcno
  store32 r address level

/-- Translation of `plic_enable_source_for_context`.  The two word offsets
`0X80*ctxno/4` and `srcno/32` are 32-bit values added to the word pointer one
after the other; `1 << 31` is taken as the word with bit 31 set. -/
def plic_enable_source_for_context (r : Nat → Nat) (ctxno srcno : Nat) : Nat → Nat :=
  let bit : Nat := (1 <<< (srcno % 32)) % 2 ^ 32
  let address : Nat :=
    (ENABLE + PLIC_IOBASE) + 4 * ((0x80 * ctxno) % 2 ^ 32 / 4) + 4 * (srcno / 32)
  store32 r address (r address ||| bit)

/-- Translation of `plic_init`: the loop `for (i = 0; i < PLIC_SRCCNT; i++)`. -/
def plic_init (r : Nat → Nat) : Nat → Nat :=
  (List.range PLIC_SRCCNT).foldl
    (fun r i => plic_enable_source_for_context (plic_set_source_priority r i 0) 0 i) r

/-- Register file in which every word is zero. -/
def zero_regs : Nat → Nat := fun _ => 0

end Plic

/-! ## `src/kern/kfs.c` -/

namespace Kfs

def MAX_FILES : Nat := 32
def FS_BLKSZ : Nat := 4096
def FS_NAMELEN : Nat := 32
def FILE_IN_USE : Nat := 1

/-- Directory entry (`dentry_t`); a name is the map from an index to a byte. -/
structure dentry_t where
  file_name : Nat → Nat
  inode : Nat

/-- Boot block (`boot_block_t`) as held in memory after a mount. -/
structure boot_block_t where
  num_dentry : Nat
  num_inodes : Nat
  num_data : Nat
  dir_entries : Nat → dentry_t

/-- Index node (`inode_t`). -/
structure inode_t where
  byte_len : Nat
  data_block_num : Nat → Nat

/-- File slot (`struct file_t`); `intf_ops` tells whether `intf.ops` points at the
file operations. -/
structure file_t where
  intf_ops : Bool
  file_position : Nat
  file_size : Nat
  inode_number : Nat
  flags : Nat

/-- Value of a `struct io_intf *`: the address of member `intf` of slot `i` of
`file_array`, or another address. -/
inductive IoPtr where
  | slot (i : Nat)
  | other (a : Nat)
  deriving DecidableEq, Repr

/-- The operations of the block device `fs_blk_io` points at, on the state `β` of
that device: `ctl` with command SETPOS and the position passed by pointer,
`read` (the count returned and the bytes delivered into the buffer) and `write`. -/
structure BlkDev (β : Type) where
  ctl_setpos : β → Nat → Int × β
  read : β → Nat → Int × (Nat → Nat) × β
  write : β → (Nat → Nat) → Nat → Int × β

/-- Globals of `kfs.c` of a mounted file system: the boot block, the inode table,
the file slots, and the state of the block device behind `fs_blk_io`. -/
structure Fs (β : Type) where
  boot_block : boot_block_t
  inodes : Nat → inode_t
  file_array : Nat → file_t
  blk : β

/-- Result of `fs_read` or `fs_write`: the value returned, the globals, and the
caller's buffer. -/
structure FsRW (β : Type) where
  ret : Ret
  fs : Fs β
  buf : Nat → Nat

/-- How a data-block loop ended: whether it left through a `return -1`, the byte
counter, the caller's buffer and the state of the block device. -/
structure LoopOut (β : Type) where
  failed : Bool
  total : Nat
  buf : Nat → Nat
  blk : β

/-- Modelled from the spec: `string.h` is not among the sources.  The standard
comparison of at most `n` bytes from index `i` on: the difference of the first
bytes that differ, 0 when a terminating zero byte or the end of the `n` bytes is
reached before any difference. -/
def strncmp (s1 s2 : Nat → Nat) : Nat → Nat → Int
  | 0, _ => 0
  | n + 1, i =>
    if s1 i ≠ s2 i then (s1 i : Int) - (s2 i : Int)
    else if s1 i = 0 then 0
    else strncmp s1 s2 n (i + 1)

/-- Assignment to one slot of `file_array`. -/
def set_file (fa : Nat → file_t) (i : Nat) (f : file_t) : Nat → file_t :=
  fun j => if j = i then f else fa j

/-- The loop of `get_file_t` from index `i` on, `k` slots being left. -/
def get_file_t_loop (fa : Nat → file_t) (io : IoPtr) : Nat → Nat → Option Nat
  | 0, _ => none
  | k + 1, i =>
    if IoPtr.slot i = io then
      if (fa i).flags &&& FILE_IN_USE ≠ 0 then some i else none
    else get_file_t_loop fa io k (i + 1)

/-- Translation of `get_file_t`: the index of the slot returned, `none` for NULL. -/
def get_file_t (fa : Nat → file_t) (io : IoPtr) : Option Nat :=
  get_file_t_loop fa io MAX_FILES 0

/-- The directory search of `fs_open` from entry `i` on, `k` entries being left:
the index found, -1 when there is none. -/
def fs_open_find (bb : boot_block_t) (name : Nat → Nat) : Nat → Nat → Int
  | 0, _ => -1
  | k + 1, i =>
    if strncmp (bb.dir_entries i).file_name name FS_NAMELEN 0 = 0 then (i : Int)
    else fs_open_find bb name k (i + 1)

/-- The slot search of `fs_open` from slot `i` on, `k` slots being left: the value
of `i` when the loop is left. -/
def fs_open_slot (fa : Nat → file_t) : Nat → Nat → Nat
  | 0, i => i
  | k + 1, i =>
    if (fa i).flags &&& FILE_IN_USE = 0 then i else fs_open_slot fa k (i + 1)

/-- Translation of `fs_open`; `ioptr` is the content of the caller's `*ioptr`. -/
def fs_open {β : Type} (s : Fs β) (name : Nat → Nat) (ioptr : IoPtr) : Ret × Fs β × IoPtr :=
  let found : Int := fs_open_find s.boot_block name s.boot_block.num_dentry 0
  if found = -1 then (Ret.val (-1), s, ioptr)
  else
    let i : Nat := fs_open_slot s.file_array MAX_FILES 0
    if i = MAX_FILES then (Ret.val (-1), s, ioptr)
    else
      let f : file_t := s.file_array i
      let f : file_t := { f with flags := FILE_IN_USE }
      let f : file_t := { f with file_position := 0 }
      let f : file_t := { f with inode_number := (s.boot_block.dir_entries found.toNat).inode }
      if f.inode_number ≥ s.boot_block.num_inodes then
        let f : file_t := { f with flags := 0 }
        (Ret.val (-1), { s with file_array := set_file s.file_array i f }, ioptr)
      else
        let inode : inode_t := s.inodes f.inode_number
        let f : file_t := { f with file_size := inode.byte_len }
        let f : file_t := { f with intf_ops := true }
        (Ret.val 0, { s with file_array := set_file s.file_array i f }, IoPtr.slot i)

/-- Translation of `fs_close`. -/
def fs_close {β : Type} (s : Fs β) (io : IoPtr) : Fs β :=
  match get_file_t s.file_array io with
  | some i => { s with file_array := set_file s.file_array i { s.file_array i with flags := 0 } }
  | none => s

/-- Position of a data block on the device, computed as the code does on 32-bit
words: `FS_BLKSZ * (1 + boot_block.num_inodes + data_block_num)`. -/
def data_block_pos (bb : boot_block_t) (data_block_num : Nat) : Nat :=
  (FS_BLKSZ * ((1 + bb.num_inodes + data_block_num) % 2 ^ 32)) % 2 ^ 32

/-- The `while (to_read > 0)` loop of `fs_read`; `fuel` bounds the number of
iterations, `none` means the loop is still running when the fuel is spent. -/
def fs_read_loop {β : Type} (D : BlkDev β) (bb : boot_block_t) (inode : inode_t) :
    Nat → Nat → Nat → Nat → (Nat → Nat) → β → Option (LoopOut β)
  | 0, _, _, _, _, _ => none
  | fuel + 1, to_read, offset, total_read, buf, blk =>
    if to_read > 0 then
      let block_offset : Nat := offset % FS_BLKSZ
      let block_num : Nat := offset / FS_BLKSZ
      if block_num ≥ 1023 then
        some { failed := true, total := total_read, buf := buf, blk := blk }
      else
        let data_block_num : Nat := inode.data_block_num block_num
        if data_block_num ≥ bb.num_data then
          some { failed := true, total := total_read, buf := buf, blk := blk }
        else
          let pos : Nat := data_block_pos bb data_block_num
          let c : Int × β := D.ctl_setpos blk pos
          if c.1 < 0 then
            some { failed := true, total := total_read, buf := buf, blk := c.2 }
          else
            let rd : Int × (Nat → Nat) × β := D.read c.2 FS_BLKSZ
            if rd.1 ≠ (FS_BLKSZ : Int) then
              some { failed := true, total := total_read, buf := buf, blk := rd.2.2 }
            else
              let data_block : Nat → Nat := rd.2.1
              let bytes_in_block : Nat := FS_BLKSZ - block_offset
              let bytes_to_copy : Nat :=
                if to_read < bytes_in_block then to_read else bytes_in_block
              let buf : Nat → Nat := memcpy buf total_read data_block block_offset bytes_to_copy
              fs_read_loop D bb inode fuel (to_read - bytes_to_copy)
                ((offset + bytes_to_copy) % 2 ^ 64) (total_read + bytes_to_copy) buf rd.2.2
    else
      some { failed := false, total := total_read, buf := buf, blk := blk }

/-- Translation of `fs_read`. -/
def fs_read {β : Type} (D : BlkDev β) (fuel : Nat) (s : Fs β) (io : IoPtr)
    (buf : Nat → Nat) (n : Nat) : Option (FsRW β) :=
  match get_file_t s.file_array io with
  | none => some { ret := Ret.val (-1), fs := s, buf := buf }
  | some i =>
    let f : file_t := s.file_array i
    let bytes_left : Nat := (f.file_size + 2 ^ 64 - f.file_position) % 2 ^ 64
    if bytes_left = 0 then some { ret := Ret.val 0, fs := s, buf := buf }
    else
      let to_read : Nat := if n < bytes_left then n else bytes_left
      let offset : Nat := f.file_position
      let inode : inode_t := s.inodes f.inode_number
      match fs_read_loop D s.boot_block inode fuel to_read offset 0 buf s.blk with
      | none => none
      | some out =>
        if out.failed then
          some { ret := Ret.val (-1), fs := { s with blk := out.blk }, buf := out.buf }
        else
          let f : file_t :=
            { f with file_position := (f.file_position + out.total) % 2 ^ 64 }
          some { ret := Ret.val (toLong out.total),
                 fs := { s with blk := out.blk, file_array := set_file s.file_array i f },
                 buf := out.buf }

/-- The `while (to_write > 0)` loop of `fs_write`. -/
def fs_write_loop {β : Type} (D : BlkDev β) (bb : boot_block_t) (inode : inode_t)
    (buf : Nat → Nat) : Nat → Nat → Nat → Nat → β → Option (LoopOut β)
  | 0, _, _, _, _ => none
  | fuel + 1, to_write, offset, total_written, blk =>
    if to_write > 0 then
      let block_offset : Nat := offset % FS_BLKSZ
      let block_num : Nat := offset / FS_BLKSZ
      if block_num ≥ 1023 then
        some { failed := true, total := total_written, buf := buf, blk := blk }
      else
        let data_block_num : Nat := inode.data_block_num block_num
        if data_block_num ≥ bb.num_data then
          some { failed := true, total := total_written, buf := buf, blk := blk }
        else
          let pos : Nat := data_block_pos bb data_block_num
          let c : Int × β := D.ctl_setpos blk pos
          if c.1 < 0 then
            some { failed := true, total := total_written, buf := buf, blk := c.2 }
          else
            let rd : Int × (Nat → Nat) × β := D.read c.2 FS_BLKSZ
            if rd.1 ≠ (FS_BLKSZ : Int) then
              some { failed := true, total := total_written, buf := buf, blk := rd.2.2 }
            else
              let data_block : Nat → Nat := rd.2.1
              let bytes_in_block : Nat := FS_BLKSZ - block_offset
              let bytes_to_copy : Nat :=
                if to_write < bytes_in_block then to_write else bytes_in_block
              let data_block : Nat → Nat :=
                memcpy data_block block_offset buf total_written bytes_to_copy
              let c2 : Int × β := D.ctl_setpos rd.2.2 pos
              if c2.1 < 0 then
                some { failed := true, total := total_written, buf := buf, blk := c2.2 }
              else
                let w : Int × β := D.write c2.2 data_block FS_BLKSZ
                if w.1 ≠ (FS_BLKSZ : Int) then
                  some { failed := true, total := total_written, buf := buf, blk := w.2 }
                else
                  fs_write_loop D bb inode buf fuel (to_write - bytes_to_copy)
                    ((offset + bytes_to_copy) % 2 ^ 64) (total_written + bytes_to_copy) w.2
    else
      some { failed := false, total := total_written, buf := buf, blk := blk }

/-- Translation of `fs_write`. -/
def fs_write {β : Type} (D : BlkDev β) (fuel : Nat) (s : Fs β) (io : IoPtr)
    (buf : Nat → Nat) (n : Nat) : Option (FsRW β) :=
  match get_file_t s.file_array io with
  | none => some { ret := Ret.val (-1), fs := s, buf := buf }
  | some i =>
    let f : file_t := s.file_array i
    let bytes_left : Nat := (f.file_size + 2 ^ 64 - f.file_position) % 2 ^ 64
    if bytes_left = 0 then some { ret := Ret.val 0, fs := s, buf := buf }
    else
      let to_write : Nat := if n < bytes_left then n else bytes_left
      let offset : Nat := f.file_position
      let inode : inode_t := s.inodes f.inode_number
      match fs_write_loop D s.boot_block inode buf fuel to_write offset 0 s.blk with
      | none => none
      | some out =>
        if out.failed then
          some { ret := Ret.val (-1), fs := { s with blk := out.blk }, buf := buf }
        else
          let f : file_t :=
            { f with file_position := (f.file_position + out.total) % 2 ^ 64 }
          some { ret := Ret.val (toLong out.total),
                 fs := { s with blk := out.blk, file_array := set_file s.file_array i f },
                 buf := buf }

/-- Translation of `fs_getlen`; `arg` is the numeric value of the pointer, 0 for NULL. -/
def fs_getlen {β : Type} (s : Fs β) (mem : Mem) (i : Nat) (arg : Nat) : Ret × Fs β × Mem :=
  if arg = 0 then (Ret.val (-1), s, mem)
  else (Ret.val 0, s, store_le mem arg 8 (s.file_array i).file_size)

/-- Translation of `fs_getpos`. -/
def fs_getpos {β : Type} (s : Fs β) (mem : Mem) (i : Nat) (arg : Nat) : Ret × Fs β × Mem :=
  if arg = 0 then (Ret.val (-1), s, mem)
  else (Ret.val 0, s, store_le mem arg 8 (s.file_array i).file_position)

/-- Translation of `fs_setpos`. -/
def fs_setpos {β : Type} (s : Fs β) (mem : Mem) (i : Nat) (arg : Nat) : Ret × Fs β × Mem :=
  if arg = 0 then (Ret.val (-1), s, mem)
  else
    let new_pos : Nat := load_le mem arg 8
    if new_pos > (s.file_array i).file_size then (Ret.val (-1), s, mem)
    else
      (Ret.val 0,
        { s with file_array :=
            set_file s.file_array i { s.file_array i with file_position := new_pos } },
        mem)

/-- Translation of `fs_getblksz`. -/
def fs_getblksz {β : Type} (s : Fs β) (mem : Mem) (_ : Nat) (arg : Nat) : Ret × Fs β × Mem :=
  if arg = 0 then (Ret.val (-1), s, mem)
  else (Ret.val 0, s, store_le mem arg 8 FS_BLKSZ)

/-- Translation of `fs_ioctl`; the file `f` is the slot index `get_file_t` returns. -/
def fs_ioctl {β : Type} (s : Fs β) (mem : Mem) (io : IoPtr) (cmd : Int) (arg : Nat) :
    Ret × Fs β × Mem :=
  match get_file_t s.file_array io with
  | none => (Ret.val (-1), s, mem)
  | some i =>
    if cmd = IOCTL_GETLEN then fs_getlen s mem i arg
    else if cmd = IOCTL_GETPOS then fs_getpos s mem i arg
    else if cmd = IOCTL_SETPOS then fs_setpos s mem i arg
    else if cmd = IOCTL_GETBLKSZ then fs_getblksz s mem i arg
    else (Ret.val (-1), s, mem)

/-- State of a byte-addressed disk with a position. -/
structure Disk where
  data : Nat → Nat
  pos : Nat

/-- Block device that stores what is written and returns it when read, and serves
every read and write in full: SETPOS sets the position and returns 0, a read of
`n` bytes delivers the `n` bytes at the position, a write of `n` bytes stores
them there, both return `n` and advance the position by `n`. -/
def ideal_blk : BlkDev Disk where
  ctl_setpos := fun d p => (0, { d with pos := p })
  read := fun d n => ((n : Int), fun i => d.data (d.pos + i), { d with pos := d.pos + n })
  write := fun d buf n =>
    ((n : Int),
      { data := fun a => if d.pos ≤ a ∧ a < d.pos + n then buf (a - d.pos) else d.data a,
        pos := d.pos + n })

/-- Device position of byte `idx` of a file: byte `idx mod 4096` of device block
`1 + num_inodes + data_block_num[idx div 4096]`. -/
def file_byte_pos (bb : boot_block_t) (inode : inode_t) (idx : Nat) : Nat :=
  FS_BLKSZ * (1 + bb.num_inodes + inode.data_block_num (idx / FS_BLKSZ)) + idx % FS_BLKSZ

end Kfs

/-- Directory entry `i` matches `name`: `strncmp` over `FS_NAMELEN` bytes returns 0. -/
def Kfs.name_matches (bb : Kfs.boot_block_t) (name : Nat → Nat) (i : Nat) : Prop :=
  Kfs.strncmp (bb.dir_entries i).file_name name Kfs.FS_NAMELEN 0 = 0

/-- The in-use flag of a file slot is set. -/
def Kfs.in_use (f : Kfs.file_t) : Prop :=
  f.flags &&& Kfs.FILE_IN_USE ≠ 0

/-- The globals with slot `i` of `file_array` replaced by `f`. -/
def Kfs.with_file {β : Type} (s : Kfs.Fs β) (i : Nat) (f : Kfs.file_t) : Kfs.Fs β :=
  { s with file_array := Kfs.set_file s.file_array i f }

instance Kfs.name_matches_decidable (bb : Kfs.boot_block_t) (name : Nat → Nat) (i : Nat) :
    Decidable (Kfs.name_matches bb name i) := by
  unfold Kfs.name_matches
  infer_instance

instance Kfs.in_use_decidable (f : Kfs.file_t) : Decidable (Kfs.in_use f) := by
  unfold Kfs.in_use
  infer_instance

/-- A file name of one letter: the letter, then zero bytes. -/
def Kfs.one_letter (c : Nat) : Nat → Nat :=
  fun i => if i = 0 then c else 0

/-- Example file system of two files: "a" (inode 0, 8192 bytes in data blocks 0
and 1) and "b" (inode 1, 100 bytes in data block 2); four data blocks, no file
open, the disk holding zero everywhere. -/
def Kfs.demo_fs : Kfs.Fs Kfs.Disk where
  boot_block :=
    { num_dentry := 2, num_inodes := 2, num_data := 4,
      dir_entries := fun i =>
        if i = 0 then { file_name := Kfs.one_letter 97, inode := 0 }
        else { file_name := Kfs.one_letter 98, inode := 1 } }
  inodes := fun k =>
    if k = 0 then { byte_len := 8192, data_block_num := fun j => if j = 1 then 1 else 0 }
    else { byte_len := 100, data_block_num := fun _ => 2 }
  file_array := fun _ =>
    { intf_ops := false, file_position := 0, file_size := 0, inode_number := 0, flags := 0 }
  blk := { data := fun _ => 0, pos := 0 }

/-- The example file system after `fs_open("a", &io)`: slot 0 holds the file. -/
def Kfs.demo_fs_open : Kfs.Fs Kfs.Disk :=
  (Kfs.fs_open Kfs.demo_fs (Kfs.one_letter 97) (Kfs.IoPtr.other 0)).2.1

/-- The block device `D`, whose content in state `blk` is `content blk`, serves
every seek and every read of one block in full: SETPOS to any position does not
fail, the read of `FS_BLKSZ` bytes that follows returns `FS_BLKSZ` and delivers
the bytes of the content from that position on, and leaves the content as it was. -/
def Kfs.serves_reads {β : Type} (D : Kfs.BlkDev β) (content : β → Nat → Nat) : Prop :=
  ∀ (blk : β) (p : Nat),
    0 ≤ (D.ctl_setpos blk p).1 ∧
    (D.read (D.ctl_setpos blk p).2 Kfs.FS_BLKSZ).1 = (Kfs.FS_BLKSZ : Int) ∧
    (∀ i, i < Kfs.FS_BLKSZ →
      (D.read (D.ctl_setpos blk p).2 Kfs.FS_BLKSZ).2.1 i = content blk (p + i)) ∧
    content (D.read (D.ctl_setpos blk p).2 Kfs.FS_BLKSZ).2.2 = content blk

/-- Example file system of one file "a" (inode 0) of 4190209 bytes, one byte more
than 1023 blocks hold; every block number of the inode is 0 and there is one
data block; no file open, the disk holding zero everywhere. -/
def Kfs.long_fs : Kfs.Fs Kfs.Disk where
  boot_block :=
    { num_dentry := 1, num_inodes := 1, num_data := 1,
      dir_entries := fun _ => { file_name := Kfs.one_letter 97, inode := 0 } }
  inodes := fun _ => { byte_len := 4190209, data_block_num := fun _ => 0 }
  file_array := fun _ =>
    { intf_ops := false, file_position := 0, file_size := 0, inode_number := 0, flags := 0 }
  blk := { data := fun _ => 0, pos := 0 }

/-- The file system `long_fs` after `fs_open("a", &io)` and
`fs_ioctl(io, IOCTL_SETPOS, &pos)` with `pos = 4190208` held at address 64. -/
def Kfs.long_fs_at_end : Kfs.Fs Kfs.Disk :=
  (Kfs.fs_ioctl (Kfs.fs_open Kfs.long_fs (Kfs.one_letter 97) (Kfs.IoPtr.other 0)).2.1
    (store_le zero_mem 64 8 4190208) (Kfs.IoPtr.slot 0) IOCTL_SETPOS 64).2.1

/-- The call `fs_ioctl(io, IOCTL_SETPOS, &pos)` with `pos = p` held in the eight
bytes at address 8: the value returned and the globals. -/
def Kfs.seek {β : Type} (s : Kfs.Fs β) (io : Kfs.IoPtr) (p : Nat) : Ret × Kfs.Fs β :=
  let r : Ret × Kfs.Fs β × Mem := Kfs.fs_ioctl s (store_le zero_mem 8 8 p) io IOCTL_SETPOS 8
  (r.1, r.2.1)

/-- What the four calls of a write followed by a read at the same position gave. -/
structure Kfs.Trip (β : Type) where
  seek_w : Ret
  written : Kfs.FsRW β
  seek_r : Ret
  read : Kfs.FsRW β

/-- The sequence SETPOS(p), `fs_write(io, buf, n)`, SETPOS(p), `fs_read(io, out, n)`. -/
def Kfs.roundtrip {β : Type} (D : Kfs.BlkDev β) (fuel : Nat) (s : Kfs.Fs β) (io : Kfs.IoPtr)
    (p : Nat) (buf out : Nat → Nat) (n : Nat) : Option (Kfs.Trip β) :=
  let s1 : Ret × Kfs.Fs β := Kfs.seek s io p
  match Kfs.fs_write D fuel s1.2 io buf n with
  | none => none
  | some w =>
    let s3 : Ret × Kfs.Fs β := Kfs.seek w.fs io p
    match Kfs.fs_read D fuel s3.2 io out n with
    | none => none
    | some r => some { seek_w := s1.1, written := w, seek_r := s3.1, read := r }

/-- Example file system of one file "a" (inode 0) of 8192 bytes whose two blocks
both have block number 0; one inode, one data block, no file open, the disk
holding zero everywhere. -/
def Kfs.alias_fs : Kfs.Fs Kfs.Disk where
  boot_block :=
    { num_dentry := 1, num_inodes := 1, num_data := 1,
      dir_entries := fun _ => { file_name := Kfs.one_letter 97, inode := 0 } }
  inodes := fun _ => { byte_len := 8192, data_block_num := fun _ => 0 }
  file_array := fun _ =>
    { intf_ops := false, file_position := 0, file_size := 0, inode_number := 0, flags := 0 }
  blk := { data := fun _ => 0, pos := 0 }

/-- The file system `alias_fs` after `fs_open("a", &io)`: slot 0 holds the file. -/
def Kfs.alias_fs_open : Kfs.Fs Kfs.Disk :=
  (Kfs.fs_open Kfs.alias_fs (Kfs.one_letter 97) (Kfs.IoPtr.other 0)).2.1

/-- Buffer of 8192 bytes: 4096 bytes of value 1, then 4096 bytes of value 2. -/
def Kfs.halves : Nat → Nat :=
  fun j => if j < 4096 then 1 else 2

/-! ## `src/kern/elf.c` -/

namespace Elf

def PT_LOAD : Nat := 1
def ELF_MIN_ADDR : Nat := 0x8010000000
def ELF_MAX_ADDR : Nat := 0x8100000000
def PN_XNUM : Nat := 0xffff
def ELFCLASS64 : Nat := 2
def EL_CALSS : Nat := 4
def EI_MAG0 : Nat := 0
def EI_MAG1 : Nat := 1
def EI_MAG2 : Nat := 2
def EI_MAG3 : Nat := 3
def EI_MAGNUM0 : Nat := 0x7f
def EI_MAGNUM1 : Nat := 0x45
def EI_MAGNUM2 : Nat := 0x4c
def EI_MAGNUM3 : Nat := 0x46

/-- Value of `sizeof(Elf64_Ehdr)`. -/
def sizeof_Ehdr : Nat := 64

/-- Value of `sizeof(Elf64_Phdr)`. -/
def sizeof_Phdr : Nat := 56

/-- Value of `sizeof(Elf64_Shdr)`. -/
def sizeof_Shdr : Nat := 64

/-- The members of `Elf64_Ehdr` the loader reads. -/
structure Elf64_Ehdr where
  e_ident : Nat → Nat
  e_entry : Nat
  e_phoff : Nat
  e_shoff : Nat
  e_phnum : Nat

/-- The members of `Elf64_Phdr` the loader reads. -/
structure Elf64_Phdr where
  p_type : Nat
  p_vaddr : Nat
  p_filesz : Nat
  p_memsz : Nat
  deriving DecidableEq, Repr

/-- The header held in the 64 bytes `b`: `e_ident` at offset 0, `e_entry` at 24,
`e_phoff` at 32, `e_shoff` at 40, `e_phnum` at 56, little-endian. -/
def Ehdr_of_bytes (b : Nat → Nat) : Elf64_Ehdr :=
  { e_ident := b, e_entry := load_le b 24 8, e_phoff := load_le b 32 8,
    e_shoff := load_le b 40 8, e_phnum := load_le b 56 2 }

/-- The program header held in the 56 bytes of `b` from offset `a` on: `p_type`
at offset 0, `p_vaddr` at 16, `p_filesz` at 32, `p_memsz` at 40, little-endian. -/
def Phdr_of_bytes (b : Nat → Nat) (a : Nat) : Elf64_Phdr :=
  { p_type := load_le b a 4, p_vaddr := load_le b (a + 16) 8,
    p_filesz := load_le b (a + 32) 8, p_memsz := load_le b (a + 40) 8 }

/-- Conversion of a 32-bit word to `int`. -/
def toInt32 (x : Nat) : Int :=
  if x % 2 ^ 32 < 2 ^ 31 then ((x % 2 ^ 32 : Nat) : Int) else ((x % 2 ^ 32 : Nat) : Int) - 2 ^ 32

/-- The C call `memset(dst + d, 0, n)` on a byte map. -/
def memset_zero (dst : Nat → Nat) (d n : Nat) : Nat → Nat :=
  fun x => if d ≤ x ∧ x < d + n then 0 else dst x

/-- Collaborators of `elf.c` that are not among the sources, on a state `σ` of
the stream and the heap: `ioread_full(io, buf, n)` gives the value returned and
the bytes put into `buf`, `kmalloc(size)` gives the content of the block
returned, `none` standing for NULL.  The effect of `kfree` is not modelled. -/
structure Host (σ : Type) where
  ioread_full : σ → Nat → Int × (Nat → Nat) × σ
  kmalloc : σ → Nat → Option (Nat → Nat) × σ

/-- One call `memcpy((void *)p_vaddr, segment_buffer, p_memsz)` of the loader. -/
structure Copy where
  dst : Nat
  len : Nat
  src : Nat → Nat

/-- Result of `elf_load`: the value returned, the value stored in `*entryptr` if
any, the copies made to segment addresses, in order, and the state. -/
structure Loaded (σ : Type) where
  ret : Int
  entry : Option Nat
  copies : List Copy
  st : σ

/-- Translation of `valid_elf_header`. -/
def valid_elf_header (header : Elf64_Ehdr) : Int :=
  if ¬ (header.e_ident EI_MAG0 = EI_MAGNUM0 ∧ header.e_ident EI_MAG1 = EI_MAGNUM1 ∧
      header.e_ident EI_MAG2 = EI_MAGNUM2 ∧ header.e_ident EI_MAG3 = EI_MAGNUM3 ∧
      header.e_ident EL_CALSS = ELFCLASS64) then 0
  else 1

/-- The read of the section header that ends `alternative_pnum`. -/
def alternative_pnum_read {σ : Type} (E : Host σ) (st : σ) : Int × σ :=
  let r : Int × (Nat → Nat) × σ := E.ioread_full st sizeof_Shdr
  if r.1 < 0 ∨ r.1 ≠ (sizeof_Shdr : Int) then (-1, r.2.2)
  else (toInt32 (load_le r.2.1 44 4), r.2.2)

/-- Translation of `alternative_pnum`; `sh_info` is the word at offset 44 of the
section header. -/
def alternative_pnum {σ : Type} (E : Host σ) (st : σ) (elf : Elf64_Ehdr) : Int × σ :=
  if elf.e_shoff > sizeof_Ehdr then
    let r : Int × (Nat → Nat) × σ := E.ioread_full st (elf.e_shoff - sizeof_Ehdr)
    if r.1 < 0 ∨ r.1 ≠ ((elf.e_shoff - sizeof_Ehdr : Nat) : Int) then (-1, r.2.2)
    else alternative_pnum_read E r.2.2
  else alternative_pnum_read E st

/-- The loop `for (int i = 0; i < phnum; i++)` of `elf_load` from entry `i` on, `k`
entries being left: the value returned (0 when the loop is left at its end), the
copies made and the state.  The sum `p_vaddr + p_memsz` is the 64-bit sum. -/
def elf_load_segments {σ : Type} (E : Host σ) (phdr_table : Nat → Nat) :
    Nat → Nat → σ → List Copy → Int × List Copy × σ
  | 0, _, st, copies => (0, copies, st)
  | k + 1, i, st, copies =>
    let phdr : Elf64_Phdr := Phdr_of_bytes phdr_table (sizeof_Phdr * i)
    if phdr.p_type = PT_LOAD then
      if phdr.p_vaddr < ELF_MIN_ADDR ∨ (phdr.p_vaddr + phdr.p_memsz) % 2 ^ 64 > ELF_MAX_ADDR then
        (-1, copies, st)
      else
        let m : Option (Nat → Nat) × σ := E.kmalloc st phdr.p_memsz
        match m.1 with
        | none => (-1, copies, m.2)
        | some block =>
          let r : Int × (Nat → Nat) × σ := E.ioread_full m.2 phdr.p_filesz
          if r.1 < 0 ∨ r.1 ≠ (phdr.p_filesz : Int) then (-1, copies, r.2.2)
          else
            let segment_buffer : Nat → Nat := memcpy block 0 r.2.1 0 phdr.p_filesz
            let segment_buffer : Nat → Nat :=
              if phdr.p_memsz > phdr.p_filesz then
                memset_zero segment_buffer phdr.p_filesz (phdr.p_memsz - phdr.p_filesz)
              else segment_buffer
            elf_load_segments E phdr_table k (i + 1) r.2.2
              (copies ++ [{ dst := phdr.p_vaddr, len := phdr.p_memsz, src := segment_buffer }])
    else elf_load_segments E phdr_table k (i + 1) st copies

/-- The part of `elf_load` that follows the computation of `phnum`: allocation of
the table, the skip to `e_phoff`, the read of the table, and the loop. -/
def elf_load_table {σ : Type} (E : Host σ) (st : σ) (elf_header : Elf64_Ehdr) (phnum : Nat) :
    Int × List Copy × σ :=
  let phdr_table_size : Nat := phnum * sizeof_Phdr
  let t : Option (Nat → Nat) × σ := E.kmalloc st phdr_table_size
  match t.1 with
  | none => (-1, [], t.2)
  | some _ =>
    let sk : Int × σ :=
      if elf_header.e_phoff > sizeof_Ehdr then
        let r : Int × (Nat → Nat) × σ := E.ioread_full t.2 (elf_header.e_phoff - sizeof_Ehdr)
        if r.1 < 0 ∨ r.1 ≠ ((elf_header.e_phoff - sizeof_Ehdr : Nat) : Int) then (-1, r.2.2)
        else (0, r.2.2)
      else (0, t.2)
    if sk.1 < 0 then (-1, [], sk.2)
    else
      let r : Int × (Nat → Nat) × σ := E.ioread_full sk.2 phdr_table_size
      if r.1 < 0 ∨ r.1 ≠ (phdr_table_size : Int) then (-1, [], r.2.2)
      else elf_load_segments E r.2.1 phnum 0 r.2.2 []

/-- Translation of `elf_load`. -/
def elf_load {σ : Type} (E : Host σ) (st : σ) : Loaded σ :=
  let r : Int × (Nat → Nat) × σ := E.ioread_full st sizeof_Ehdr
  if r.1 < 0 ∨ r.1 ≠ (sizeof_Ehdr : Int) then
    { ret := -1, entry := none, copies := [], st := r.2.2 }
  else
    let elf_header : Elf64_Ehdr := Ehdr_of_bytes r.2.1
    if valid_elf_header elf_header = 0 then
      { ret := -1, entry := none, copies := [], st := r.2.2 }
    else
      let entry : Option Nat := some elf_header.e_entry
      if elf_header.e_phnum ≥ PN_XNUM then
        let a : Int × σ := alternative_pnum E r.2.2 elf_header
        let phnum : Nat := (a.1 % 2 ^ 16).toNat
        if phnum = 2 ^ 16 - 1 then { ret := -1, entry := entry, copies := [], st := a.2 }
        else
          let o : Int × List Copy × σ := elf_load_table E a.2 elf_header phnum
          { ret := o.1, entry := entry, copies := o.2.1, st := o.2.2 }
      else
        let o : Int × List Copy × σ := elf_load_table E r.2.2 elf_header elf_header.e_phnum
        { ret := o.1, entry := entry, copies := o.2.1, st := o.2.2 }

/-- Modelled from the spec: `io.h` and `heap.h` are not among the sources.  The
stream is the byte sequence `image` of length `len`, read from the position
held in the state: `ioread_full` delivers the bytes left, at most `n`, and
returns their number; `kmalloc` returns a zeroed block for a size of at most
`heap` bytes and NULL for a greater one. -/
def stream_host (image : Nat → Nat) (len heap : Nat) : Host Nat where
  ioread_full := fun pos n =>
    (((min n (len - pos) : Nat) : Int), fun x => image (pos + x), pos + min n (len - pos))
  kmalloc := fun pos size => (if size ≤ heap then some (fun _ => 0) else none, pos)

/-- ELF header of 64 bytes with the magic number, class 2, `e_entry =
0x8010000000`, `e_phoff = 64` and `e_phnum = 1`. -/
def wrap_header : Nat → Nat :=
  store_le (store_le (store_le (store_le (store_le zero_mem 0 4 0x464c457f) 4 1 2)
    24 8 0x8010000000) 32 8 64) 56 2 1

/-- ELF image of 120 bytes: the header `wrap_header`, then one program header
with `p_type = PT_LOAD`, `p_vaddr = 0xFFFFFFFFFFFFF000`, `p_filesz = 0` and
`p_memsz = 0x2000`. -/
def wrap_image : Nat → Nat :=
  store_le (store_le (store_le wrap_header 64 4 1) 80 8 0xFFFFFFFFFFFFF000) 104 8 0x2000

end Elf

/-! ## Observations on call logs; further entry points of `plic.c` and `elf.c` -/

/-- Device records at the doorbell notifications of a call log, in order: the
record as it stood when `virtio_notify_avail` was called. -/
def doorbell_records : List Event → List vioblk_device
  | [] => []
  | Event.virtio_notify_avail _ d :: l => d :: doorbell_records l
  | _ :: l => doorbell_records l

/-- The call `vioblk_read(io, out, n)` of `vioblk_my.c` followed by
`vioblk_write(io, buf, n)` on the same device. -/
def VioblkMy.read_then_write {σ : Type} (E : Env σ) (fuel : Nat) (s : Sys σ)
    (buf out : Nat → Nat) (n : Nat) : Option (RW σ) :=
  match VioblkMy.vioblk_read E fuel s out n with
  | none => none
  | some r => VioblkMy.vioblk_write E fuel r.sys buf n

namespace Plic

/-- Translation of `plic_source_pending`.  `bit` is the word `1 << (srcno % 32)`
and the code uses it as the shift count of `*address >> bit`; for a count of 32
or more, where C leaves the result open, the model takes the mathematical
shift.  The word pointer `(uint32_t*)(PLIC_IOBASE + PENDING) + offset` is the
byte address `PLIC_IOBASE + PENDING + 4 * offset`. -/
def plic_source_pending (r : Nat → Nat) (srcno : Nat) : Int :=
  let offset : Nat := srcno / 32
  let bit : Nat := (1 <<< (srcno % 32)) % 2 ^ 32
  let address : Nat := (PLIC_IOBASE + PENDING) + 4 * offset
  (((r address >>> bit) &&& 1 : Nat) : Int)

/-- Translation of `plic_disable_source_for_context`.  `~1 << (srcid % 32)` is the
shift of the `int` -2, taken in two's complement and converted to a 32-bit word:
the word `0xFFFFFFFE` shifted left and truncated to 32 bits. -/
def plic_disable_source_for_context (r : Nat → Nat) (ctxno srcid : Nat) : Nat → Nat :=
  let bit : Nat := (0xFFFFFFFE <<< (srcid % 32)) % 2 ^ 32
  let address : Nat :=
    (ENABLE + PLIC_IOBASE) + 4 * ((0x80 * ctxno) % 2 ^ 32 / 4) + 4 * (srcid / 32)
  store32 r address (r address &&& bit)

end Plic

namespace Elf

/-- A call of `elf.c` into the heap or the stream, with the size it asks for. -/
inductive HostCall where
  | kmalloc (size : Nat)
  | ioread_full (n : Nat)
  deriving DecidableEq, Repr

/-- The host `E` with a record of the calls made to it, in order. -/
def traced {σ : Type} (E : Host σ) : Host (σ × List HostCall) where
  ioread_full := fun st n =>
    ((E.ioread_full st.1 n).1, (E.ioread_full st.1 n).2.1,
      ((E.ioread_full st.1 n).2.2, st.2 ++ [HostCall.ioread_full n]))
  kmalloc := fun st size =>
    ((E.kmalloc st.1 size).1, ((E.kmalloc st.1 size).2, st.2 ++ [HostCall.kmalloc size]))

/-- ELF image of 120 + 0x2000 bytes: the header `wrap_header`, one program
header with `p_type = PT_LOAD`, `p_vaddr = 0x8010000000`, `p_filesz = 0x2000`
and `p_memsz = 0x1000`, then 0x2000 bytes of segment data (zero). -/
def fat_image : Nat → Nat :=
  store_le (store_le (store_le (store_le wrap_header 64 4 1) 80 8 0x8010000000) 96 8 0x2000)
    104 8 0x1000

end Elf

/-- Every in-use file slot has its position within its size. -/
def Kfs.positions_ok {β : Type} (s : Kfs.Fs β) : Prop :=
  ∀ i, i < Kfs.MAX_FILES → Kfs.in_use (s.file_array i) →
    (s.file_array i).file_position ≤ (s.file_array i).file_size

/-! ## Helper lemmas -/

/-! ### Memory -/

theorem load_le_congr (m m2 : Mem) (w : Nat) : ∀ (a : Nat),
    (∀ x, a ≤ x → x < a + w → m x = m2 x) → load_le m a w = load_le m2 a w := by
  induction w with
  | zero => intro a _; rfl
  | succ w ih =>
    intro a h
    simp only [load_le]
    rw [h a (Nat.le_refl a) (by omega), ih (a + 1) (fun x h1 h2 => h x (by omega) (by omega))]

theorem load_le_store_le (m : Mem) (w : Nat) : ∀ (a v : Nat),
    load_le (store_le m a w v) a w = v % 256 ^ w := by
  induction w with
  | zero => intro a v; simp [load_le, Nat.mod_one]
  | succ w ih =>
    intro a v
    simp only [load_le]
    have h1 : load_le (store_le m a (w + 1) v) (a + 1) w
        = load_le (store_le m (a + 1) w (v / 256)) (a + 1) w := by
      apply load_le_congr
      intro x hx1 hx2
      have e : x - a = (x - (a + 1)) + 1 := by omega
      simp only [store_le]
      rw [if_pos (by omega), if_pos (by omega), e, pow_succ, Nat.mul_comm, Nat.div_div_eq_div_mul]
    rw [h1, ih]
    have h0 : store_le m a (w + 1) v a = v % 256 := by
      simp [store_le]
    rw [h0, Nat.mod_mod, pow_succ, Nat.mul_comm (256 ^ w) 256, Nat.mod_mul]

/-! ### Open and close -/

theorem open_before_cons (c : Call) (cs : List Call) :
    OpenBefore (c :: cs) ↔ OpenBefore cs ∨ (c = Call.vioblk_open ∧ Call.vioblk_close ∉ cs) := by
  constructor
  · rintro ⟨pre, post, h, hc⟩
    cases pre with
    | nil =>
      simp only [List.nil_append, List.cons.injEq] at h
      exact Or.inr ⟨h.1, h.2 ▸ hc⟩
    | cons p ps =>
      simp only [List.cons_append, List.cons.injEq] at h
      exact Or.inl ⟨ps, post, h.2, hc⟩
  · rintro (⟨pre, post, h, hc⟩ | ⟨h1, h2⟩)
    · exact ⟨c :: pre, post, by simp [h], hc⟩
    · exact ⟨[], cs, by simp [h1], h2⟩

theorem not_open_before_nil : ¬ OpenBefore [] := by
  rintro ⟨pre, post, h, _⟩
  simp at h

theorem my_open_opened {σ : Type} (E : Env σ) (s : Sys σ) (ioptr : Addr) :
    (VioblkMy.vioblk_open E s ioptr).2.1.dev.opened ≠ 0 := by
  unfold VioblkMy.vioblk_open
  by_cases h : s.dev.opened ≠ 0
  · rw [if_pos h]; exact h
  · rw [if_neg h]; simp

theorem my_close_opened {σ : Type} (E : Env σ) (s : Sys σ) :
    (VioblkMy.vioblk_close E s).dev.opened = 0 := by
  unfold VioblkMy.vioblk_close
  by_cases h : s.dev.opened = 0
  · rw [if_pos h]; exact h
  · rw [if_neg h]

theorem my_run_calls_opened {σ : Type} (E : Env σ) (ioptr : Addr) :
    ∀ (calls : List Call) (s : Sys σ),
      (VioblkMy.run_calls E ioptr calls s).dev.opened ≠ 0 ↔
        OpenBefore calls ∨ (s.dev.opened ≠ 0 ∧ Call.vioblk_close ∉ calls) := by
  intro calls
  induction calls with
  | nil =>
    intro s
    simp [VioblkMy.run_calls, not_open_before_nil]
  | cons c cs ih =>
    intro s
    cases c with
    | vioblk_open =>
      simp only [VioblkMy.run_calls]
      rw [ih, open_before_cons]
      have h := my_open_opened E s ioptr
      constructor
      · rintro (h1 | ⟨_, h2⟩)
        · exact Or.inl (Or.inl h1)
        · exact Or.inl (Or.inr ⟨rfl, h2⟩)
      · rintro ((h1 | ⟨_, h2⟩) | ⟨_, h2⟩)
        · exact Or.inl h1
        · exact Or.inr ⟨h, h2⟩
        · exact Or.inr ⟨h, fun hc => h2 (List.mem_cons_of_mem _ hc)⟩
    | vioblk_close =>
      simp only [VioblkMy.run_calls]
      rw [ih, open_before_cons]
      have h := my_close_opened E s
      constructor
      · rintro (h1 | ⟨h2, _⟩)
        · exact Or.inl (Or.inl h1)
        · exact absurd h h2
      · rintro ((h1 | ⟨h2, _⟩) | ⟨_, h2⟩)
        · exact Or.inl h1
        · cases h2
        · exact absurd (List.mem_cons_self _ _) h2

theorem vioblk_open_eq {σ : Type} (E : Env σ) (s : Sys σ) (ioptr : Addr) :
    Vioblk.vioblk_open E s ioptr = VioblkMy.vioblk_open E s ioptr := rfl

theorem vioblk_close_eq {σ : Type} (E : Env σ) (s : Sys σ) :
    Vioblk.vioblk_close E s = VioblkMy.vioblk_close E s := rfl

theorem vioblk_run_calls_eq {σ : Type} (E : Env σ) (ioptr : Addr) :
    ∀ (calls : List Call) (s : Sys σ),
      Vioblk.run_calls E ioptr calls s = VioblkMy.run_calls E ioptr calls s := by
  intro calls
  induction calls with
  | nil => intro s; rfl
  | cons c cs ih =>
    intro s
    cases c with
    | vioblk_open => simp only [Vioblk.run_calls, VioblkMy.run_calls, vioblk_open_eq, ih]
    | vioblk_close => simp only [Vioblk.run_calls, VioblkMy.run_calls, vioblk_close_eq, ih]

theorem my_attach_opened {σ : Type} (E : Env σ) (regs : virtio_mmio_regs) (irqno : Int)
    (o : AttachOutcome) (d : vioblk_device)
    (h : VioblkMy.vioblk_attach E regs irqno = some o) (hd : o.dev = some d) : d.opened = 0 := by
  unfold VioblkMy.vioblk_attach at h
  split at h
  · cases h
  · simp only at h
    split at h
    · cases h; cases hd
    · cases h; cases hd; rfl

theorem vioblk_attach_opened {σ : Type} (E : Env σ) (regs : virtio_mmio_regs) (irqno : Int)
    (o : AttachOutcome) (d : vioblk_device)
    (h : Vioblk.vioblk_attach E regs irqno = some o) (hd : o.dev = some d) : d.opened = 0 := by
  unfold Vioblk.vioblk_attach at h
  split at h
  · cases h
  · simp only at h
    split at h
    · cases h; cases hd
    · cases h; cases hd; rfl

theorem my_open_contract {σ : Type} (E : Env σ) (ioptr0 ioptr : Addr) (calls : List Call)
    (s0 : Sys σ) (h0 : s0.dev.opened = 0) :
    ((VioblkMy.vioblk_open E (VioblkMy.run_calls E ioptr0 calls s0) ioptr).1
        = Ret.neg Errno.EBUSY ↔ OpenBefore calls) ∧
    (OpenBefore calls →
      VioblkMy.vioblk_open E (VioblkMy.run_calls E ioptr0 calls s0) ioptr
        = (Ret.neg Errno.EBUSY, VioblkMy.run_calls E ioptr0 calls s0, ioptr)) ∧
    (¬ OpenBefore calls →
      VioblkMy.vioblk_open E (VioblkMy.run_calls E ioptr0 calls s0) ioptr
        = (Ret.val 0,
            { VioblkMy.run_calls E ioptr0 calls s0 with
              dev := { (VioblkMy.run_calls E ioptr0 calls s0).dev with opened := 1 }
              regs := E.virtio_enable_virtq (VioblkMy.run_calls E ioptr0 calls s0).regs 0
              log := (VioblkMy.run_calls E ioptr0 calls s0).log ++
                [Event.virtio_enable_virtq 0,
                 Event.intr_enable_irq (VioblkMy.run_calls E ioptr0 calls s0).dev.irqno] },
            Addr.io_intf)) := by
  have key := my_run_calls_opened E ioptr0 calls s0
  simp only [h0, ne_eq, not_true_eq_false, false_and, or_false] at key
  by_cases hb : OpenBefore calls
  · have hne : (VioblkMy.run_calls E ioptr0 calls s0).dev.opened ≠ 0 := key.mpr hb
    have e : VioblkMy.vioblk_open E (VioblkMy.run_calls E ioptr0 calls s0) ioptr
        = (Ret.neg Errno.EBUSY, VioblkMy.run_calls E ioptr0 calls s0, ioptr) := by
      unfold VioblkMy.vioblk_open
      rw [if_pos hne]
    refine ⟨?_, fun _ => e, fun h => absurd hb h⟩
    rw [e]
    exact ⟨fun _ => hb, fun _ => rfl⟩
  · have hz : ¬ (VioblkMy.run_calls E ioptr0 calls s0).dev.opened ≠ 0 := fun h => hb (key.mp h)
    have e : VioblkMy.vioblk_open E (VioblkMy.run_calls E ioptr0 calls s0) ioptr
        = (Ret.val 0,
            { VioblkMy.run_calls E ioptr0 calls s0 with
              dev := { (VioblkMy.run_calls E ioptr0 calls s0).dev with opened := 1 }
              regs := E.virtio_enable_virtq (VioblkMy.run_calls E ioptr0 calls s0).regs 0
              log := (VioblkMy.run_calls E ioptr0 calls s0).log ++
                [Event.virtio_enable_virtq 0,
                 Event.intr_enable_irq (VioblkMy.run_calls E ioptr0 calls s0).dev.irqno] },
            Addr.io_intf) := by
      unfold VioblkMy.vioblk_open
      rw [if_neg hz]
      simp
    refine ⟨?_, fun h => absurd h hb, fun _ => e⟩
    rw [e]
    constructor
    · intro h; cases h
    · intro h; exact absurd h hb

/-! ### Attach -/

theorem attach_negotiation_eq {σ : Type} (E : Env σ) (regs : virtio_mmio_regs) :
    E.virtio_negotiate_features { regs with status := regs.status ||| VIRTIO_STAT_DRIVER }
      (virtio_featset_add (virtio_featset_add virtio_featset_init VIRTIO_BLK_F_BLK_SIZE)
        VIRTIO_BLK_F_TOPOLOGY)
      (virtio_featset_add (virtio_featset_add virtio_featset_init VIRTIO_F_RING_RESET)
        VIRTIO_F_INDIRECT_DESC) = attach_negotiation E regs := rfl

theorem my_attach_blksz {σ : Type} (E : Env σ) (regs : virtio_mmio_regs) (irqno : Int)
    (o : AttachOutcome) (d : vioblk_device)
    (h : VioblkMy.vioblk_attach E regs irqno = some o) (hd : o.dev = some d) :
    (attach_negotiation E regs).1 = 0 ∧
    d.blksz = (if virtio_featset_test (attach_negotiation E regs).2.1 VIRTIO_BLK_F_BLK_SIZE
      then (attach_negotiation E regs).2.2.config_blk_blk_size else 512) ∧
    d.size = ((attach_negotiation E regs).2.2.config_blk_capacity * d.blksz) % 2 ^ 64 := by
  unfold VioblkMy.vioblk_attach at h
  split at h
  · cases h
  · simp only [attach_negotiation_eq] at h
    split at h
    · cases h; cases hd
    · rename_i hr
      cases h; cases hd
      exact ⟨not_not.mp hr, rfl, rfl⟩

theorem vioblk_attach_blksz {σ : Type} (E : Env σ) (regs : virtio_mmio_regs) (irqno : Int)
    (o : AttachOutcome) (d : vioblk_device)
    (h : Vioblk.vioblk_attach E regs irqno = some o) (hd : o.dev = some d) :
    (attach_negotiation E regs).1 = 0 ∧
    d.blksz = (if virtio_featset_test (attach_negotiation E regs).2.1 VIRTIO_BLK_F_BLK_SIZE
      then (attach_negotiation E regs).2.2.config_blk_blk_size else 512) ∧
    d.size = ((attach_negotiation E regs).2.2.config_blk_capacity * d.blksz) % 2 ^ 64 := by
  unfold Vioblk.vioblk_attach at h
  split at h
  · cases h
  · simp only [attach_negotiation_eq] at h
    split at h
    · cases h; cases hd
    · rename_i hr
      cases h; cases hd
      exact ⟨not_not.mp hr, rfl, rfl⟩

/-! ### Control commands -/

theorem my_ioctl_ne_einval {σ : Type} (s : Sys σ) (cmd : Int) (arg : Nat) :
    (VioblkMy.vioblk_ioctl s cmd arg).1 ≠ Ret.neg Errno.EINVAL := by
  unfold VioblkMy.vioblk_ioctl
  split
  · exact fun h => by cases h
  · split
    · exact fun h => by cases h
    · split
      · exact fun h => by cases h
      · split
        · exact fun h => by cases h
        · exact fun h => by cases h

theorem vioblk_ioctl_ne_einval {σ : Type} (s : Sys σ) (cmd : Int) (arg : Nat) :
    (Vioblk.vioblk_ioctl s cmd arg).1 ≠ Ret.neg Errno.EINVAL := by
  unfold Vioblk.vioblk_ioctl
  split
  · exact fun h => by cases h
  · split
    · exact fun h => by cases h
    · split
      · exact fun h => by cases h
      · split
        · exact fun h => by cases h
        · exact fun h => by cases h

/-! ### Read and write loops -/

theorem doorbells_append (l1 l2 : List Event) :
    doorbells (l1 ++ l2) = doorbells l1 + doorbells l2 := by
  induction l1 with
  | nil => simp [doorbells]
  | cons e l ih =>
    cases e <;> simp [doorbells, ih]
    omega

theorem my_read_submit_pos {σ : Type} (E : Env σ) (s : Sys σ) (c : Nat) :
    (VioblkMy.vioblk_read_submit E s c).dev.pos = s.dev.pos := rfl

theorem my_read_submit_blksz {σ : Type} (E : Env σ) (s : Sys σ) (c : Nat) :
    (VioblkMy.vioblk_read_submit E s c).dev.blksz = s.dev.blksz := rfl

theorem my_read_submit_size {σ : Type} (E : Env σ) (s : Sys σ) (c : Nat) :
    (VioblkMy.vioblk_read_submit E s c).dev.size = s.dev.size := rfl

theorem my_read_submit_doorbells {σ : Type} (E : Env σ) (s : Sys σ) (c : Nat) :
    doorbells (VioblkMy.vioblk_read_submit E s c).log = doorbells s.log + 1 := by
  show doorbells ((s.log ++ [Event.virtio_notify_avail 0 _]) ++ [Event.condition_wait]) = _
  simp [doorbells_append, doorbells]

theorem my_read_submit_status_ok {σ : Type} (E : Env σ)
    (hok : ∀ hw dev mem, (E.serve hw dev mem).2.2 % 256 = VIRTIO_BLK_S_OK)
    (s : Sys σ) (c : Nat) :
    (VioblkMy.vioblk_read_submit E s c).dev.vq.req_status = VIRTIO_BLK_S_OK := by
  show (E.serve _ _ _).2.2 % 256 = _
  exact hok _ _ _

theorem my_read_loop_ioerr {σ : Type} (E : Env σ) (bufsz : Nat) :
    ∀ (fuel : Nat) (s : Sys σ) (buf : Nat → Nat) (br : Nat) (r : RW σ),
      VioblkMy.vioblk_read_loop E bufsz fuel s buf br = some r →
      r.ret = Ret.neg Errno.ioerr → s.dev.pos < 2 ^ 64 →
      br ≤ r.count ∧ r.count < bufsz ∧ (∀ i, r.count ≤ i → r.buf i = buf i) ∧
        r.sys.dev.pos = (s.dev.pos + (r.count - br)) % 2 ^ 64 ∧
        r.sys.dev.vq.req_status ≠ VIRTIO_BLK_S_OK ∧
        ∃ k, r.count = br + k * s.dev.blksz ∧
          doorbells r.sys.log = doorbells s.log + k + 1 := by
  intro fuel
  induction fuel with
  | zero => intro s buf br r h; simp [VioblkMy.vioblk_read_loop] at h
  | succ fuel ih =>
    intro s buf br r h hret hpos
    rw [VioblkMy.vioblk_read_loop] at h
    by_cases hlt : br < bufsz
    · rw [if_pos hlt] at h
      by_cases hend : s.dev.pos ≥ s.dev.size
      · rw [if_pos hend] at h; cases h; cases hret
      · rw [if_neg hend] at h
        simp only at h
        by_cases hst : (VioblkMy.vioblk_read_submit E s
            (if bufsz - br < s.dev.blksz then bufsz - br else s.dev.blksz)).dev.vq.req_status
              ≠ VIRTIO_BLK_S_OK
        · rw [if_pos hst] at h
          cases h
          refine ⟨Nat.le_refl _, hlt, fun _ _ => rfl, ?_, hst, 0, by simp, ?_⟩
          · simp only [Nat.sub_self, Nat.add_zero, my_read_submit_pos]
            exact (Nat.mod_eq_of_lt hpos).symm
          · simp only [my_read_submit_doorbells]
        · rw [if_neg hst] at h
          have hrec := ih _ _ _ _ h hret (Nat.mod_lt _ (by norm_num))
          obtain ⟨h1, h2, h3, h4, h5, k, h6, h7⟩ := hrec
          simp only [my_read_submit_pos, my_read_submit_blksz, my_read_submit_doorbells] at h4 h6 h7
          have hlt2 : br + (if bufsz - br < s.dev.blksz then bufsz - br else s.dev.blksz)
              < bufsz := by omega
          have hc : (if bufsz - br < s.dev.blksz then bufsz - br else s.dev.blksz)
              = s.dev.blksz := by
            by_cases hb : bufsz - br < s.dev.blksz
            · rw [if_pos hb] at hlt2; omega
            · rw [if_neg hb]
          rw [hc] at h1 h4 h6
          refine ⟨by omega, h2, ?_, ?_, h5, k + 1, ?_, ?_⟩
          · intro i hi
            rw [h3 i hi]
            simp only [memcpy]
            rw [if_neg (by rw [hc]; omega)]
          · rw [h4]
            omega
          · rw [h6, Nat.succ_mul]; omega
          · rw [h7]; omega
    · rw [if_neg hlt] at h; cases h; cases hret

theorem my_read_loop_aligned {σ : Type} (E : Env σ)
    (hok : ∀ hw dev mem, (E.serve hw dev mem).2.2 % 256 = VIRTIO_BLK_S_OK) (n : Nat) :
    ∀ (k fuel : Nat) (s : Sys σ) (buf : Nat → Nat) (br : Nat),
      0 < s.dev.blksz → s.dev.size < 2 ^ 64 →
      s.dev.pos + k * s.dev.blksz = s.dev.size → br + k * s.dev.blksz < n →
      ∃ r, VioblkMy.vioblk_read_loop E n (fuel + k + 1) s buf br = some r ∧
        r.ret = Ret.val (toLong (br + k * s.dev.blksz)) ∧ r.sys.dev.pos = s.dev.size := by
  intro k
  induction k with
  | zero =>
    intro fuel s buf br _ _ hp hn
    simp only [Nat.zero_mul, Nat.add_zero] at hp hn ⊢
    rw [VioblkMy.vioblk_read_loop, if_pos hn, if_pos (by omega)]
    exact ⟨_, rfl, rfl, hp⟩
  | succ k ih =>
    intro fuel s buf br hb hsz hp hn
    rw [Nat.succ_mul] at hp hn
    have e : fuel + (k + 1) + 1 = (fuel + k + 1) + 1 := by omega
    rw [e, VioblkMy.vioblk_read_loop, if_pos (by omega), if_neg (by omega)]
    simp only
    have hc : (if n - br < s.dev.blksz then n - br else s.dev.blksz) = s.dev.blksz := by
      rw [if_neg (by omega)]
    rw [hc, if_neg (fun hne => hne (my_read_submit_status_ok E hok s _))]
    have hmod : (s.dev.pos + s.dev.blksz) % 2 ^ 64 = s.dev.pos + s.dev.blksz :=
      Nat.mod_eq_of_lt (by omega)
    obtain ⟨r, h1, h2, h3⟩ := ih fuel
      { VioblkMy.vioblk_read_submit E s s.dev.blksz with
        dev := { (VioblkMy.vioblk_read_submit E s s.dev.blksz).dev with
          pos := ((VioblkMy.vioblk_read_submit E s s.dev.blksz).dev.pos + s.dev.blksz) % 2 ^ 64 } }
      (memcpy buf br (blkbuf_member_bytes (VioblkMy.vioblk_read_submit E s s.dev.blksz).dev
        (VioblkMy.vioblk_read_submit E s s.dev.blksz).tail) 0 s.dev.blksz)
      (br + s.dev.blksz) hb hsz
      (by simp only [my_read_submit_pos, my_read_submit_blksz, my_read_submit_size, hmod]; omega)
      (by simp only [my_read_submit_blksz]; omega)
    refine ⟨r, h1, ?_, h3⟩
    rw [h2]
    simp only [my_read_submit_blksz, Nat.succ_mul]
    congr 2
    omega

theorem my_write_submit_pos {σ : Type} (E : Env σ) (s : Sys σ) (buf : Nat → Nat) (b c : Nat) :
    (VioblkMy.vioblk_write_submit E s buf b c).dev.pos = s.dev.pos := rfl

theorem my_write_submit_size {σ : Type} (E : Env σ) (s : Sys σ) (buf : Nat → Nat) (b c : Nat) :
    (VioblkMy.vioblk_write_submit E s buf b c).dev.size = s.dev.size := rfl

theorem my_write_submit_blksz {σ : Type} (E : Env σ) (s : Sys σ) (buf : Nat → Nat) (b c : Nat) :
    (VioblkMy.vioblk_write_submit E s buf b c).dev.blksz = s.dev.blksz := rfl

theorem my_write_loop_aligned {σ : Type} (E : Env σ) (buf : Nat → Nat) (n bs : Nat) :
    ∀ (k fuel : Nat) (s : Sys σ) (bw : Nat),
      0 < bs → s.dev.size < 2 ^ 64 →
      s.dev.pos + k * bs = s.dev.size → bw + k * bs < n →
      ∃ r, VioblkMy.vioblk_write_loop E buf n bs 0 (fuel + k + 1) s bw = some r ∧
        r.ret = Ret.val (toLong (bw + k * bs)) ∧ r.sys.dev.pos = s.dev.size := by
  intro k
  induction k with
  | zero =>
    intro fuel s bw _ _ hp hn
    simp only [Nat.zero_mul, Nat.add_zero] at hp hn ⊢
    rw [VioblkMy.vioblk_write_loop, if_pos hn, if_pos (by omega)]
    exact ⟨_, rfl, rfl, hp⟩
  | succ k ih =>
    intro fuel s bw hb hsz hp hn
    rw [Nat.succ_mul] at hp hn
    have e : fuel + (k + 1) + 1 = (fuel + k + 1) + 1 := by omega
    rw [e, VioblkMy.vioblk_write_loop, if_pos (by omega), if_neg (by omega)]
    simp only
    have hc : (if n - bw < bs then n - bw else bs) = bs := by
      rw [if_neg (by omega)]
    rw [hc, if_neg (fun hne => hne rfl)]
    have hmod : (s.dev.pos + bs) % 2 ^ 64 = s.dev.pos + bs :=
      Nat.mod_eq_of_lt (by omega)
    obtain ⟨r, h1, h2, h3⟩ := ih fuel
      { VioblkMy.vioblk_write_submit E s buf bw bs with
        dev := { (VioblkMy.vioblk_write_submit E s buf bw bs).dev with
          pos := ((VioblkMy.vioblk_write_submit E s buf bw bs).dev.pos + bs) % 2 ^ 64 } }
      (bw + bs) hb hsz
      (by simp only [my_write_submit_pos, my_write_submit_size, hmod]; omega)
      (by omega)
    refine ⟨r, h1, ?_, h3⟩
    rw [h2]
    simp only [Nat.succ_mul]
    congr 2
    omega

/-- Where the position is a whole number `k` of blocks before the end of the
device and the requested range extends past the end, `vioblk_read` and
`vioblk_write` of `vioblk_my.c` return the bytes left, `size - pos`, and leave
the position at the capacity. -/
theorem my_read_write_reach_capacity_when_aligned {σ : Type} (E : Env σ)
    (hok : ∀ hw dev mem, (E.serve hw dev mem).2.2 % 256 = VIRTIO_BLK_S_OK)
    (s : Sys σ) (buf : Nat → Nat) (n k fuel : Nat)
    (hb : 0 < s.dev.blksz) (hsz : s.dev.size < 2 ^ 64) (hro : s.dev.readonly = 0)
    (hal : s.dev.pos + k * s.dev.blksz = s.dev.size) (hn : s.dev.pos + n > s.dev.size) :
    (∃ r, VioblkMy.vioblk_read E (fuel + k + 1) s buf n = some r ∧
      r.ret = Ret.val (toLong (s.dev.size - s.dev.pos)) ∧ r.sys.dev.pos = s.dev.size) ∧
    (∃ r, VioblkMy.vioblk_write E (fuel + k + 1) s buf n = some r ∧
      r.ret = Ret.val (toLong (s.dev.size - s.dev.pos)) ∧ r.sys.dev.pos = s.dev.size) := by
  have hk : k * s.dev.blksz = s.dev.size - s.dev.pos := by omega
  constructor
  · obtain ⟨r, h1, h2, h3⟩ := my_read_loop_aligned E hok n k fuel s buf 0 hb hsz hal (by omega)
    refine ⟨r, h1, ?_, h3⟩
    rw [h2, hk, Nat.zero_add]
  · obtain ⟨r, h1, h2, h3⟩ :=
      my_write_loop_aligned E buf n s.dev.blksz k fuel s 0 hb hsz hal (by omega)
    refine ⟨r, ?_, ?_, h3⟩
    · unfold VioblkMy.vioblk_write
      simp only
      rw [if_neg (fun hne => hne hro)]
      exact h1
    · rw [h2, hk, Nat.zero_add]

theorem faithful_serve_status (disk : Nat → Nat → Nat) (dev : vioblk_device) (mem : Mem) :
    (faithful_serve disk dev mem).2.2 = VIRTIO_BLK_S_OK := by
  unfold faithful_serve
  simp only
  split
  · split <;> rfl
  · rfl

theorem vioblk_submit_status_ok {σ : Type} (E : Env σ)
    (hok : ∀ hw dev mem, (E.serve hw dev mem).2.2 % 256 = VIRTIO_BLK_S_OK)
    (s : Sys σ) (type blksec : Nat) :
    (Vioblk.vioblk_submit E s type blksec).dev.vq.req_status = VIRTIO_BLK_S_OK := by
  show (E.serve _ _ _).2.2 % 256 = _
  exact hok _ _ _

theorem vioblk_write_loop_never_returns {σ : Type} (E : Env σ)
    (hok : ∀ hw dev mem, (E.serve hw dev mem).2.2 % 256 = VIRTIO_BLK_S_OK)
    (buf : Nat → Nat) (n bw : Nat) (h : bw < n) :
    ∀ (fuel : Nat) (s : Sys σ) (blksec offset : Nat),
      Vioblk.vioblk_write_loop E buf n bw fuel s blksec offset = none := by
  intro fuel
  induction fuel with
  | zero => intro s blksec offset; rfl
  | succ fuel ih =>
    intro s blksec offset
    rw [Vioblk.vioblk_write_loop, if_pos h]
    simp only
    rw [if_neg (fun hne => hne (vioblk_submit_status_ok E hok _ _ _))]
    exact ih _ _ _

theorem vioblk_read_loop_never_returns {σ : Type} (E : Env σ)
    (hok : ∀ hw dev mem, (E.serve hw dev mem).2.2 % 256 = VIRTIO_BLK_S_OK)
    (bufsz n : Nat) (h : n < bufsz) :
    ∀ (fuel : Nat) (s : Sys σ) (buf : Nat → Nat) (blksec offset : Nat),
      Vioblk.vioblk_read_loop E bufsz n fuel s buf blksec offset = none := by
  intro fuel
  induction fuel with
  | zero => intro s buf blksec offset; rfl
  | succ fuel ih =>
    intro s buf blksec offset
    rw [Vioblk.vioblk_read_loop, if_pos h]
    simp only
    rw [if_neg (fun hne => hne (vioblk_submit_status_ok E hok _ _ _))]
    exact ih _ _ _ _

theorem demo_env_ok (hw : Nat → Nat → Nat) (dev : vioblk_device) (mem : Mem) :
    (demo_env.serve hw dev mem).2.2 % 256 = VIRTIO_BLK_S_OK := by
  show (faithful_serve hw dev mem).2.2 % 256 = VIRTIO_BLK_S_OK
  rw [faithful_serve_status]
  rfl

/-! ### Interrupt controller -/

theorem plic_init_step (r : Nat → Nat) (i a : Nat) :
    Plic.plic_enable_source_for_context (Plic.plic_set_source_priority r i 0) 0 i a
      = if a = 0x0C002000 + 4 * (i / 32) then
          ((if 0x0C002000 + 4 * (i / 32) = 0x0C000000 + 4 * i then 0
            else r (0x0C002000 + 4 * (i / 32))) ||| 2 ^ (i % 32) % 2 ^ 32) % 2 ^ 32
        else if a = 0x0C000000 + 4 * i then 0 else r a := by
  simp only [Plic.plic_enable_source_for_context, Plic.plic_set_source_priority, Plic.store32,
    Plic.ENABLE, Plic.PLIC_IOBASE, Nat.one_shiftLeft]
  norm_num

theorem plic_init_range (m : Nat → Nat) (n : Nat) (hn : n ≤ 1024) :
    (∀ s, s < n → (List.range n).foldl
        (fun r i => Plic.plic_enable_source_for_context (Plic.plic_set_source_priority r i 0) 0 i)
        m (0x0C000000 + 4 * s) = 0) ∧
    (∀ s, s < n → ((List.range n).foldl
        (fun r i => Plic.plic_enable_source_for_context (Plic.plic_set_source_priority r i 0) 0 i)
        m (0x0C002000 + 4 * (s / 32))).testBit (s % 32) = true) ∧
    (∀ s, s < n → (List.range n).foldl
        (fun r i => Plic.plic_enable_source_for_context (Plic.plic_set_source_priority r i 0) 0 i)
        m (0x0C002000 + 4 * (s / 32)) < 2 ^ 32) ∧
    (∀ a, (∀ s, s < n → a ≠ 0x0C000000 + 4 * s) →
      (∀ s, s < n → a ≠ 0x0C002000 + 4 * (s / 32)) →
      (List.range n).foldl
        (fun r i => Plic.plic_enable_source_for_context (Plic.plic_set_source_priority r i 0) 0 i)
        m a = m a) := by
  induction n with
  | zero =>
    refine ⟨fun s h => absurd h (Nat.not_lt_zero s), fun s h => absurd h (Nat.not_lt_zero s),
      fun s h => absurd h (Nat.not_lt_zero s), fun a _ _ => rfl⟩
  | succ n ih =>
    obtain ⟨h1, h2, h3, h4⟩ := ih (by omega)
    simp only [List.range_succ, List.foldl_append, List.foldl_cons, List.foldl_nil,
      plic_init_step]
    have hne : ¬ (0x0C002000 + 4 * (n / 32) = 0x0C000000 + 4 * n) := by omega
    rw [if_neg hne]
    refine ⟨?_, ?_, ?_, ?_⟩
    · intro s hs
      rw [if_neg (by omega)]
      by_cases e : s = n
      · rw [if_pos (by rw [e])]
      · rw [if_neg (by omega)]
        exact h1 s (by omega)
    · intro s hs
      by_cases e : s / 32 = n / 32
      · rw [if_pos (by rw [e])]
        rw [Nat.testBit_mod_two_pow, Nat.testBit_or]
        have hlt : s % 32 < 32 := Nat.mod_lt _ (by norm_num)
        by_cases e2 : s = n
        · subst e2
          rw [Nat.mod_eq_of_lt (Nat.pow_lt_pow_right (by norm_num) hlt), Nat.testBit_two_pow_self]
          simp [hlt]
        · have := h2 s (by omega)
          rw [e] at this
          simp [hlt, this]
      · rw [if_neg (by omega), if_neg (by omega)]
        exact h2 s (by omega)
    · intro s hs
      by_cases e : s / 32 = n / 32
      · rw [if_pos (by rw [e])]
        exact Nat.mod_lt _ (by norm_num)
      · rw [if_neg (by omega), if_neg (by omega)]
        exact h3 s (by omega)
    · intro a ha1 ha2
      rw [if_neg (by have := ha2 n (by omega); omega), if_neg (ha1 n (by omega))]
      exact h4 a (fun s hs => ha1 s (by omega)) (fun s hs => ha2 s (by omega))

theorem plic_init_enable_word (m : Nat → Nat) (s : Nat) (hs : s < 1024) :
    Plic.plic_init m (0x0C002000 + 4 * (s / 32)) = 2 ^ 32 - 1 := by
  obtain ⟨_, h2, h3, _⟩ := plic_init_range m 1024 (Nat.le_refl _)
  apply Nat.eq_of_testBit_eq
  intro b
  rw [Nat.testBit_two_pow_sub_one]
  by_cases hb : b < 32
  · have e1 : (32 * (s / 32) + b) / 32 = s / 32 := by omega
    have e2 : (32 * (s / 32) + b) % 32 = b := by omega
    have := h2 (32 * (s / 32) + b) (by omega)
    rw [e1, e2] at this
    simp only [hb, decide_True]
    exact this
  · simp only [hb, decide_False]
    apply Nat.testBit_lt_two_pow
    exact Nat.lt_of_lt_of_le (h3 s hs) (Nat.pow_le_pow_right (by norm_num) (by omega))

theorem plic_init_priority_word (m : Nat → Nat) (s : Nat) (hs : s < 1024) :
    Plic.plic_init m (0x0C000000 + 4 * s) = 0 :=
  (plic_init_range m 1024 (Nat.le_refl _)).1 s hs

theorem plic_init_frame (m : Nat → Nat) (a : Nat)
    (h1 : ∀ s, s < 1024 → a ≠ 0x0C000000 + 4 * s)
    (h2 : ∀ s, s < 1024 → a ≠ 0x0C002000 + 4 * (s / 32)) :
    Plic.plic_init m a = m a :=
  (plic_init_range m 1024 (Nat.le_refl _)).2.2.2 a h1 h2

theorem plic_init_idempotent (m : Nat → Nat) :
    Plic.plic_init (Plic.plic_init m) = Plic.plic_init m := by
  funext a
  by_cases h1 : ∃ s, s < 1024 ∧ a = 0x0C000000 + 4 * s
  · obtain ⟨s, hs, rfl⟩ := h1
    rw [plic_init_priority_word _ s hs, plic_init_priority_word _ s hs]
  · by_cases h2 : ∃ s, s < 1024 ∧ a = 0x0C002000 + 4 * (s / 32)
    · obtain ⟨s, hs, rfl⟩ := h2
      rw [plic_init_enable_word _ s hs, plic_init_enable_word _ s hs]
    · exact plic_init_frame _ a (fun s hs e => h1 ⟨s, hs, e⟩) (fun s hs e => h2 ⟨s, hs, e⟩)

/-! ### File system: slots and directory -/

theorem get_file_t_loop_slot (fa : Nat → Kfs.file_t) (i : Nat) :
    ∀ (k j : Nat), j ≤ i → i < j + k →
      Kfs.get_file_t_loop fa (Kfs.IoPtr.slot i) k j
        = if (fa i).flags &&& Kfs.FILE_IN_USE ≠ 0 then some i else none := by
  intro k
  induction k with
  | zero => intro j h1 h2; omega
  | succ k ih =>
    intro j h1 h2
    rw [Kfs.get_file_t_loop]
    by_cases e : j = i
    · subst e
      rw [if_pos rfl]
    · rw [if_neg (fun h => e (Kfs.IoPtr.slot.inj h))]
      exact ih (j + 1) (by omega) (by omega)

theorem get_file_t_slot (fa : Nat → Kfs.file_t) (i : Nat) (hi : i < 32) :
    Kfs.get_file_t fa (Kfs.IoPtr.slot i)
      = if (fa i).flags &&& Kfs.FILE_IN_USE ≠ 0 then some i else none :=
  get_file_t_loop_slot fa i Kfs.MAX_FILES 0 (Nat.zero_le _) (by simpa [Kfs.MAX_FILES] using hi)

theorem get_file_t_loop_some (fa : Nat → Kfs.file_t) (io : Kfs.IoPtr) (i : Nat) :
    ∀ (k j : Nat), Kfs.get_file_t_loop fa io k j = some i →
      io = Kfs.IoPtr.slot i ∧ j ≤ i ∧ i < j + k ∧ (fa i).flags &&& Kfs.FILE_IN_USE ≠ 0 := by
  intro k
  induction k with
  | zero => intro j h; simp [Kfs.get_file_t_loop] at h
  | succ k ih =>
    intro j h
    rw [Kfs.get_file_t_loop] at h
    by_cases e : Kfs.IoPtr.slot j = io
    · rw [if_pos e] at h
      by_cases hf : (fa j).flags &&& Kfs.FILE_IN_USE ≠ 0
      · rw [if_pos hf] at h
        cases h
        exact ⟨e.symm, Nat.le_refl _, by omega, hf⟩
      · rw [if_neg hf] at h
        cases h
    · rw [if_neg e] at h
      obtain ⟨h1, h2, h3, h4⟩ := ih (j + 1) h
      exact ⟨h1, by omega, by omega, h4⟩

theorem get_file_t_some (fa : Nat → Kfs.file_t) (io : Kfs.IoPtr) (i : Nat)
    (h : Kfs.get_file_t fa io = some i) :
    io = Kfs.IoPtr.slot i ∧ i < 32 ∧ (fa i).flags &&& Kfs.FILE_IN_USE ≠ 0 := by
  obtain ⟨h1, _, h3, h4⟩ := get_file_t_loop_some fa io i Kfs.MAX_FILES 0 h
  exact ⟨h1, by simpa [Kfs.MAX_FILES] using h3, h4⟩

theorem fs_open_find_none (bb : Kfs.boot_block_t) (name : Nat → Nat) :
    ∀ (k i : Nat), (∀ t, t < k →
        Kfs.strncmp (bb.dir_entries (i + t)).file_name name Kfs.FS_NAMELEN 0 ≠ 0) →
      Kfs.fs_open_find bb name k i = -1 := by
  intro k
  induction k with
  | zero => intro i _; rfl
  | succ k ih =>
    intro i h
    rw [Kfs.fs_open_find, if_neg (by simpa using h 0 (Nat.succ_pos k))]
    apply ih
    intro t ht
    have := h (t + 1) (by omega)
    rwa [show i + (t + 1) = i + 1 + t from by omega] at this

theorem fs_open_find_first (bb : Kfs.boot_block_t) (name : Nat → Nat) :
    ∀ (k i t : Nat), t < k →
      Kfs.strncmp (bb.dir_entries (i + t)).file_name name Kfs.FS_NAMELEN 0 = 0 →
      (∀ u, u < t →
        Kfs.strncmp (bb.dir_entries (i + u)).file_name name Kfs.FS_NAMELEN 0 ≠ 0) →
      Kfs.fs_open_find bb name k i = ((i + t : Nat) : Int) := by
  intro k
  induction k with
  | zero => intro i t ht; omega
  | succ k ih =>
    intro i t ht hm hfirst
    rw [Kfs.fs_open_find]
    cases t with
    | zero => rw [if_pos (by simpa using hm)]; simp
    | succ t =>
      rw [if_neg (by simpa using hfirst 0 (Nat.succ_pos t))]
      rw [ih (i + 1) t (by omega)
        (by rwa [show i + 1 + t = i + (t + 1) from by omega])
        (fun u hu => by
          have := hfirst (u + 1) (by omega)
          rwa [show i + (u + 1) = i + 1 + u from by omega] at this)]
      congr 1
      omega

theorem fs_open_slot_spec (fa : Nat → Kfs.file_t) :
    ∀ (k i : Nat),
      i ≤ Kfs.fs_open_slot fa k i ∧ Kfs.fs_open_slot fa k i ≤ i + k ∧
      (∀ j, i ≤ j → j < Kfs.fs_open_slot fa k i → (fa j).flags &&& Kfs.FILE_IN_USE ≠ 0) ∧
      (Kfs.fs_open_slot fa k i < i + k →
        (fa (Kfs.fs_open_slot fa k i)).flags &&& Kfs.FILE_IN_USE = 0) := by
  intro k
  induction k with
  | zero =>
    intro i
    simp only [Kfs.fs_open_slot]
    exact ⟨Nat.le_refl _, Nat.le_refl _, fun j h1 h2 => by omega, fun h => by omega⟩
  | succ k ih =>
    intro i
    rw [Kfs.fs_open_slot]
    by_cases hf : (fa i).flags &&& Kfs.FILE_IN_USE = 0
    · rw [if_pos hf]
      exact ⟨Nat.le_refl _, by omega, fun j h1 h2 => by omega, fun _ => hf⟩
    · rw [if_neg hf]
      obtain ⟨h1, h2, h3, h4⟩ := ih (i + 1)
      refine ⟨by omega, by omega, ?_, fun h => h4 (by omega)⟩
      intro j hj1 hj2
      by_cases e : j = i
      · subst e; exact hf
      · exact h3 j (by omega) hj2

theorem fs_open_slot_lowest (fa : Nat → Kfs.file_t) (j0 : Nat) (hj : j0 < 32)
    (hfree : (fa j0).flags &&& Kfs.FILE_IN_USE = 0)
    (hlow : ∀ j, j < j0 → (fa j).flags &&& Kfs.FILE_IN_USE ≠ 0) :
    Kfs.fs_open_slot fa Kfs.MAX_FILES 0 = j0 := by
  obtain ⟨_, h2, h3, h4⟩ := fs_open_slot_spec fa Kfs.MAX_FILES 0
  have h32 : Kfs.MAX_FILES = 32 := rfl
  rcases Nat.lt_trichotomy (Kfs.fs_open_slot fa Kfs.MAX_FILES 0) j0 with h | h | h
  · exact absurd (h4 (by omega)) (hlow _ h)
  · exact h
  · exact absurd hfree (h3 j0 (Nat.zero_le _) h)

theorem fs_open_no_match {β : Type} (s : Kfs.Fs β) (name : Nat → Nat) (ioptr : Kfs.IoPtr)
    (h : ∀ i, i < s.boot_block.num_dentry → ¬ Kfs.name_matches s.boot_block name i) :
    Kfs.fs_open s name ioptr = (Ret.val (-1), s, ioptr) := by
  unfold Kfs.fs_open
  simp only
  rw [fs_open_find_none s.boot_block name s.boot_block.num_dentry 0
    (fun t ht => by simpa [Kfs.name_matches] using h t ht)]
  rw [if_pos rfl]

theorem fs_open_first_match {β : Type} (s : Kfs.Fs β) (name : Nat → Nat) (ioptr : Kfs.IoPtr)
    (i0 : Nat) (hi : i0 < s.boot_block.num_dentry)
    (hm : Kfs.name_matches s.boot_block name i0)
    (hfirst : ∀ i, i < i0 → ¬ Kfs.name_matches s.boot_block name i) :
    Kfs.fs_open s name ioptr =
      if Kfs.fs_open_slot s.file_array Kfs.MAX_FILES 0 = Kfs.MAX_FILES then
        (Ret.val (-1), s, ioptr)
      else if (s.boot_block.dir_entries i0).inode ≥ s.boot_block.num_inodes then
        (Ret.val (-1),
          Kfs.with_file s (Kfs.fs_open_slot s.file_array Kfs.MAX_FILES 0)
            { intf_ops := (s.file_array (Kfs.fs_open_slot s.file_array Kfs.MAX_FILES 0)).intf_ops,
              file_position := 0,
              file_size := (s.file_array (Kfs.fs_open_slot s.file_array Kfs.MAX_FILES 0)).file_size,
              inode_number := (s.boot_block.dir_entries i0).inode,
              flags := 0 },
          ioptr)
      else
        (Ret.val 0,
          Kfs.with_file s (Kfs.fs_open_slot s.file_array Kfs.MAX_FILES 0)
            { intf_ops := true, file_position := 0,
              file_size := (s.inodes (s.boot_block.dir_entries i0).inode).byte_len,
              inode_number := (s.boot_block.dir_entries i0).inode,
              flags := Kfs.FILE_IN_USE },
          Kfs.IoPtr.slot (Kfs.fs_open_slot s.file_array Kfs.MAX_FILES 0)) := by
  have hf : Kfs.fs_open_find s.boot_block name s.boot_block.num_dentry 0 = ((i0 : Nat) : Int) := by
    have := fs_open_find_first s.boot_block name s.boot_block.num_dentry 0 i0 hi
      (by simpa [Kfs.name_matches] using hm)
      (fun u hu => by simpa [Kfs.name_matches] using hfirst u hu)
    simpa using this
  unfold Kfs.fs_open
  simp only [hf, Int.toNat_ofNat]
  rw [if_neg (by omega)]
  rfl

theorem first_match_exists (bb : Kfs.boot_block_t) (name : Nat → Nat) (n : Nat)
    (h : ∃ i, i < n ∧ Kfs.name_matches bb name i) :
    ∃ i0, i0 < n ∧ Kfs.name_matches bb name i0 ∧
      ∀ i, i < i0 → ¬ Kfs.name_matches bb name i := by
  classical
  refine ⟨Nat.find h, (Nat.find_spec h).1, (Nat.find_spec h).2, ?_⟩
  intro i hi hmi
  exact Nat.find_min h hi ⟨Nat.lt_trans hi (Nat.find_spec h).1, hmi⟩

theorem first_match_unique (bb : Kfs.boot_block_t) (name : Nat → Nat) (a b : Nat)
    (ha : Kfs.name_matches bb name a) (hb : Kfs.name_matches bb name b)
    (hfa : ∀ i, i < a → ¬ Kfs.name_matches bb name i)
    (hfb : ∀ i, i < b → ¬ Kfs.name_matches bb name i) : a = b := by
  rcases Nat.lt_trichotomy a b with h | h | h
  · exact absurd ha (hfb a h)
  · exact h
  · exact absurd hb (hfa b h)

/-! ### File system: data-block loops -/

theorem fs_write_loop_frame {β : Type} (D : Kfs.BlkDev β) (bb : Kfs.boot_block_t)
    (inode : Kfs.inode_t) (buf : Nat → Nat) :
    ∀ (fuel to_write offset total : Nat) (blk : β) (out : Kfs.LoopOut β),
      Kfs.fs_write_loop D bb inode buf fuel to_write offset total blk = some out →
      out.buf = buf ∧ (out.failed = false → out.total = total + to_write) := by
  intro fuel
  induction fuel with
  | zero => intro tw off tot blk out h; simp [Kfs.fs_write_loop] at h
  | succ fuel ih =>
    intro tw off tot blk out h
    rw [Kfs.fs_write_loop] at h
    simp only at h
    split_ifs at h with h1 h2 h3 h4 h5 h6 h7 h8
    all_goals first
      | (cases h
         refine ⟨rfl, fun hf => ?_⟩
         first
           | (cases hf; done)
           | (simp only; omega))
      | (obtain ⟨e1, e2⟩ := ih _ _ _ _ _ h
         exact ⟨e1, fun hf => by rw [e2 hf]; omega⟩)

theorem fs_write_loop_returns {β : Type} (D : Kfs.BlkDev β) (bb : Kfs.boot_block_t)
    (inode : Kfs.inode_t) (buf : Nat → Nat) :
    ∀ (fuel to_write offset total : Nat) (blk : β), to_write < fuel →
      ∃ out, Kfs.fs_write_loop D bb inode buf fuel to_write offset total blk = some out := by
  intro fuel
  induction fuel with
  | zero => intro tw off tot blk h; omega
  | succ fuel ih =>
    intro tw off tot blk h
    rw [Kfs.fs_write_loop]
    simp only
    have hm : off % Kfs.FS_BLKSZ < 4096 := Nat.mod_lt _ (by norm_num [Kfs.FS_BLKSZ])
    have h4096 : Kfs.FS_BLKSZ = 4096 := rfl
    split_ifs with h1 h2 h3 h4 h5 h6 h7 h8
    all_goals first
      | exact ⟨_, rfl⟩
      | exact ih _ _ _ _ (by omega)

theorem toLong_of_lt (x : Nat) (h : x < 2 ^ 63) : toLong x = (x : Int) := by
  unfold toLong
  have e : x % 2 ^ 64 = x := Nat.mod_eq_of_lt (by omega)
  rw [e, if_pos h]

theorem fs_write_unfold {β : Type} (D : Kfs.BlkDev β) (fuel : Nat) (s : Kfs.Fs β) (i : Nat)
    (buf : Nat → Nat) (n : Nat) (hi : i < 32) (hu : Kfs.in_use (s.file_array i))
    (hpos : (s.file_array i).file_position ≤ (s.file_array i).file_size)
    (hsz : (s.file_array i).file_size < 2 ^ 63) :
    Kfs.fs_write D fuel s (Kfs.IoPtr.slot i) buf n =
      if (s.file_array i).file_size - (s.file_array i).file_position = 0 then
        some { ret := Ret.val 0, fs := s, buf := buf }
      else
        match Kfs.fs_write_loop D s.boot_block (s.inodes (s.file_array i).inode_number) buf fuel
            (min n ((s.file_array i).file_size - (s.file_array i).file_position))
            (s.file_array i).file_position 0 s.blk with
        | none => none
        | some out =>
          if out.failed then
            some { ret := Ret.val (-1), fs := { s with blk := out.blk }, buf := buf }
          else
            some { ret := Ret.val (toLong out.total),
                   fs := { s with
                     blk := out.blk
                     file_array := Kfs.set_file s.file_array i
                       { s.file_array i with
                         file_position := ((s.file_array i).file_position + out.total) % 2 ^ 64 } },
                   buf := buf } := by
  have hg := get_file_t_slot s.file_array i hi
  rw [if_pos (show (s.file_array i).flags &&& Kfs.FILE_IN_USE ≠ 0 from hu)] at hg
  have hbl : ((s.file_array i).file_size + 2 ^ 64 - (s.file_array i).file_position) % 2 ^ 64
      = (s.file_array i).file_size - (s.file_array i).file_position := by omega
  have hmin : (if n < (s.file_array i).file_size - (s.file_array i).file_position then n
      else (s.file_array i).file_size - (s.file_array i).file_position)
      = min n ((s.file_array i).file_size - (s.file_array i).file_position) := by
    split <;> omega
  unfold Kfs.fs_write
  rw [hg]
  simp only [hbl, hmin]

theorem ideal_blk_serves_reads : Kfs.serves_reads Kfs.ideal_blk Kfs.Disk.data := by
  intro blk p
  refine ⟨by simp [Kfs.ideal_blk], by simp [Kfs.ideal_blk], fun i _ => by simp [Kfs.ideal_blk],
    by simp [Kfs.ideal_blk]⟩

theorem data_block_pos_eq (bb : Kfs.boot_block_t) (d : Nat) (hd : d < bb.num_data)
    (hfs : 4096 * (1 + bb.num_inodes + bb.num_data) ≤ 2 ^ 32) :
    Kfs.data_block_pos bb d = 4096 * (1 + bb.num_inodes + d) := by
  unfold Kfs.data_block_pos Kfs.FS_BLKSZ
  norm_num at hfs ⊢
  omega

theorem fs_read_loop_spec {β : Type} (D : Kfs.BlkDev β) (content : β → Nat → Nat)
    (bb : Kfs.boot_block_t) (inode : Kfs.inode_t) (hD : Kfs.serves_reads D content)
    (hblk : ∀ j, j < 1023 → inode.data_block_num j < bb.num_data)
    (hfs : 4096 * (1 + bb.num_inodes + bb.num_data) ≤ 2 ^ 32) :
    ∀ (fuel to_read offset total : Nat) (buf : Nat → Nat) (blk : β),
      to_read < fuel → offset + to_read ≤ 1023 * 4096 →
      ∃ out, Kfs.fs_read_loop D bb inode fuel to_read offset total buf blk = some out ∧
        out.failed = false ∧ out.total = total + to_read ∧ content out.blk = content blk ∧
        ∀ a, out.buf a = if total ≤ a ∧ a < total + to_read
          then content blk (Kfs.file_byte_pos bb inode (offset + (a - total))) else buf a := by
  intro fuel
  induction fuel with
  | zero => intro tr off tot buf blk h; omega
  | succ fuel ih =>
    intro tr off tot buf blk hf hcap
    rw [Kfs.fs_read_loop]
    by_cases h0 : tr > 0
    · rw [if_pos h0]
      simp only
      have hbn : off / Kfs.FS_BLKSZ < 1023 := by
        unfold Kfs.FS_BLKSZ; omega
      have hd := hblk _ hbn
      obtain ⟨h1, h2, h3, h4⟩ := hD blk (Kfs.data_block_pos bb (inode.data_block_num (off / Kfs.FS_BLKSZ)))
      rw [if_neg (by omega), if_neg (by omega), if_neg (by omega), if_neg (not_not.mpr h2)]
      have hm : off % Kfs.FS_BLKSZ < 4096 := Nat.mod_lt _ (by norm_num [Kfs.FS_BLKSZ])
      have h4096 : Kfs.FS_BLKSZ = 4096 := rfl
      have hc : ∃ c, (if tr < Kfs.FS_BLKSZ - off % Kfs.FS_BLKSZ then tr
          else Kfs.FS_BLKSZ - off % Kfs.FS_BLKSZ) = c ∧ 0 < c ∧ c ≤ tr ∧ c ≤ 4096 - off % 4096 :=
        ⟨_, rfl, by split <;> omega, by split <;> omega, by rw [h4096]; split <;> omega⟩
      obtain ⟨c, hc, hc0, hc1, hc2⟩ := hc
      rw [hc]
      have hoff : (off + c) % 2 ^ 64 = off + c := Nat.mod_eq_of_lt (by omega)
      rw [hoff]
      obtain ⟨out, e1, e2, e3, e4, e5⟩ := ih (tr - c) (off + c) (tot + c)
        (memcpy buf tot (D.read (D.ctl_setpos blk (Kfs.data_block_pos bb
          (inode.data_block_num (off / Kfs.FS_BLKSZ)))).2 Kfs.FS_BLKSZ).2.1 (off % Kfs.FS_BLKSZ) c)
        (D.read (D.ctl_setpos blk (Kfs.data_block_pos bb
          (inode.data_block_num (off / Kfs.FS_BLKSZ)))).2 Kfs.FS_BLKSZ).2.2
        (by omega) (by omega)
      refine ⟨out, e1, e2, by rw [e3]; omega, e4.trans h4, ?_⟩
      intro a
      rw [e5 a, h4]
      by_cases ha1 : tot + c ≤ a ∧ a < tot + c + (tr - c)
      · rw [if_pos ha1, if_pos (by omega)]
        congr 2
        omega
      · rw [if_neg ha1]
        unfold memcpy
        by_cases ha2 : tot ≤ a ∧ a < tot + c
        · rw [if_pos ha2, if_pos (by omega), h3 _ (by rw [h4096]; omega),
            data_block_pos_eq bb _ hd hfs]
          unfold Kfs.file_byte_pos
          rw [h4096]
          have q1 : (off + (a - tot)) / 4096 = off / 4096 := by omega
          have q2 : (off + (a - tot)) % 4096 = off % 4096 + (a - tot) := by omega
          rw [q1, q2, Nat.add_assoc]
        · rw [if_neg ha2, if_neg (by omega)]
    · rw [if_neg h0]
      refine ⟨_, rfl, rfl, by simp; omega, rfl, fun a => ?_⟩
      rw [if_neg (by omega)]

theorem fs_read_unfold {β : Type} (D : Kfs.BlkDev β) (fuel : Nat) (s : Kfs.Fs β) (i : Nat)
    (buf : Nat → Nat) (n : Nat) (hi : i < 32) (hu : Kfs.in_use (s.file_array i))
    (hpos : (s.file_array i).file_position ≤ (s.file_array i).file_size)
    (hsz : (s.file_array i).file_size < 2 ^ 64) :
    Kfs.fs_read D fuel s (Kfs.IoPtr.slot i) buf n =
      if (s.file_array i).file_size - (s.file_array i).file_position = 0 then
        some { ret := Ret.val 0, fs := s, buf := buf }
      else
        match Kfs.fs_read_loop D s.boot_block (s.inodes (s.file_array i).inode_number) fuel
            (min n ((s.file_array i).file_size - (s.file_array i).file_position))
            (s.file_array i).file_position 0 buf s.blk with
        | none => none
        | some out =>
          if out.failed then
            some { ret := Ret.val (-1), fs := { s with blk := out.blk }, buf := out.buf }
          else
            some { ret := Ret.val (toLong out.total),
                   fs := { s with
                     blk := out.blk
                     file_array := Kfs.set_file s.file_array i
                       { s.file_array i with
                         file_position := ((s.file_array i).file_position + out.total) % 2 ^ 64 } },
                   buf := out.buf } := by
  have hg := get_file_t_slot s.file_array i hi
  rw [if_pos (show (s.file_array i).flags &&& Kfs.FILE_IN_USE ≠ 0 from hu)] at hg
  have hbl : ((s.file_array i).file_size + 2 ^ 64 - (s.file_array i).file_position) % 2 ^ 64
      = (s.file_array i).file_size - (s.file_array i).file_position := by omega
  have hmin : (if n < (s.file_array i).file_size - (s.file_array i).file_position then n
      else (s.file_array i).file_size - (s.file_array i).file_position)
      = min n ((s.file_array i).file_size - (s.file_array i).file_position) := by
    split <;> omega
  unfold Kfs.fs_read
  rw [hg]
  simp only [hbl, hmin]

theorem fs_read_spec {β : Type} (D : Kfs.BlkDev β) (content : β → Nat → Nat)
    (s : Kfs.Fs β) (i : Nat) (buf : Nat → Nat) (n fuel : Nat)
    (hD : Kfs.serves_reads D content) (hi : i < 32) (hu : Kfs.in_use (s.file_array i))
    (hpos : (s.file_array i).file_position ≤ (s.file_array i).file_size)
    (hsz : (s.file_array i).file_size < 2 ^ 64)
    (hcap : (s.file_array i).file_position +
      min n ((s.file_array i).file_size - (s.file_array i).file_position) ≤ 1023 * 4096)
    (hblk : ∀ j, j < 1023 →
      (s.inodes (s.file_array i).inode_number).data_block_num j < s.boot_block.num_data)
    (hfs : 4096 * (1 + s.boot_block.num_inodes + s.boot_block.num_data) ≤ 2 ^ 32)
    (hfuel : min n ((s.file_array i).file_size - (s.file_array i).file_position) < fuel) :
    ∃ r, Kfs.fs_read D fuel s (Kfs.IoPtr.slot i) buf n = some r ∧
      r.ret = Ret.val
        ((min n ((s.file_array i).file_size - (s.file_array i).file_position) : Nat) : Int) ∧
      (∀ j, j < min n ((s.file_array i).file_size - (s.file_array i).file_position) →
        r.buf j = content s.blk
          (Kfs.file_byte_pos s.boot_block (s.inodes (s.file_array i).inode_number)
            ((s.file_array i).file_position + j))) ∧
      (∀ j, min n ((s.file_array i).file_size - (s.file_array i).file_position) ≤ j →
        r.buf j = buf j) ∧
      r.fs.file_array i = { s.file_array i with
        file_position := (s.file_array i).file_position +
          min n ((s.file_array i).file_size - (s.file_array i).file_position) } ∧
      (∀ j, j ≠ i → r.fs.file_array j = s.file_array j) ∧
      content r.fs.blk = content s.blk := by
  rw [fs_read_unfold D fuel s i buf n hi hu hpos hsz]
  split
  · rename_i hz
    refine ⟨_, rfl, ?_, ?_, fun _ _ => rfl, ?_, fun _ _ => rfl, rfl⟩
    · simp [hz]
    · intro j hj
      rw [hz] at hj
      omega
    · simp [hz]
  · obtain ⟨out, e1, e2, e3, e4, e5⟩ := fs_read_loop_spec D content s.boot_block
      (s.inodes (s.file_array i).inode_number) hD hblk hfs fuel
      (min n ((s.file_array i).file_size - (s.file_array i).file_position))
      (s.file_array i).file_position 0 buf s.blk hfuel hcap
    rw [Nat.zero_add] at e3
    have hlong : toLong out.total = ((out.total : Nat) : Int) :=
      toLong_of_lt _ (by rw [e3]; omega)
    have hmod : ((s.file_array i).file_position + out.total) % 2 ^ 64
        = (s.file_array i).file_position + out.total :=
      Nat.mod_eq_of_lt (by rw [e3]; omega)
    rw [e1]
    simp only [e2, Bool.false_eq_true, if_false]
    refine ⟨_, rfl, by rw [hlong, e3], ?_, ?_, ?_, ?_, e4⟩
    · intro j hj
      show out.buf j = _
      rw [e5 j, if_pos (by omega), Nat.sub_zero]
    · intro j hj
      show out.buf j = _
      rw [e5 j, if_neg (by omega)]
    · simp only [Kfs.set_file, if_pos, hmod]
      rw [e3]
    · intro j hj
      simp [Kfs.set_file, hj]

/-! ### File system: write followed by read -/

theorem fs_write_loop_step (bb : Kfs.boot_block_t) (inode : Kfs.inode_t) (buf : Nat → Nat)
    (fuel tw off tot : Nat) (blk : Kfs.Disk) (h0 : 0 < tw) (hbn : off / 4096 < 1023)
    (hd : inode.data_block_num (off / 4096) < bb.num_data)
    (hfs : 4096 * (1 + bb.num_inodes + bb.num_data) ≤ 2 ^ 32) :
    Kfs.fs_write_loop Kfs.ideal_blk bb inode buf (fuel + 1) tw off tot blk =
      Kfs.fs_write_loop Kfs.ideal_blk bb inode buf fuel (tw - min tw (4096 - off % 4096))
        ((off + min tw (4096 - off % 4096)) % 2 ^ 64) (tot + min tw (4096 - off % 4096))
        { data := fun a =>
            if Kfs.file_byte_pos bb inode off ≤ a ∧
                a < Kfs.file_byte_pos bb inode off + min tw (4096 - off % 4096)
            then buf (tot + (a - Kfs.file_byte_pos bb inode off)) else blk.data a,
          pos := 4096 * (1 + bb.num_inodes + inode.data_block_num (off / 4096)) + 4096 } := by
  have hmin : (if tw < 4096 - off % 4096 then tw else 4096 - off % 4096)
      = min tw (4096 - off % 4096) := by
    split <;> omega
  rw [Kfs.fs_write_loop, if_pos h0]
  simp only [Kfs.FS_BLKSZ]
  rw [if_neg (by omega), if_neg (by omega), data_block_pos_eq bb _ hd hfs, hmin]
  simp only [Kfs.ideal_blk, Kfs.file_byte_pos, Kfs.FS_BLKSZ]
  simp only [lt_self_iff_false, if_false, ne_eq, not_true_eq_false]
  generalize 4096 * (1 + bb.num_inodes + inode.data_block_num (off / 4096)) = P
  have hm : off % 4096 < 4096 := Nat.mod_lt _ (by norm_num)
  congr 2
  funext a
  unfold memcpy
  by_cases h1 : P + off % 4096 ≤ a ∧ a < P + off % 4096 + min tw (4096 - off % 4096)
  · rw [if_pos h1, if_pos (by omega), if_pos (by omega)]
    congr 1
    omega
  · rw [if_neg h1]
    by_cases h2 : P ≤ a ∧ a < P + 4096
    · rw [if_pos h2, if_neg (by omega)]
      show blk.data (P + (a - P)) = blk.data a
      congr 1
      omega
    · rw [if_neg h2]

theorem file_byte_pos_add (bb : Kfs.boot_block_t) (inode : Kfs.inode_t) (off t : Nat)
    (ht : off % 4096 + t < 4096) :
    Kfs.file_byte_pos bb inode (off + t) = Kfs.file_byte_pos bb inode off + t := by
  unfold Kfs.file_byte_pos Kfs.FS_BLKSZ
  have q1 : (off + t) / 4096 = off / 4096 := by omega
  have q2 : (off + t) % 4096 = off % 4096 + t := by omega
  rw [q1, q2]
  omega

theorem file_byte_pos_inj (bb : Kfs.boot_block_t) (inode : Kfs.inode_t) (size : Nat)
    (hinj : ∀ j1 j2, j1 * 4096 < size → j2 * 4096 < size →
      inode.data_block_num j1 = inode.data_block_num j2 → j1 = j2)
    (x y : Nat) (hx : x < size) (hy : y < size)
    (h : Kfs.file_byte_pos bb inode x = Kfs.file_byte_pos bb inode y) : x = y := by
  unfold Kfs.file_byte_pos Kfs.FS_BLKSZ at h
  have hb : inode.data_block_num (x / 4096) = inode.data_block_num (y / 4096) := by omega
  have := hinj (x / 4096) (y / 4096) (by omega) (by omega) hb
  omega

theorem fs_write_loop_spec (bb : Kfs.boot_block_t) (inode : Kfs.inode_t) (buf : Nat → Nat)
    (size : Nat)
    (hblk : ∀ j, j < 1023 → inode.data_block_num j < bb.num_data)
    (hfs : 4096 * (1 + bb.num_inodes + bb.num_data) ≤ 2 ^ 32)
    (hinj : ∀ x y, x < size → y < size →
      Kfs.file_byte_pos bb inode x = Kfs.file_byte_pos bb inode y → x = y) :
    ∀ (fuel tw off tot : Nat) (blk : Kfs.Disk),
      tw < fuel → off + tw ≤ 1023 * 4096 → off + tw ≤ size →
      ∃ out, Kfs.fs_write_loop Kfs.ideal_blk bb inode buf fuel tw off tot blk = some out ∧
        out.failed = false ∧ out.total = tot + tw ∧
        (∀ idx, off ≤ idx → idx < off + tw →
          out.blk.data (Kfs.file_byte_pos bb inode idx) = buf (tot + (idx - off))) ∧
        (∀ a, (∀ idx, off ≤ idx → idx < off + tw → a ≠ Kfs.file_byte_pos bb inode idx) →
          out.blk.data a = blk.data a) := by
  intro fuel
  induction fuel with
  | zero => intro tw off tot blk h; omega
  | succ fuel ih =>
    intro tw off tot blk hf hcap hsize
    by_cases h0 : 0 < tw
    · have hbn : off / 4096 < 1023 := by omega
      rw [fs_write_loop_step bb inode buf fuel tw off tot blk h0 hbn (hblk _ hbn) hfs]
      have hm : off % 4096 < 4096 := Nat.mod_lt _ (by norm_num)
      obtain ⟨c, hc, hc0, hc1, hc2⟩ : ∃ c, min tw (4096 - off % 4096) = c ∧ 0 < c ∧ c ≤ tw ∧
          c ≤ 4096 - off % 4096 := ⟨_, rfl, by omega, by omega, by omega⟩
      rw [hc]
      have hoff : (off + c) % 2 ^ 64 = off + c := Nat.mod_eq_of_lt (by omega)
      rw [hoff]
      obtain ⟨out, e1, e2, e3, e4, e5⟩ := ih (tw - c) (off + c) (tot + c)
        { data := fun a =>
            if Kfs.file_byte_pos bb inode off ≤ a ∧ a < Kfs.file_byte_pos bb inode off + c
            then buf (tot + (a - Kfs.file_byte_pos bb inode off)) else blk.data a,
          pos := 4096 * (1 + bb.num_inodes + inode.data_block_num (off / 4096)) + 4096 }
        (by omega) (by omega) (by omega)
      have hchunk : ∀ idx, off ≤ idx → idx < off + c →
          Kfs.file_byte_pos bb inode idx = Kfs.file_byte_pos bb inode off + (idx - off) := by
        intro idx h1 h2
        have := file_byte_pos_add bb inode off (idx - off) (by omega)
        rw [← this]
        congr 1
        omega
      refine ⟨out, e1, e2, by rw [e3]; omega, ?_, ?_⟩
      · intro idx h1 h2
        by_cases h3 : idx < off + c
        · rw [e5 _ (fun j hj1 hj2 hne =>
            absurd (hinj idx j (by omega) (by omega) hne) (by omega))]
          simp only
          rw [if_pos (by rw [hchunk idx h1 h3]; omega), hchunk idx h1 h3]
          congr 1
          omega
        · rw [e4 idx (by omega) (by omega)]
          congr 1
          omega
      · intro a ha
        rw [e5 a (fun j hj1 hj2 => ha j (by omega) (by omega))]
        simp only
        rw [if_neg]
        intro hh
        apply ha (off + (a - Kfs.file_byte_pos bb inode off)) (by omega) (by omega)
        rw [file_byte_pos_add bb inode off _ (by omega)]
        omega
    · rw [Kfs.fs_write_loop, if_neg h0]
      refine ⟨_, rfl, rfl, by simp; omega, fun idx h1 h2 => by omega, fun a _ => rfl⟩

theorem fs_seek_spec {β : Type} (s : Kfs.Fs β) (i p : Nat) (hi : i < 32)
    (hu : Kfs.in_use (s.file_array i)) (hp : p ≤ (s.file_array i).file_size)
    (hsz : (s.file_array i).file_size < 2 ^ 64) :
    Kfs.seek s (Kfs.IoPtr.slot i) p =
      (Ret.val 0, Kfs.with_file s i { s.file_array i with file_position := p }) := by
  have hg := get_file_t_slot s.file_array i hi
  rw [if_pos (show (s.file_array i).flags &&& Kfs.FILE_IN_USE ≠ 0 from hu)] at hg
  have hl : load_le (store_le zero_mem 8 8 p) 8 8 = p := by
    rw [load_le_store_le]
    exact Nat.mod_eq_of_lt (by norm_num; omega)
  unfold Kfs.seek Kfs.fs_ioctl
  rw [hg]
  simp only [IOCTL_SETPOS, IOCTL_GETLEN, IOCTL_GETPOS]
  rw [if_neg (by decide), if_neg (by decide), if_pos trivial]
  unfold Kfs.fs_setpos
  rw [if_neg (by decide), hl]
  simp only
  rw [if_neg (by omega)]
  rfl

theorem fs_write_spec (s : Kfs.Fs Kfs.Disk) (i : Nat) (buf : Nat → Nat) (n fuel : Nat)
    (hi : i < 32) (hu : Kfs.in_use (s.file_array i))
    (hpos : (s.file_array i).file_position ≤ (s.file_array i).file_size)
    (hcap : (s.file_array i).file_size ≤ 1023 * 4096)
    (hblk : ∀ j, j < 1023 →
      (s.inodes (s.file_array i).inode_number).data_block_num j < s.boot_block.num_data)
    (hfs : 4096 * (1 + s.boot_block.num_inodes + s.boot_block.num_data) ≤ 2 ^ 32)
    (hinj : ∀ x y, x < (s.file_array i).file_size → y < (s.file_array i).file_size →
      Kfs.file_byte_pos s.boot_block (s.inodes (s.file_array i).inode_number) x =
        Kfs.file_byte_pos s.boot_block (s.inodes (s.file_array i).inode_number) y → x = y)
    (hfuel : min n ((s.file_array i).file_size - (s.file_array i).file_position) < fuel) :
    ∃ r, Kfs.fs_write Kfs.ideal_blk fuel s (Kfs.IoPtr.slot i) buf n = some r ∧
      r.ret = Ret.val
        ((min n ((s.file_array i).file_size - (s.file_array i).file_position) : Nat) : Int) ∧
      r.fs.boot_block = s.boot_block ∧ r.fs.inodes = s.inodes ∧
      r.fs.file_array = Kfs.set_file s.file_array i { s.file_array i with
        file_position := (s.file_array i).file_position +
          min n ((s.file_array i).file_size - (s.file_array i).file_position) } ∧
      (∀ idx, (s.file_array i).file_position ≤ idx →
        idx < (s.file_array i).file_position +
          min n ((s.file_array i).file_size - (s.file_array i).file_position) →
        r.fs.blk.data
            (Kfs.file_byte_pos s.boot_block (s.inodes (s.file_array i).inode_number) idx)
          = buf (idx - (s.file_array i).file_position)) ∧
      (∀ a, (∀ idx, (s.file_array i).file_position ≤ idx →
          idx < (s.file_array i).file_position +
            min n ((s.file_array i).file_size - (s.file_array i).file_position) →
          a ≠ Kfs.file_byte_pos s.boot_block (s.inodes (s.file_array i).inode_number) idx) →
        r.fs.blk.data a = s.blk.data a) := by
  rw [fs_write_unfold Kfs.ideal_blk fuel s i buf n hi hu hpos (by omega)]
  split
  · rename_i hz
    refine ⟨_, rfl, by simp [hz], rfl, rfl, ?_, ?_, fun _ _ => rfl⟩
    · funext j
      simp only [Kfs.set_file, hz, Nat.min_zero, Nat.add_zero]
      split
      · rename_i hj
        rw [hj]
      · rfl
    · intro idx h1 h2
      rw [hz] at h2
      omega
  · obtain ⟨out, e1, e2, e3, e4, e5⟩ := fs_write_loop_spec s.boot_block
      (s.inodes (s.file_array i).inode_number) buf (s.file_array i).file_size hblk hfs hinj fuel
      (min n ((s.file_array i).file_size - (s.file_array i).file_position))
      (s.file_array i).file_position 0 s.blk hfuel (by omega) (by omega)
    rw [Nat.zero_add] at e3
    have hlong : toLong out.total = ((out.total : Nat) : Int) :=
      toLong_of_lt _ (by rw [e3]; omega)
    have hmod : ((s.file_array i).file_position + out.total) % 2 ^ 64
        = (s.file_array i).file_position + out.total :=
      Nat.mod_eq_of_lt (by rw [e3]; omega)
    rw [e1]
    simp only [e2, Bool.false_eq_true, if_false]
    refine ⟨_, rfl, by rw [hlong, e3], rfl, rfl, ?_, ?_, ?_⟩
    · simp only [hmod]
      rw [e3]
    · intro idx h1 h2
      show out.blk.data _ = _
      rw [e4 idx h1 h2, Nat.zero_add]
    · intro a ha
      exact e5 a ha

/-! ### Block driver: what the device sees at a doorbell -/

theorem doorbell_records_append (l1 l2 : List Event) :
    doorbell_records (l1 ++ l2) = doorbell_records l1 ++ doorbell_records l2 := by
  induction l1 with
  | nil => rfl
  | cons e l ih => cases e <;> simp [doorbell_records, ih]

theorem my_read_submit_log {σ : Type} (E : Env σ) (s : Sys σ) (c : Nat) :
    ∃ d, (VioblkMy.vioblk_read_submit E s c).log
        = s.log ++ [Event.virtio_notify_avail 0 d, Event.condition_wait] ∧
      d.vq.req_header.type = VIRTIO_BLK_T_IN ∧
      d.vq.req_header.sector = s.dev.pos / s.dev.blksz ∧
      d.pos = s.dev.pos ∧ d.blksz = s.dev.blksz := by
  refine ⟨{ (VioblkMy.vioblk_read_submit E s c).dev with
    vq := { (VioblkMy.vioblk_read_submit E s c).dev.vq with req_status := s.dev.vq.req_status } },
    ?_, rfl, rfl, rfl, rfl⟩
  exact List.append_assoc _ _ _

theorem my_write_submit_log {σ : Type} (E : Env σ) (s : Sys σ) (buf : Nat → Nat) (b c : Nat) :
    ∃ d, (VioblkMy.vioblk_write_submit E s buf b c).log
        = s.log ++ [Event.virtio_notify_avail 0 d, Event.condition_wait] ∧
      d.vq.req_header.type = VIRTIO_BLK_T_OUT ∧
      d.vq.req_header.sector = s.dev.pos / s.dev.blksz ∧
      d.pos = s.dev.pos ∧ d.blksz = s.dev.blksz := by
  refine ⟨{ (VioblkMy.vioblk_write_submit E s buf b c).dev with
    vq := { (VioblkMy.vioblk_write_submit E s buf b c).dev.vq with
      req_status := s.dev.vq.req_status } },
    ?_, rfl, rfl, rfl, rfl⟩
  exact List.append_assoc _ _ _

theorem my_read_loop_doorbells {σ : Type} (E : Env σ) (bufsz : Nat) :
    ∀ (fuel : Nat) (s : Sys σ) (buf : Nat → Nat) (br : Nat) (r : RW σ),
      VioblkMy.vioblk_read_loop E bufsz fuel s buf br = some r →
      ∃ evs, r.sys.log = s.log ++ evs ∧ ∀ d ∈ doorbell_records evs,
        d.vq.req_header.type = VIRTIO_BLK_T_IN ∧ d.vq.req_header.sector = d.pos / d.blksz := by
  intro fuel
  induction fuel with
  | zero => intro s buf br r h; simp [VioblkMy.vioblk_read_loop] at h
  | succ fuel ih =>
    intro s buf br r h
    rw [VioblkMy.vioblk_read_loop] at h
    by_cases h1 : br < bufsz
    · rw [if_pos h1] at h
      by_cases h2 : s.dev.pos ≥ s.dev.size
      · rw [if_pos h2] at h
        cases h
        exact ⟨[], (List.append_nil _).symm, fun d hd => by simp [doorbell_records] at hd⟩
      · rw [if_neg h2] at h
        simp only at h
        generalize (if bufsz - br < s.dev.blksz then bufsz - br else s.dev.blksz) = c at h
        obtain ⟨d, hl, t1, t2, t3, t4⟩ := my_read_submit_log E s c
        have hd : ∀ d' ∈ doorbell_records [Event.virtio_notify_avail 0 d, Event.condition_wait],
            d'.vq.req_header.type = VIRTIO_BLK_T_IN ∧
            d'.vq.req_header.sector = d'.pos / d'.blksz := by
          intro d' hd'
          simp [doorbell_records] at hd'
          subst hd'
          exact ⟨t1, by rw [t2, t3, t4]⟩
        by_cases h3 : (VioblkMy.vioblk_read_submit E s c).dev.vq.req_status ≠ VIRTIO_BLK_S_OK
        · rw [if_pos h3] at h
          cases h
          exact ⟨_, hl, hd⟩
        · rw [if_neg h3] at h
          obtain ⟨evs, e1, e2⟩ := ih _ _ _ _ h
          refine ⟨[Event.virtio_notify_avail 0 d, Event.condition_wait] ++ evs, ?_, ?_⟩
          · rw [e1]
            show (VioblkMy.vioblk_read_submit E s c).log ++ evs = _
            rw [hl, List.append_assoc]
          · intro d' hd'
            rw [doorbell_records_append, List.mem_append] at hd'
            rcases hd' with hd' | hd'
            · exact hd d' hd'
            · exact e2 d' hd'
    · rw [if_neg h1] at h
      cases h
      exact ⟨[], (List.append_nil _).symm, fun d hd => by simp [doorbell_records] at hd⟩

theorem my_read_loop_returns {σ : Type} (E : Env σ) (bufsz : Nat) :
    ∀ (fuel : Nat) (s : Sys σ) (buf : Nat → Nat) (br : Nat),
      0 < s.dev.blksz → bufsz - br < fuel →
      ∃ r, VioblkMy.vioblk_read_loop E bufsz fuel s buf br = some r := by
  intro fuel
  induction fuel with
  | zero => intro s buf br _ h; omega
  | succ fuel ih =>
    intro s buf br hb hf
    rw [VioblkMy.vioblk_read_loop]
    by_cases h1 : br < bufsz
    · rw [if_pos h1]
      by_cases h2 : s.dev.pos ≥ s.dev.size
      · rw [if_pos h2]
        exact ⟨_, rfl⟩
      · rw [if_neg h2]
        simp only
        split_ifs with h3 h4 h5
        · exact ⟨_, rfl⟩
        · exact ih _ _ _ hb (by omega)
        · exact ⟨_, rfl⟩
        · exact ih _ _ _ hb (by omega)
    · rw [if_neg h1]
      exact ⟨_, rfl⟩

theorem my_write_loop_doorbells {σ : Type} (E : Env σ) (buf : Nat → Nat) (n bs sb : Nat) :
    ∀ (fuel : Nat) (s : Sys σ) (bw : Nat) (r : RW σ),
      VioblkMy.vioblk_write_loop E buf n bs sb fuel s bw = some r →
      ∃ evs, r.sys.log = s.log ++ evs ∧ ∀ d ∈ doorbell_records evs,
        d.vq.req_header.type = VIRTIO_BLK_T_OUT ∧ d.vq.req_header.sector = d.pos / d.blksz := by
  intro fuel
  induction fuel with
  | zero => intro s bw r h; simp [VioblkMy.vioblk_write_loop] at h
  | succ fuel ih =>
    intro s bw r h
    rw [VioblkMy.vioblk_write_loop] at h
    by_cases h1 : bw < n
    · rw [if_pos h1] at h
      by_cases h2 : s.dev.pos ≥ s.dev.size
      · rw [if_pos h2] at h
        cases h
        exact ⟨[], (List.append_nil _).symm, fun d hd => by simp [doorbell_records] at hd⟩
      · rw [if_neg h2] at h
        simp only at h
        generalize (if n - bw < bs then n - bw else bs) = c at h
        obtain ⟨d, hl, t1, t2, t3, t4⟩ := my_write_submit_log E s buf bw c
        have hd : ∀ d' ∈ doorbell_records [Event.virtio_notify_avail 0 d, Event.condition_wait],
            d'.vq.req_header.type = VIRTIO_BLK_T_OUT ∧
            d'.vq.req_header.sector = d'.pos / d'.blksz := by
          intro d' hd'
          simp [doorbell_records] at hd'
          subst hd'
          exact ⟨t1, by rw [t2, t3, t4]⟩
        by_cases h3 : sb ≠ VIRTIO_BLK_S_OK
        · rw [if_pos h3] at h
          cases h
          exact ⟨_, hl, hd⟩
        · rw [if_neg h3] at h
          obtain ⟨evs, e1, e2⟩ := ih _ _ _ h
          refine ⟨[Event.virtio_notify_avail 0 d, Event.condition_wait] ++ evs, ?_, ?_⟩
          · rw [e1]
            show (VioblkMy.vioblk_write_submit E s buf bw c).log ++ evs = _
            rw [hl, List.append_assoc]
          · intro d' hd'
            rw [doorbell_records_append, List.mem_append] at hd'
            rcases hd' with hd' | hd'
            · exact hd d' hd'
            · exact e2 d' hd'
    · rw [if_neg h1] at h
      cases h
      exact ⟨[], (List.append_nil _).symm, fun d hd => by simp [doorbell_records] at hd⟩

theorem my_write_loop_returns {σ : Type} (E : Env σ) (buf : Nat → Nat) (n bs sb : Nat)
    (hb : 0 < bs) :
    ∀ (fuel : Nat) (s : Sys σ) (bw : Nat), n - bw < fuel →
      ∃ r, VioblkMy.vioblk_write_loop E buf n bs sb fuel s bw = some r := by
  intro fuel
  induction fuel with
  | zero => intro s bw h; omega
  | succ fuel ih =>
    intro s bw hf
    rw [VioblkMy.vioblk_write_loop]
    by_cases h1 : bw < n
    · rw [if_pos h1]
      by_cases h2 : s.dev.pos ≥ s.dev.size
      · rw [if_pos h2]
        exact ⟨_, rfl⟩
      · rw [if_neg h2]
        simp only
        split_ifs with h3 h4 h5
        all_goals first
          | exact ⟨_, rfl⟩
          | exact ih _ _ (by omega)
    · rw [if_neg h1]
      exact ⟨_, rfl⟩

/-! ### File system: the position stays within the size -/

theorem fs_read_loop_total {β : Type} (D : Kfs.BlkDev β) (bb : Kfs.boot_block_t)
    (inode : Kfs.inode_t) :
    ∀ (fuel to_read offset total : Nat) (buf : Nat → Nat) (blk : β) (out : Kfs.LoopOut β),
      Kfs.fs_read_loop D bb inode fuel to_read offset total buf blk = some out →
      out.failed = false → out.total = total + to_read := by
  intro fuel
  induction fuel with
  | zero => intro tr off tot buf blk out h; simp [Kfs.fs_read_loop] at h
  | succ fuel ih =>
    intro tr off tot buf blk out h
    rw [Kfs.fs_read_loop] at h
    simp only at h
    split_ifs at h with h1 h2 h3 h4 h5 h6
    all_goals first
      | (cases h
         intro hf
         first
           | (cases hf; done)
           | (simp only; omega))
      | (intro hf
         rw [ih _ _ _ _ _ _ h hf]
         omega)

theorem fs_read_loop_returns {β : Type} (D : Kfs.BlkDev β) (bb : Kfs.boot_block_t)
    (inode : Kfs.inode_t) :
    ∀ (fuel to_read offset total : Nat) (buf : Nat → Nat) (blk : β), to_read < fuel →
      ∃ out, Kfs.fs_read_loop D bb inode fuel to_read offset total buf blk = some out := by
  intro fuel
  induction fuel with
  | zero => intro tr off tot buf blk h; omega
  | succ fuel ih =>
    intro tr off tot buf blk h
    rw [Kfs.fs_read_loop]
    simp only
    have hm : off % Kfs.FS_BLKSZ < 4096 := Nat.mod_lt _ (by norm_num [Kfs.FS_BLKSZ])
    have h4096 : Kfs.FS_BLKSZ = 4096 := rfl
    split_ifs with h1 h2 h3 h4 h5 h6
    all_goals first
      | exact ⟨_, rfl⟩
      | exact ih _ _ _ _ _ (by omega)

theorem positions_ok_of_slot {β : Type} (s : Kfs.Fs β) (t : Kfs.Fs β) (i : Nat)
    (h : Kfs.positions_ok s)
    (hother : ∀ j, j ≠ i → t.file_array j = s.file_array j)
    (hslot : Kfs.in_use (t.file_array i) →
      (t.file_array i).file_position ≤ (t.file_array i).file_size) :
    Kfs.positions_ok t := by
  intro j hj hu
  by_cases e : j = i
  · subst e
    exact hslot hu
  · rw [hother j e] at hu ⊢
    exact h j hj hu

theorem fs_read_positions_ok {β : Type} (D : Kfs.BlkDev β) (s : Kfs.Fs β)
    (h : Kfs.positions_ok s) (fuel : Nat) (io : Kfs.IoPtr) (buf : Nat → Nat) (n : Nat)
    (r : Kfs.FsRW β) (hr : Kfs.fs_read D fuel s io buf n = some r) :
    Kfs.positions_ok r.fs := by
  unfold Kfs.fs_read at hr
  cases hg : Kfs.get_file_t s.file_array io with
  | none =>
    rw [hg] at hr
    cases hr
    exact h
  | some i =>
    rw [hg] at hr
    obtain ⟨_, hi, hu⟩ := get_file_t_some s.file_array io i hg
    have hp := h i hi hu
    simp only at hr
    split at hr
    · cases hr
      exact h
    · split at hr
      · cases hr
      · rename_i out ho
        have ht := fs_read_loop_total D _ _ _ _ _ _ _ _ out ho
        split at hr
        · cases hr
          exact h
        · rename_i hnf
          cases hr
          have ht := ht (by simpa using hnf)
          refine positions_ok_of_slot s _ i h (fun j hj => by simp [Kfs.set_file, hj]) ?_
          intro _
          simp only [Kfs.set_file, if_pos]
          rw [ht]
          have hB : ((s.file_array i).file_size + 2 ^ 64 - (s.file_array i).file_position) % 2 ^ 64
              ≤ (s.file_array i).file_size - (s.file_array i).file_position := by omega
          generalize ((s.file_array i).file_size + 2 ^ 64 - (s.file_array i).file_position) % 2 ^ 64
            = B at hB ⊢
          have hT : (if n < B then n else B) ≤ B := by split <;> omega
          generalize (if n < B then n else B) = T at hT ⊢
          exact le_trans (Nat.mod_le _ _) (by omega)

theorem fs_write_positions_ok {β : Type} (D : Kfs.BlkDev β) (s : Kfs.Fs β)
    (h : Kfs.positions_ok s) (fuel : Nat) (io : Kfs.IoPtr) (buf : Nat → Nat) (n : Nat)
    (r : Kfs.FsRW β) (hr : Kfs.fs_write D fuel s io buf n = some r) :
    Kfs.positions_ok r.fs := by
  unfold Kfs.fs_write at hr
  cases hg : Kfs.get_file_t s.file_array io with
  | none =>
    rw [hg] at hr
    cases hr
    exact h
  | some i =>
    rw [hg] at hr
    obtain ⟨_, hi, hu⟩ := get_file_t_some s.file_array io i hg
    have hp := h i hi hu
    simp only at hr
    split at hr
    · cases hr
      exact h
    · split at hr
      · cases hr
      · rename_i out ho
        have ht := (fs_write_loop_frame D _ _ _ _ _ _ _ _ out ho).2
        split at hr
        · cases hr
          exact h
        · rename_i hnf
          cases hr
          have ht := ht (by simpa using hnf)
          refine positions_ok_of_slot s _ i h (fun j hj => by simp [Kfs.set_file, hj]) ?_
          intro _
          simp only [Kfs.set_file, if_pos]
          rw [ht]
          have hB : ((s.file_array i).file_size + 2 ^ 64 - (s.file_array i).file_position) % 2 ^ 64
              ≤ (s.file_array i).file_size - (s.file_array i).file_position := by omega
          generalize ((s.file_array i).file_size + 2 ^ 64 - (s.file_array i).file_position) % 2 ^ 64
            = B at hB ⊢
          have hT : (if n < B then n else B) ≤ B := by split <;> omega
          generalize (if n < B then n else B) = T at hT ⊢
          exact le_trans (Nat.mod_le _ _) (by omega)

theorem fs_open_positions_ok {β : Type} (s : Kfs.Fs β) (h : Kfs.positions_ok s)
    (name : Nat → Nat) (ioptr : Kfs.IoPtr) :
    Kfs.positions_ok (Kfs.fs_open s name ioptr).2.1 := by
  unfold Kfs.fs_open
  simp only
  split_ifs with h1 h2 h3
  · exact h
  · exact h
  · refine positions_ok_of_slot s _ (Kfs.fs_open_slot s.file_array Kfs.MAX_FILES 0) h
      (fun j hj => by simp [Kfs.set_file, hj]) ?_
    intro hu
    simp [Kfs.set_file, Kfs.in_use] at hu
  · refine positions_ok_of_slot s _ (Kfs.fs_open_slot s.file_array Kfs.MAX_FILES 0) h
      (fun j hj => by simp [Kfs.set_file, hj]) ?_
    intro _
    simp [Kfs.set_file]

theorem fs_setpos_positions_ok {β : Type} (s : Kfs.Fs β) (h : Kfs.positions_ok s)
    (mem : Mem) (i arg : Nat) :
    Kfs.positions_ok (Kfs.fs_setpos s mem i arg).2.1 := by
  unfold Kfs.fs_setpos
  simp only
  split_ifs with h1 h2
  · exact h
  · exact h
  · refine positions_ok_of_slot s _ i h (fun j hj => by simp [Kfs.set_file, hj]) ?_
    intro _
    simp only [Kfs.set_file, if_pos]
    omega

theorem fs_ioctl_positions_ok {β : Type} (s : Kfs.Fs β) (h : Kfs.positions_ok s)
    (mem : Mem) (io : Kfs.IoPtr) (cmd : Int) (arg : Nat) :
    Kfs.positions_ok (Kfs.fs_ioctl s mem io cmd arg).2.1 := by
  unfold Kfs.fs_ioctl
  cases Kfs.get_file_t s.file_array io with
  | none => exact h
  | some i =>
    simp only
    split_ifs with h1 h2 h3 h4
    · unfold Kfs.fs_getlen
      split <;> exact h
    · unfold Kfs.fs_getpos
      split <;> exact h
    · exact fs_setpos_positions_ok s h mem i arg
    · unfold Kfs.fs_getblksz
      split <;> exact h
    · exact h

theorem fs_read_returns {β : Type} (D : Kfs.BlkDev β) (s : Kfs.Fs β) (fuel : Nat)
    (io : Kfs.IoPtr) (buf : Nat → Nat) (n : Nat) (hf : n < fuel) :
    ∃ r, Kfs.fs_read D fuel s io buf n = some r := by
  unfold Kfs.fs_read
  cases Kfs.get_file_t s.file_array io with
  | none => exact ⟨_, rfl⟩
  | some i =>
    simp only
    split
    · exact ⟨_, rfl⟩
    · obtain ⟨out, ho⟩ := fs_read_loop_returns D s.boot_block
        (s.inodes (s.file_array i).inode_number) fuel
        (if n < ((s.file_array i).file_size + 2 ^ 64 - (s.file_array i).file_position) % 2 ^ 64
          then n
          else ((s.file_array i).file_size + 2 ^ 64 - (s.file_array i).file_position) % 2 ^ 64)
        (s.file_array i).file_position 0 buf s.blk (by split <;> omega)
      rw [ho]
      simp only
      split
      · exact ⟨_, rfl⟩
      · exact ⟨_, rfl⟩

theorem fs_write_returns {β : Type} (D : Kfs.BlkDev β) (s : Kfs.Fs β) (fuel : Nat)
    (io : Kfs.IoPtr) (buf : Nat → Nat) (n : Nat) (hf : n < fuel) :
    ∃ r, Kfs.fs_write D fuel s io buf n = some r := by
  unfold Kfs.fs_write
  cases Kfs.get_file_t s.file_array io with
  | none => exact ⟨_, rfl⟩
  | some i =>
    simp only
    split
    · exact ⟨_, rfl⟩
    · obtain ⟨out, ho⟩ := fs_write_loop_returns D s.boot_block
        (s.inodes (s.file_array i).inode_number) buf fuel
        (if n < ((s.file_array i).file_size + 2 ^ 64 - (s.file_array i).file_position) % 2 ^ 64
          then n
          else ((s.file_array i).file_size + 2 ^ 64 - (s.file_array i).file_position) % 2 ^ 64)
        (s.file_array i).file_position 0 s.blk (by split <;> omega)
      rw [ho]
      simp only
      split
      · exact ⟨_, rfl⟩
      · exact ⟨_, rfl⟩

theorem doorbell_records_pair (d : vioblk_device) (evs : List Event) :
    doorbell_records ([Event.virtio_notify_avail 0 d, Event.condition_wait] ++ evs)
      = d :: doorbell_records evs := rfl

theorem my_read_loop_chunks {σ : Type} (E : Env σ) (bufsz : Nat) :
    ∀ (fuel : Nat) (s : Sys σ) (buf : Nat → Nat) (br : Nat) (r : RW σ),
      0 < s.dev.blksz →
      VioblkMy.vioblk_read_loop E bufsz fuel s buf br = some r →
      ∃ evs, r.sys.log = s.log ++ evs ∧
        (∀ d ∈ doorbell_records evs,
          d.vq.req_header.type = VIRTIO_BLK_T_IN ∧ d.vq.req_header.sector = d.pos / d.blksz ∧
          d.blksz = s.dev.blksz) ∧
        (bufsz ≤ br → evs = [] ∧ r.count = br ∧ r.ret = Ret.val (toLong br)) ∧
        br ≤ r.count ∧
        (r.ret = Ret.neg Errno.ioerr →
          r.count + s.dev.blksz = br + (doorbell_records evs).length * s.dev.blksz) ∧
        (r.ret ≠ Ret.neg Errno.ioerr →
          r.ret = Ret.val (toLong r.count) ∧
          r.count ≤ br + (doorbell_records evs).length * s.dev.blksz ∧
          br + (doorbell_records evs).length * s.dev.blksz < r.count + s.dev.blksz) := by
  intro fuel
  induction fuel with
  | zero => intro s buf br r _ h; simp [VioblkMy.vioblk_read_loop] at h
  | succ fuel ih =>
    intro s buf br r hb h
    rw [VioblkMy.vioblk_read_loop] at h
    by_cases h1 : br < bufsz
    · rw [if_pos h1] at h
      by_cases h2 : s.dev.pos ≥ s.dev.size
      · rw [if_pos h2] at h
        cases h
        refine ⟨[], (List.append_nil _).symm, fun d hd => by simp [doorbell_records] at hd,
          fun hle => absurd hle (by omega), le_refl _, (fun he => by cases he),
          fun _ => ⟨rfl, ?_, ?_⟩⟩
        · simp [doorbell_records]
        · simp [doorbell_records]
          exact hb
      · rw [if_neg h2] at h
        simp only at h
        generalize hc : (if bufsz - br < s.dev.blksz then bufsz - br else s.dev.blksz) = c at h
        obtain ⟨d, hl, t1, t2, t3, t4⟩ := my_read_submit_log E s c
        by_cases h3 : (VioblkMy.vioblk_read_submit E s c).dev.vq.req_status ≠ VIRTIO_BLK_S_OK
        · rw [if_pos h3] at h
          cases h
          refine ⟨_, hl, ?_, fun hle => absurd hle (by omega), le_refl _, fun _ => ?_,
            fun hne => absurd rfl hne⟩
          · intro d' hd'
            simp [doorbell_records] at hd'
            subst hd'
            exact ⟨t1, by rw [t2, t3, t4], t4⟩
          · simp [doorbell_records]
        · rw [if_neg h3] at h
          obtain ⟨evs, e1, e2, e3, e4, e5, e6⟩ := ih _ _ _ _ (by exact hb) h
          simp only [my_read_submit_blksz] at e2 e5 e6
          refine ⟨[Event.virtio_notify_avail 0 d, Event.condition_wait] ++ evs, ?_, ?_,
            fun hle => absurd hle (by omega), by omega, ?_, ?_⟩
          · rw [e1]
            show (VioblkMy.vioblk_read_submit E s c).log ++ evs = _
            rw [hl, List.append_assoc]
          · intro d' hd'
            rw [doorbell_records_pair, List.mem_cons] at hd'
            rcases hd' with hd' | hd'
            · subst hd'
              exact ⟨t1, by rw [t2, t3, t4], t4⟩
            · exact e2 d' hd'
          · intro he
            rw [doorbell_records_pair, List.length_cons, Nat.add_mul, Nat.one_mul]
            by_cases hfull : bufsz - br < s.dev.blksz
            · rw [if_pos hfull] at hc
              obtain ⟨_, _, e33⟩ := e3 (by omega)
              rw [e33] at he
              cases he
            · rw [if_neg hfull] at hc
              have := e5 he
              generalize (doorbell_records evs).length * s.dev.blksz = m at this ⊢
              omega
          · intro hne
            rw [doorbell_records_pair, List.length_cons, Nat.add_mul, Nat.one_mul]
            obtain ⟨e61, e62, e63⟩ := e6 hne
            refine ⟨e61, ?_, ?_⟩
            · by_cases hfull : bufsz - br < s.dev.blksz
              · rw [if_pos hfull] at hc
                obtain ⟨e31, e32, _⟩ := e3 (by omega)
                subst e31
                simp only [doorbell_records, List.length_nil, Nat.zero_mul]
                omega
              · rw [if_neg hfull] at hc
                generalize (doorbell_records evs).length * s.dev.blksz = m at e62 e63 ⊢
                omega
            · by_cases hfull : bufsz - br < s.dev.blksz
              · rw [if_pos hfull] at hc
                obtain ⟨e31, e32, _⟩ := e3 (by omega)
                subst e31
                simp only [doorbell_records, List.length_nil, Nat.zero_mul]
                omega
              · rw [if_neg hfull] at hc
                generalize (doorbell_records evs).length * s.dev.blksz = m at e62 e63 ⊢
                omega
    · rw [if_neg h1] at h
      cases h
      refine ⟨[], (List.append_nil _).symm, fun d hd => by simp [doorbell_records] at hd,
        fun _ => ⟨rfl, rfl, rfl⟩, le_refl _, (fun he => by cases he),
        fun _ => ⟨rfl, ?_, ?_⟩⟩
      · simp [doorbell_records]
      · simp [doorbell_records]
        exact hb

theorem my_write_loop_chunks {σ : Type} (E : Env σ) (buf : Nat → Nat) (n bs : Nat)
    (hb : 0 < bs) :
    ∀ (fuel : Nat) (s : Sys σ) (bw : Nat) (r : RW σ),
      VioblkMy.vioblk_write_loop E buf n bs 0 fuel s bw = some r →
      ∃ evs, r.sys.log = s.log ++ evs ∧
        (∀ d ∈ doorbell_records evs,
          d.vq.req_header.type = VIRTIO_BLK_T_OUT ∧ d.vq.req_header.sector = d.pos / d.blksz ∧
          d.blksz = s.dev.blksz) ∧
        (n ≤ bw → evs = [] ∧ r.count = bw) ∧
        bw ≤ r.count ∧
        r.ret = Ret.val (toLong r.count) ∧
        r.count ≤ bw + (doorbell_records evs).length * bs ∧
        bw + (doorbell_records evs).length * bs < r.count + bs := by
  intro fuel
  induction fuel with
  | zero => intro s bw r h; simp [VioblkMy.vioblk_write_loop] at h
  | succ fuel ih =>
    intro s bw r h
    rw [VioblkMy.vioblk_write_loop] at h
    by_cases h1 : bw < n
    · rw [if_pos h1] at h
      by_cases h2 : s.dev.pos ≥ s.dev.size
      · rw [if_pos h2] at h
        cases h
        refine ⟨[], (List.append_nil _).symm, fun d hd => by simp [doorbell_records] at hd,
          fun hle => absurd hle (by omega), le_refl _, rfl, ?_, ?_⟩
        · simp [doorbell_records]
        · simp [doorbell_records]
          exact hb
      · rw [if_neg h2] at h
        simp only at h
        generalize hc : (if n - bw < bs then n - bw else bs) = c at h
        obtain ⟨d, hl, t1, t2, t3, t4⟩ := my_write_submit_log E s buf bw c
        rw [if_neg (by decide)] at h
        obtain ⟨evs, e1, e2, e3, e4, e5, e6, e7⟩ := ih _ _ _ h
        simp only [my_write_submit_blksz] at e2
        refine ⟨[Event.virtio_notify_avail 0 d, Event.condition_wait] ++ evs, ?_, ?_,
          fun hle => absurd hle (by omega), by omega, e5, ?_, ?_⟩
        · rw [e1]
          show (VioblkMy.vioblk_write_submit E s buf bw c).log ++ evs = _
          rw [hl, List.append_assoc]
        · intro d' hd'
          rw [doorbell_records_pair, List.mem_cons] at hd'
          rcases hd' with hd' | hd'
          · subst hd'
            exact ⟨t1, by rw [t2, t3, t4], t4⟩
          · exact e2 d' hd'
        · rw [doorbell_records_pair, List.length_cons, Nat.add_mul, Nat.one_mul]
          by_cases hfull : n - bw < bs
          · rw [if_pos hfull] at hc
            obtain ⟨e31, e32⟩ := e3 (by omega)
            subst e31
            simp only [doorbell_records, List.length_nil, Nat.zero_mul]
            omega
          · rw [if_neg hfull] at hc
            generalize (doorbell_records evs).length * bs = m at e6 e7 ⊢
            omega
        · rw [doorbell_records_pair, List.length_cons, Nat.add_mul, Nat.one_mul]
          by_cases hfull : n - bw < bs
          · rw [if_pos hfull] at hc
            obtain ⟨e31, e32⟩ := e3 (by omega)
            subst e31
            simp only [doorbell_records, List.length_nil, Nat.zero_mul]
            omega
          · rw [if_neg hfull] at hc
            generalize (doorbell_records evs).length * bs = m at e6 e7 ⊢
            omega
    · rw [if_neg h1] at h
      cases h
      refine ⟨[], (List.append_nil _).symm, fun d hd => by simp [doorbell_records] at hd,
        fun _ => ⟨rfl, rfl⟩, le_refl _, rfl, ?_, ?_⟩
      · simp [doorbell_records]
      · simp [doorbell_records]
        exact hb

/-! ## The claims -/

/-- C1, evaluation at the failing input (code defect in `vioblk_my.c`).  On the
opened scenario device (block size 512, capacity 8192), with a device that
serves every request faithfully: SETPOS(0), `vioblk_write(buf, 512)` of a buffer
holding 171 everywhere, SETPOS(0), `vioblk_read(out, 512)`.  Both calls return
512, the disk holds 171 at sector 0 and the device has filled the data buffer
with 171, but `out[0]` is 0, not 171: the read copies from the address of the
member `blkbuf` (`&dev->blkbuf`), the bytes of the pointer itself, instead of the
buffer it points to. -/
theorem C1_roundtrip_returns_pointer_bytes (fuel : Nat) :
    demo_my_open.dev.blksz = 512 ∧ demo_my_open.dev.size = 8192 ∧
    (VioblkMy.roundtrip demo_env (fuel + 2) demo_my_open 4096 0 (fun _ => 171) zero_mem 512).map
      (fun x => (x.1, x.2.ret, x.2.buf 0, x.2.sys.mem x.2.sys.dev.blkbuf, x.2.sys.hw 0 0))
      = some (Ret.val 512, Ret.val 512, 0, 171, 171) :=
  ⟨rfl, rfl, rfl⟩

/-- C2, evaluation at the failing input (code defect in `vioblk.c`).  On the
scenario device, whose device serves every request faithfully with status OK,
`vioblk_open` after `vioblk_attach` returns 0, and then `vioblk_write` of the
1-byte buffer `[b]` does not return 1: the loop `while (bw < n)` never assigns
`bw`, so the call is still looping after any number `fuel` of iterations.  The
loop of `vioblk_read` never assigns `n` and does not return either. -/
theorem C2_vioblk_one_byte_write_never_returns (b : Nat) (fuel : Nat) (out : Nat → Nat)
    (s : Sys (Nat → Nat → Nat)) :
    (Vioblk.vioblk_open demo_env demo_vioblk (Addr.abs 0)).1 = Ret.val 0 ∧
    Vioblk.vioblk_write demo_env fuel demo_vioblk_open (fun _ => b) 1 = none ∧
    Vioblk.vioblk_read demo_env fuel s out 1 = none :=
  ⟨rfl,
   vioblk_write_loop_never_returns demo_env demo_env_ok _ 1 0 (by decide) fuel _ 0 0,
   vioblk_read_loop_never_returns demo_env demo_env_ok 1 0 (by decide) fuel _ out 0 0⟩

/-- C3, evaluation at the failing input (code defect in `vioblk_my.c`).  Block size
512, capacity 1024, position 1000, every request completed with status OK: a
request of 100 bytes extends past the capacity (1000 + 100 > 1024), yet
`vioblk_read` and `vioblk_write` each return 100, not 1024 - 1000 = 24, and
leave the position at 1100, beyond the capacity: the chunk length is not
clamped to the bytes left before the end of the device. -/
theorem C3_boundary_chunk_not_clamped (fuel : Nat) :
    (small_my (fun _ => 0) 1000).dev.blksz = 512 ∧
    (small_my (fun _ => 0) 1000).dev.size = 1024 ∧
    (small_my (fun _ => 0) 1000).dev.pos = 1000 ∧
    (VioblkMy.vioblk_read (status_env (fun _ => 0)) (fuel + 2) (small_my (fun _ => 0) 1000)
        zero_mem 100).map (fun r => (r.ret, r.sys.dev.pos)) = some (Ret.val 100, 1100) ∧
    (VioblkMy.vioblk_write (status_env (fun _ => 0)) (fuel + 2) (small_my (fun _ => 0) 1000)
        zero_mem 100).map (fun r => (r.ret, r.sys.dev.pos)) = some (Ret.val 100, 1100) :=
  ⟨rfl, rfl, rfl, rfl, rfl⟩

/-- C4, evaluation at the failing input (code defect in `vioblk_my.c`).  The device
completes every request with status IOERR (1).  `vioblk_read` of 512 bytes
returns `-EIO`, but `vioblk_write` of 512 bytes returns 512 and advances the
position although the status byte `req_status` the device wrote is 1: the write
tests its local `status_byte`, which is never assigned from `req_status`. -/
theorem C4_write_ignores_device_status (fuel : Nat) :
    (VioblkMy.vioblk_read (status_env (fun _ => 1)) (fuel + 1) (small_my (fun _ => 1) 0)
        zero_mem 512).map (fun r => (r.ret, r.sys.dev.vq.req_status, r.sys.dev.pos))
      = some (Ret.neg Errno.ioerr, 1, 0) ∧
    (VioblkMy.vioblk_write (status_env (fun _ => 1)) (fuel + 2) (small_my (fun _ => 1) 0)
        zero_mem 512).map (fun r => (r.ret, r.sys.dev.vq.req_status, r.sys.dev.pos))
      = some (Ret.val 512, 1, 512) :=
  ⟨rfl, rfl⟩

/-- C5 (`vioblk_my.c`).  When `vioblk_read` returns `-EIO`, the status byte of the
chunk it submitted last is not OK.  With `count` the number of bytes the
earlier, successful chunks delivered (the value of `bytes_read` at the return:
`k` whole blocks, the call having rung the doorbell `k + 1` times), every byte
of the caller's buffer at an offset `>= count` is unchanged, and the position
is the initial position plus `count`, the sum being the 64-bit addition of the
code (it is the plain sum when the requested range does not wrap around 2^64).
The failed chunk writes no byte of the caller's buffer and does not advance the
position. -/
theorem C5_read_ioerr_frame {σ : Type} (E : Env σ) (fuel : Nat) (s : Sys σ)
    (buf : Nat → Nat) (bufsz : Nat) (r : RW σ)
    (hpos : s.dev.pos < 2 ^ 64)
    (hrun : VioblkMy.vioblk_read E fuel s buf bufsz = some r)
    (hret : r.ret = Ret.neg Errno.ioerr) :
    r.sys.dev.vq.req_status ≠ VIRTIO_BLK_S_OK ∧
    r.count < bufsz ∧
    (∃ k, r.count = k * s.dev.blksz ∧ doorbells r.sys.log = doorbells s.log + k + 1) ∧
    (∀ i, r.count ≤ i → r.buf i = buf i) ∧
    r.sys.dev.pos = (s.dev.pos + r.count) % 2 ^ 64 ∧
    (s.dev.pos + bufsz ≤ 2 ^ 64 → r.sys.dev.pos = s.dev.pos + r.count) := by
  obtain ⟨_, h2, h3, h4, h5, k, h6, h7⟩ :=
    my_read_loop_ioerr E bufsz fuel s buf 0 r hrun hret hpos
  refine ⟨h5, h2, ⟨k, by simpa using h6, h7⟩, h3, by simpa using h4, fun hb => ?_⟩
  rw [h4]
  simp only [Nat.sub_zero]
  exact Nat.mod_eq_of_lt (by omega)

/-- Witness of C5: on the 2-block device whose second request fails, a read of
1024 bytes at position 0 returns `-EIO` after one chunk of 512 bytes; the
position is 512 and the caller's buffer is unchanged at offset 600. -/
theorem C5_witness :
    second_fails_read.ret = Ret.neg Errno.ioerr ∧ second_fails_read.count = 512 ∧
    second_fails_read.buf 600 = 9 ∧
    second_fails_read.sys.dev.pos = (small_my second_fails 0).dev.pos + second_fails_read.count :=
  ⟨by decide, by decide,
   (C5_read_ioerr_frame (status_env second_fails) 2 (small_my second_fails 0) (fun _ => 9) 1024
      second_fails_read (by decide) rfl (by decide)).2.2.2.1 600 (by decide),
   (C5_read_ioerr_frame (status_env second_fails) 2 (small_my second_fails 0) (fun _ => 9) 1024
      second_fails_read (by decide) rfl (by decide)).2.2.2.2.2 (by decide)⟩

/-- C6 (both drafts).  On a device a successful `vioblk_attach` has produced, after
any sequence `calls` of `vioblk_open` / `vioblk_close` calls, a further
`vioblk_open` returns `-EBUSY` exactly when the device is open at that point (an
earlier open with no close since); it then leaves the whole state (device
record, registers, call log: no virtqueue or interrupt source is enabled) and
the caller's `*ioptr` as they were.  Otherwise it returns 0, sets `opened` to 1,
enables the virtqueue and the interrupt source and hands out the address of the
device's `io_intf`. -/
theorem C6_open_busy_exactly_when_open {σ : Type} (E : Env σ) (regs : virtio_mmio_regs)
    (irqno : Int) (mem : Mem) (tail : Nat → Nat) (hw : σ) (ioptr0 ioptr : Addr)
    (calls : List Call) :
    (∀ o d s, VioblkMy.vioblk_attach E regs irqno = some o → o.dev = some d →
      s = VioblkMy.run_calls E ioptr0 calls (Sys.ofAttach d o mem tail hw) →
      ((VioblkMy.vioblk_open E s ioptr).1 = Ret.neg Errno.EBUSY ↔ OpenBefore calls) ∧
      (OpenBefore calls → VioblkMy.vioblk_open E s ioptr = (Ret.neg Errno.EBUSY, s, ioptr)) ∧
      (¬ OpenBefore calls → VioblkMy.vioblk_open E s ioptr =
        (Ret.val 0,
          { s with
            dev := { s.dev with opened := 1 }
            regs := E.virtio_enable_virtq s.regs 0
            log := s.log ++ [Event.virtio_enable_virtq 0, Event.intr_enable_irq s.dev.irqno] },
          Addr.io_intf))) ∧
    (∀ o d s, Vioblk.vioblk_attach E regs irqno = some o → o.dev = some d →
      s = Vioblk.run_calls E ioptr0 calls (Sys.ofAttach d o mem tail hw) →
      ((Vioblk.vioblk_open E s ioptr).1 = Ret.neg Errno.EBUSY ↔ OpenBefore calls) ∧
      (OpenBefore calls → Vioblk.vioblk_open E s ioptr = (Ret.neg Errno.EBUSY, s, ioptr)) ∧
      (¬ OpenBefore calls → Vioblk.vioblk_open E s ioptr =
        (Ret.val 0,
          { s with
            dev := { s.dev with opened := 1 }
            regs := E.virtio_enable_virtq s.regs 0
            log := s.log ++ [Event.virtio_enable_virtq 0, Event.intr_enable_irq s.dev.irqno] },
          Addr.io_intf))) := by
  constructor
  · intro o d s ha hd hs
    subst hs
    exact my_open_contract E ioptr0 ioptr calls (Sys.ofAttach d o mem tail hw)
      (my_attach_opened E regs irqno o d ha hd)
  · intro o d s ha hd hs
    subst hs
    rw [vioblk_run_calls_eq, vioblk_open_eq]
    exact my_open_contract E ioptr0 ioptr calls (Sys.ofAttach d o mem tail hw)
      (vioblk_attach_opened E regs irqno o d ha hd)

/-- Witness of C6: open, open gives Busy the second time (`vioblk_my.c`); open,
close, open succeeds (`vioblk.c`). -/
theorem C6_witness :
    (VioblkMy.vioblk_open demo_env
        (VioblkMy.run_calls demo_env (Addr.abs 0) [Call.vioblk_open] demo_my) (Addr.abs 0)).1
      = Ret.neg Errno.EBUSY ∧
    (Vioblk.vioblk_open demo_env
        (Vioblk.run_calls demo_env (Addr.abs 0) [Call.vioblk_open, Call.vioblk_close]
          demo_vioblk) (Addr.abs 0)).1
      = Ret.val 0 :=
  ⟨((C6_open_busy_exactly_when_open demo_env demo_regs 1 zero_mem zero_mem
        empty_disk (Addr.abs 0) (Addr.abs 0) [Call.vioblk_open]).1
        _ _ _ rfl rfl rfl).1.mpr ⟨[], [], rfl, by simp⟩,
   congrArg Prod.fst
    (((C6_open_busy_exactly_when_open demo_env demo_regs 1 zero_mem zero_mem
        empty_disk (Addr.abs 0) (Addr.abs 0) [Call.vioblk_open, Call.vioblk_close]).2
        _ _ _ rfl rfl rfl).2.2
      (by
        rintro ⟨pre, post, h, hc⟩
        rcases pre with _ | ⟨p, _ | ⟨q, _ | ⟨r, pre⟩⟩⟩ <;> simp at h
        · exact hc (by simp [← h])
        ))⟩

/-- C7, evaluation at the failing input (code defect in `vioblk.c`).  The scenario
device reports 16 sectors and the block size is 512, so the capacity is 8192
bytes and `dev->size` holds it in both drafts; after a successful attach,
GETLEN of `vioblk.c` returns 0 but stores 4, the content of the queue-size
register, while GETLEN of `vioblk_my.c` stores 8192. -/
theorem C7_vioblk_getlen_stores_queue_size :
    Vioblk.vioblk_attach demo_env demo_regs 1
        = some (outcome_of (Vioblk.vioblk_attach demo_env demo_regs 1)) ∧
      (outcome_of (Vioblk.vioblk_attach demo_env demo_regs 1)).dev = some demo_vioblk.dev ∧
      demo_regs.config_blk_capacity * demo_vioblk.dev.blksz = 8192 ∧
      demo_vioblk.dev.size = 8192 ∧
      demo_vioblk.regs.queue_num = 4 ∧
      (Vioblk.vioblk_ioctl demo_vioblk IOCTL_GETLEN 4096).1 = Ret.val 0 ∧
      load_le (Vioblk.vioblk_ioctl demo_vioblk IOCTL_GETLEN 4096).2.mem 4096 8 = 4 ∧
      (VioblkMy.vioblk_ioctl demo_my IOCTL_GETLEN 4096).1 = Ret.val 0 ∧
      load_le (VioblkMy.vioblk_ioctl demo_my IOCTL_GETLEN 4096).2.mem 4096 8 = 8192 :=
  ⟨rfl, rfl, by decide, by decide, by decide, by decide, by decide, by decide, by decide⟩

/-- C8, counterexample.  On the opened scenario device (capacity 8192, position 0) SETPOS
with the requested position 9000, which is beyond the capacity, returns 0 and
sets the position to 9000, in both drafts. -/
theorem C8_setpos_beyond_capacity_accepted :
    (demo_my_open.dev.size = 8192 ∧ demo_my_open.dev.pos = 0 ∧
      load_le (with_arg demo_my_open 4096 9000).mem 4096 8 = 9000 ∧
      (VioblkMy.vioblk_ioctl (with_arg demo_my_open 4096 9000) IOCTL_SETPOS 4096).1 = Ret.val 0 ∧
      (VioblkMy.vioblk_ioctl (with_arg demo_my_open 4096 9000) IOCTL_SETPOS 4096).2.dev.pos = 9000) ∧
    (demo_vioblk_open.dev.size = 8192 ∧ demo_vioblk_open.dev.pos = 0 ∧
      load_le (with_arg demo_vioblk_open 4096 9000).mem 4096 8 = 9000 ∧
      (Vioblk.vioblk_ioctl (with_arg demo_vioblk_open 4096 9000) IOCTL_SETPOS 4096).1 = Ret.val 0 ∧
      (Vioblk.vioblk_ioctl (with_arg demo_vioblk_open 4096 9000) IOCTL_SETPOS 4096).2.dev.pos
        = 9000) :=
  ⟨⟨by decide, by decide, by decide, by decide, by decide⟩,
   ⟨by decide, by decide, by decide, by decide, by decide⟩⟩

/-- C8, amended (both drafts).  SETPOS makes no bounds check: for every state and
every argument pointer it returns 0 and sets the position to the requested
value, the 64-bit word the pointer addresses, whether or not that value exceeds
the capacity `dev->size`; nothing else changes. -/
theorem C8_setpos_sets_requested_position {σ : Type} (s : Sys σ) (arg : Nat) :
    VioblkMy.vioblk_ioctl s IOCTL_SETPOS arg
        = (Ret.val 0, { s with dev := { s.dev with pos := load_le s.mem arg 8 } }) ∧
    Vioblk.vioblk_ioctl s IOCTL_SETPOS arg
        = (Ret.val 0, { s with dev := { s.dev with pos := load_le s.mem arg 8 } }) :=
  ⟨rfl, rfl⟩

/-- C9 (both drafts).  After a successful `vioblk_attach`, ioctl GETBLKSZ returns 0
and stores, as the 32-bit word at the argument pointer, the negotiated block
size: the register `config.blk.blk_size` (a 32-bit register) when the BLK_SIZE
feature is in the enabled feature set that negotiation returned, 512 otherwise. -/
theorem C9_getblksz_stores_negotiated_block_size {σ : Type} (E : Env σ)
    (regs : virtio_mmio_regs) (irqno : Int) (mem : Mem) (tail : Nat → Nat) (hw : σ)
    (arg : Nat)
    (h32 : (attach_negotiation E regs).2.2.config_blk_blk_size < 2 ^ 32) :
    (∀ o d, VioblkMy.vioblk_attach E regs irqno = some o → o.dev = some d →
      (VioblkMy.vioblk_ioctl (Sys.ofAttach d o mem tail hw) IOCTL_GETBLKSZ arg).1 = Ret.val 0 ∧
      load_le (VioblkMy.vioblk_ioctl (Sys.ofAttach d o mem tail hw) IOCTL_GETBLKSZ arg).2.mem
          arg 4
        = if virtio_featset_test (attach_negotiation E regs).2.1 VIRTIO_BLK_F_BLK_SIZE
          then (attach_negotiation E regs).2.2.config_blk_blk_size else 512) ∧
    (∀ o d, Vioblk.vioblk_attach E regs irqno = some o → o.dev = some d →
      (Vioblk.vioblk_ioctl (Sys.ofAttach d o mem tail hw) IOCTL_GETBLKSZ arg).1 = Ret.val 0 ∧
      load_le (Vioblk.vioblk_ioctl (Sys.ofAttach d o mem tail hw) IOCTL_GETBLKSZ arg).2.mem
          arg 4
        = if virtio_featset_test (attach_negotiation E regs).2.1 VIRTIO_BLK_F_BLK_SIZE
          then (attach_negotiation E regs).2.2.config_blk_blk_size else 512) := by
  have hlt : (if virtio_featset_test (attach_negotiation E regs).2.1 VIRTIO_BLK_F_BLK_SIZE
      then (attach_negotiation E regs).2.2.config_blk_blk_size else 512) < 256 ^ 4 := by
    split
    · exact h32
    · norm_num
  constructor
  · intro o d ha hd
    have hb := (my_attach_blksz E regs irqno o d ha hd).2.1
    refine ⟨rfl, ?_⟩
    show load_le (store_le mem arg 4 d.blksz) arg 4 = _
    rw [load_le_store_le, hb, Nat.mod_eq_of_lt hlt]
  · intro o d ha hd
    have hb := (vioblk_attach_blksz E regs irqno o d ha hd).2.1
    refine ⟨rfl, ?_⟩
    show load_le (store_le mem arg 4 d.blksz) arg 4 = _
    rw [load_le_store_le, hb, Nat.mod_eq_of_lt hlt]

/-- Witness of C9: a device advertising BLK_SIZE with block size 4096 (`vioblk_my.c`
stores 4096), and a device not advertising it (`vioblk.c` stores 512). -/
theorem C9_witness :
    load_le (VioblkMy.vioblk_ioctl
        demo_my_4096 IOCTL_GETBLKSZ 64).2.mem 64 4 = 4096 ∧
    load_le (Vioblk.vioblk_ioctl demo_vioblk IOCTL_GETBLKSZ 64).2.mem 64 4 = 512 :=
  ⟨((C9_getblksz_stores_negotiated_block_size demo_env_blk_size (block_regs 16 4096) 1
      zero_mem zero_mem empty_disk 64 (by decide)).1 _ _ rfl rfl).2,
   ((C9_getblksz_stores_negotiated_block_size demo_env demo_regs 1
      zero_mem zero_mem empty_disk 64 (by decide)).2 _ _ rfl rfl).2⟩

/-- C10, counterexample.  On the scenario device, `vioblk_ioctl` with a null
argument pointer returns 0, not an Invalid-Argument error, for each of GETLEN,
GETPOS, SETPOS and GETBLKSZ in both drafts; and SETPOS with a null pointer
changes the device state: the position becomes the 64-bit word found at
address 0 (9000 here, the position having been 0). -/
theorem C10_null_argument_not_rejected :
    ((VioblkMy.vioblk_ioctl demo_my_open IOCTL_GETLEN 0).1 = Ret.val 0 ∧
      (VioblkMy.vioblk_ioctl demo_my_open IOCTL_GETPOS 0).1 = Ret.val 0 ∧
      (VioblkMy.vioblk_ioctl demo_my_open IOCTL_SETPOS 0).1 = Ret.val 0 ∧
      (VioblkMy.vioblk_ioctl demo_my_open IOCTL_GETBLKSZ 0).1 = Ret.val 0 ∧
      demo_my_open.dev.pos = 0 ∧
      (VioblkMy.vioblk_ioctl (with_arg demo_my_open 0 9000) IOCTL_SETPOS 0).2.dev.pos = 9000) ∧
    ((Vioblk.vioblk_ioctl demo_vioblk_open IOCTL_GETLEN 0).1 = Ret.val 0 ∧
      (Vioblk.vioblk_ioctl demo_vioblk_open IOCTL_GETPOS 0).1 = Ret.val 0 ∧
      (Vioblk.vioblk_ioctl demo_vioblk_open IOCTL_SETPOS 0).1 = Ret.val 0 ∧
      (Vioblk.vioblk_ioctl demo_vioblk_open IOCTL_GETBLKSZ 0).1 = Ret.val 0 ∧
      demo_vioblk_open.dev.pos = 0 ∧
      (Vioblk.vioblk_ioctl (with_arg demo_vioblk_open 0 9000) IOCTL_SETPOS 0).2.dev.pos
        = 9000) :=
  ⟨⟨rfl, rfl, rfl, rfl, rfl, by decide⟩, ⟨rfl, rfl, rfl, rfl, rfl, by decide⟩⟩

/-- C10, amended (both drafts).  `vioblk_ioctl` never tests the argument pointer
and never returns an Invalid-Argument error, whatever the command and the
pointer, null included.  GETLEN, GETPOS and GETBLKSZ return 0 after storing
their result through the pointer (a 64-bit, 64-bit and 32-bit store) and change
nothing but the addressed memory; SETPOS returns 0 after setting the position
to the 64-bit word loaded through the pointer.  Which value GETLEN of `vioblk.c`
stores is left open here. -/
theorem C10_ioctl_never_invalid_argument {σ : Type} (s : Sys σ) (cmd : Int) (arg : Nat) :
    ((VioblkMy.vioblk_ioctl s cmd arg).1 ≠ Ret.neg Errno.EINVAL ∧
      VioblkMy.vioblk_ioctl s IOCTL_GETLEN arg
        = (Ret.val 0, { s with mem := store_le s.mem arg 8 s.dev.size }) ∧
      VioblkMy.vioblk_ioctl s IOCTL_GETPOS arg
        = (Ret.val 0, { s with mem := store_le s.mem arg 8 s.dev.pos }) ∧
      VioblkMy.vioblk_ioctl s IOCTL_SETPOS arg
        = (Ret.val 0, { s with dev := { s.dev with pos := load_le s.mem arg 8 } }) ∧
      VioblkMy.vioblk_ioctl s IOCTL_GETBLKSZ arg
        = (Ret.val 0, { s with mem := store_le s.mem arg 4 s.dev.blksz })) ∧
    ((Vioblk.vioblk_ioctl s cmd arg).1 ≠ Ret.neg Errno.EINVAL ∧
      (∃ v, Vioblk.vioblk_ioctl s IOCTL_GETLEN arg
        = (Ret.val 0, { s with mem := store_le s.mem arg 8 v })) ∧
      Vioblk.vioblk_ioctl s IOCTL_GETPOS arg
        = (Ret.val 0, { s with mem := store_le s.mem arg 8 s.dev.pos }) ∧
      Vioblk.vioblk_ioctl s IOCTL_SETPOS arg
        = (Ret.val 0, { s with dev := { s.dev with pos := load_le s.mem arg 8 } }) ∧
      Vioblk.vioblk_ioctl s IOCTL_GETBLKSZ arg
        = (Ret.val 0, { s with mem := store_le s.mem arg 4 s.dev.blksz })) :=
  ⟨⟨my_ioctl_ne_einval s cmd arg, rfl, rfl, rfl, rfl⟩,
   ⟨vioblk_ioctl_ne_einval s cmd arg, ⟨_, rfl⟩, rfl, rfl, rfl⟩⟩

/-- C11 (both drafts).  `vioblk_ioctl` with a command code other than GETLEN,
GETPOS, SETPOS and GETBLKSZ returns `-ENOTSUP` and leaves the whole state as it
was: nothing is written through the argument pointer (memory is unchanged) and
the device record is unchanged. -/
theorem C11_ioctl_unknown_command_unsupported {σ : Type} (s : Sys σ) (cmd : Int) (arg : Nat)
    (h1 : cmd ≠ IOCTL_GETLEN) (h2 : cmd ≠ IOCTL_GETPOS) (h3 : cmd ≠ IOCTL_SETPOS)
    (h4 : cmd ≠ IOCTL_GETBLKSZ) :
    VioblkMy.vioblk_ioctl s cmd arg = (Ret.neg Errno.ENOTSUP, s) ∧
    Vioblk.vioblk_ioctl s cmd arg = (Ret.neg Errno.ENOTSUP, s) := by
  unfold VioblkMy.vioblk_ioctl Vioblk.vioblk_ioctl
  simp only [if_neg h1, if_neg h2, if_neg h3, if_neg h4, and_self]

/-- Witness of C11: command code 5 on the opened scenario device, in both drafts. -/
theorem C11_witness :
    VioblkMy.vioblk_ioctl demo_my_open 5 4096 = (Ret.neg Errno.ENOTSUP, demo_my_open) ∧
    Vioblk.vioblk_ioctl demo_vioblk_open 5 4096 = (Ret.neg Errno.ENOTSUP, demo_vioblk_open) :=
  ⟨(C11_ioctl_unknown_command_unsupported demo_my_open 5 4096 (by decide) (by decide)
      (by decide) (by decide)).1,
   (C11_ioctl_unknown_command_unsupported demo_vioblk_open 5 4096 (by decide) (by decide)
      (by decide) (by decide)).2⟩

/-- C12 (both drafts).  When `virtio_negotiate_features` returns a non-zero result
(the device being a block device, so that the assertion on the device id
holds), `vioblk_attach` returns right after logging the failure: no device
record is allocated, the only collaborator calls are the negotiation and
`kprintf` (no `kmalloc`, no `intr_register_isr`, no `device_register`, no
`virtio_attach_virtq`), and the register block is the one negotiation left, the
driver writing no register afterwards: the DRIVER_OK bit is not set by the
attach. -/
theorem C12_attach_aborts_on_negotiation_failure {σ : Type} (E : Env σ)
    (regs : virtio_mmio_regs) (irqno : Int)
    (hid : regs.device_id = VIRTIO_ID_BLOCK)
    (hneg : (attach_negotiation E regs).1 ≠ 0) :
    (VioblkMy.vioblk_attach E regs irqno =
        some { regs := (attach_negotiation E regs).2.2,
               log := [Event.negotiate [VIRTIO_BLK_F_TOPOLOGY, VIRTIO_BLK_F_BLK_SIZE]
                        [VIRTIO_F_INDIRECT_DESC, VIRTIO_F_RING_RESET], Event.kprintf],
               dev := none }) ∧
    (Vioblk.vioblk_attach E regs irqno =
        some { regs := (attach_negotiation E regs).2.2,
               log := [Event.negotiate [VIRTIO_BLK_F_TOPOLOGY, VIRTIO_BLK_F_BLK_SIZE]
                        [VIRTIO_F_INDIRECT_DESC, VIRTIO_F_RING_RESET], Event.kprintf],
               dev := none }) := by
  constructor
  · unfold VioblkMy.vioblk_attach
    rw [if_neg (fun h => h hid)]
    simp only [attach_negotiation_eq]
    rw [if_pos hneg]
    rfl
  · unfold Vioblk.vioblk_attach
    rw [if_neg (fun h => h hid)]
    simp only [attach_negotiation_eq]
    rw [if_pos hneg]
    rfl

/-- Witness of C12: a block device that advertises none of the required features;
the status register holds the DRIVER bit only. -/
theorem C12_witness :
    (outcome_of (VioblkMy.vioblk_attach featureless_env demo_regs 1)).dev = none ∧
    (outcome_of (Vioblk.vioblk_attach featureless_env demo_regs 1)).regs.status
      = VIRTIO_STAT_DRIVER :=
  ⟨congrArg (fun o => (outcome_of o).dev)
      (C12_attach_aborts_on_negotiation_failure featureless_env demo_regs 1 rfl
        (by decide)).1,
   congrArg (fun o => (outcome_of o).regs.status)
      (C12_attach_aborts_on_negotiation_failure featureless_env demo_regs 1 rfl
        (by decide)).2⟩

/-- C13, evaluation at the failing input (code defect in both drafts).  On the
opened scenario device, registered with interrupt number 1, `vioblk_isr(1, dev)`
does not broadcast `used_updated` when the `interrupt_status` register reads 1
(bit 0, the used-buffer notification, set): the call log is unchanged.  It does
broadcast when the register reads 0, which indicates no completion-ring update.
Both drafts test `interrupt_status == 0`. -/
theorem C13_isr_broadcasts_on_zero_status :
    (demo_my_open.dev.irqno = 1 ∧
      (VioblkMy.vioblk_isr (with_interrupt_status demo_my_open 1) 1).log = demo_my_open.log ∧
      (VioblkMy.vioblk_isr (with_interrupt_status demo_my_open 0) 1).log
        = demo_my_open.log ++ [Event.condition_broadcast]) ∧
    (demo_vioblk_open.dev.irqno = 1 ∧
      (Vioblk.vioblk_isr (with_interrupt_status demo_vioblk_open 1) 1).log
        = demo_vioblk_open.log ∧
      (Vioblk.vioblk_isr (with_interrupt_status demo_vioblk_open 0) 1).log
        = demo_vioblk_open.log ++ [Event.condition_broadcast]) :=
  ⟨⟨rfl, rfl, rfl⟩, ⟨rfl, rfl, rfl⟩⟩

/-- C14 (`plic.c`).  From any register state `m`, after `plic_init` every source
`s` in 0..1023 has its priority word, at PLIC base + 4*s, equal to 0 and has bit
`s mod 32` set in the enable word of context 0, at PLIC base + 0x2000 +
4*(s div 32); every word that is not one of these priority and enable words is
as it was; and running `plic_init` twice leaves the same register state as
running it once. -/
theorem C14_plic_init_disables_and_enables_all (m : Nat → Nat) :
    (∀ s, s < 1024 →
      Plic.plic_init m (Plic.PLIC_IOBASE + 4 * s) = 0 ∧
      (Plic.plic_init m (Plic.PLIC_IOBASE + 0x2000 + 4 * (s / 32))).testBit (s % 32) = true) ∧
    (∀ a, (∀ s, s < 1024 → a ≠ Plic.PLIC_IOBASE + 4 * s) →
      (∀ s, s < 1024 → a ≠ Plic.PLIC_IOBASE + 0x2000 + 4 * (s / 32)) →
      Plic.plic_init m a = m a) ∧
    Plic.plic_init (Plic.plic_init m) = Plic.plic_init m := by
  refine ⟨fun s hs => ⟨plic_init_priority_word m s hs, ?_⟩, ?_, plic_init_idempotent m⟩
  · have e : Plic.PLIC_IOBASE + 0x2000 + 4 * (s / 32) = 0x0C002000 + 4 * (s / 32) := by
      simp only [Plic.PLIC_IOBASE]
    rw [e, plic_init_enable_word m s hs, Nat.testBit_two_pow_sub_one]
    exact decide_eq_true (Nat.mod_lt _ (by norm_num))
  · intro a h1 h2
    exact plic_init_frame m a h1 (fun s hs => by
      have := h2 s hs
      simp only [Plic.PLIC_IOBASE] at this
      exact this)

/-- Witness of C14: source 37 after `plic_init` on the all-zero register file. -/
theorem C14_witness :
    Plic.plic_init Plic.zero_regs (Plic.PLIC_IOBASE + 4 * 37) = 0 ∧
    (Plic.plic_init Plic.zero_regs (Plic.PLIC_IOBASE + 0x2000 + 4 * (37 / 32))).testBit
      (37 % 32) = true :=
  (C14_plic_init_disables_and_enables_all Plic.zero_regs).1 37 (by decide)

/-- C15 (`kfs.c`), counterexample.  The file system `long_fs` has
valid block numbers and the device serves every read in full, the file is in
use with position 4190208 and size 4190209, so the claim promises that
`fs_read(io, buf, 1)` returns 1; the byte asked for lies in block 1023 of the
file, and the guard `block_num >= 1023` makes the call return -1, the position
and the buffer being left as they were. -/
theorem C15_read_beyond_block_1022_fails :
    Kfs.serves_reads Kfs.ideal_blk Kfs.Disk.data ∧
    (∀ j, (Kfs.long_fs_at_end.inodes (Kfs.long_fs_at_end.file_array 0).inode_number).data_block_num j
      < Kfs.long_fs_at_end.boot_block.num_data) ∧
    Kfs.in_use (Kfs.long_fs_at_end.file_array 0) ∧
    (Kfs.long_fs_at_end.file_array 0).file_position = 4190208 ∧
    (Kfs.long_fs_at_end.file_array 0).file_size = 4190209 ∧
    ∀ fuel, Kfs.fs_read Kfs.ideal_blk (fuel + 1) Kfs.long_fs_at_end (Kfs.IoPtr.slot 0) zero_mem 1
      = some { ret := Ret.val (-1), fs := Kfs.long_fs_at_end, buf := zero_mem } :=
  ⟨ideal_blk_serves_reads, fun _ => Nat.zero_lt_one, by decide, by decide, by decide, fun _ => rfl⟩

/-- C15 (`kfs.c`), amended.  On a device that serves every seek and every block
read in full, for a file system whose blocks lie below 4 GiB and an in-use file
whose inode has valid block numbers, with position `p <= size` and the bytes
asked for inside the first 1023 blocks of the file: `fs_read(io, buf, n)`
returns `k = min(n, size - p)`, stores in `buf[0..k)` the file's bytes `p..p+k`
(file byte `i` being byte `i mod 4096` of device block
`1 + num_inodes + data_block_num[i div 4096]`), leaves the rest of the buffer,
the other file slots and the content of the device as they were, and advances
the position by exactly `k`. -/
theorem C15_fs_read_returns_file_bytes {β : Type} (D : Kfs.BlkDev β) (content : β → Nat → Nat)
    (s : Kfs.Fs β) (i : Nat) (buf : Nat → Nat) (n fuel : Nat)
    (hD : Kfs.serves_reads D content) (hi : i < 32) (hu : Kfs.in_use (s.file_array i))
    (hpos : (s.file_array i).file_position ≤ (s.file_array i).file_size)
    (hsz : (s.file_array i).file_size < 2 ^ 64)
    (hcap : (s.file_array i).file_position +
      min n ((s.file_array i).file_size - (s.file_array i).file_position) ≤ 1023 * 4096)
    (hblk : ∀ j, j < 1023 →
      (s.inodes (s.file_array i).inode_number).data_block_num j < s.boot_block.num_data)
    (hfs : 4096 * (1 + s.boot_block.num_inodes + s.boot_block.num_data) ≤ 2 ^ 32)
    (hfuel : min n ((s.file_array i).file_size - (s.file_array i).file_position) < fuel) :
    ∃ r, Kfs.fs_read D fuel s (Kfs.IoPtr.slot i) buf n = some r ∧
      r.ret = Ret.val
        ((min n ((s.file_array i).file_size - (s.file_array i).file_position) : Nat) : Int) ∧
      (∀ j, j < min n ((s.file_array i).file_size - (s.file_array i).file_position) →
        r.buf j = content s.blk
          (Kfs.file_byte_pos s.boot_block (s.inodes (s.file_array i).inode_number)
            ((s.file_array i).file_position + j))) ∧
      (∀ j, min n ((s.file_array i).file_size - (s.file_array i).file_position) ≤ j →
        r.buf j = buf j) ∧
      r.fs.file_array i = { s.file_array i with
        file_position := (s.file_array i).file_position +
          min n ((s.file_array i).file_size - (s.file_array i).file_position) } ∧
      (∀ j, j ≠ i → r.fs.file_array j = s.file_array j) ∧
      content r.fs.blk = content s.blk :=
  fs_read_spec D content s i buf n fuel hD hi hu hpos hsz hcap hblk hfs hfuel

/-- Witness of C15: on the example file system, a read of 5 bytes from the open
file "a" at position 0 returns 5 and leaves the position at 5. -/
theorem C15_witness :
    ∃ r, Kfs.fs_read Kfs.ideal_blk 6 Kfs.demo_fs_open (Kfs.IoPtr.slot 0) zero_mem 5 = some r ∧
      r.ret = Ret.val 5 ∧ (r.fs.file_array 0).file_position = 5 :=
  match C15_fs_read_returns_file_bytes Kfs.ideal_blk Kfs.Disk.data Kfs.demo_fs_open 0 zero_mem 5 6
      ideal_blk_serves_reads (by decide) (by decide) (by decide) (by decide) (by decide)
      (fun j _ => show (if j = 1 then 1 else 0) < 4 by split <;> decide) (by decide)
      (by decide) with
  | ⟨r, h1, h2, _, _, h5, _⟩ => ⟨r, h1, h2, by rw [h5]; rfl⟩

/-- C16 (`kfs.c`).  `fs_write(io, buf, n)` on an in-use file whose position does not
exceed its size (the size being an inode's `byte_len`, below 2^63) returns,
whatever the block device does, and whether it succeeds or fails the boot
block, the inode table, every other file slot, the caller's buffer and every
member of the file's slot but the position are unchanged, the size among them.
When it fails (-1) the position is unchanged too; when it succeeds it returns
`min(n, size - position)` and advances the position by exactly that amount. -/
theorem C16_fs_write_frame {β : Type} (D : Kfs.BlkDev β) (s : Kfs.Fs β) (i : Nat)
    (buf : Nat → Nat) (n : Nat) (hi : i < 32) (hu : Kfs.in_use (s.file_array i))
    (hpos : (s.file_array i).file_position ≤ (s.file_array i).file_size)
    (hsz : (s.file_array i).file_size < 2 ^ 63) :
    (∀ fuel, min n ((s.file_array i).file_size - (s.file_array i).file_position) < fuel →
      ∃ r, Kfs.fs_write D fuel s (Kfs.IoPtr.slot i) buf n = some r) ∧
    (∀ fuel r, Kfs.fs_write D fuel s (Kfs.IoPtr.slot i) buf n = some r →
      r.fs.boot_block = s.boot_block ∧ r.fs.inodes = s.inodes ∧ r.buf = buf ∧
      (∀ j, j ≠ i → r.fs.file_array j = s.file_array j) ∧
      (r.fs.file_array i).file_size = (s.file_array i).file_size ∧
      (r.ret = Ret.val (-1) → r.fs.file_array i = s.file_array i) ∧
      (r.ret ≠ Ret.val (-1) →
        r.ret = Ret.val
          ((min n ((s.file_array i).file_size - (s.file_array i).file_position) : Nat) : Int) ∧
        r.fs.file_array i = { s.file_array i with
          file_position := (s.file_array i).file_position +
            min n ((s.file_array i).file_size - (s.file_array i).file_position) })) := by
  constructor
  · intro fuel hf
    rw [fs_write_unfold D fuel s i buf n hi hu hpos hsz]
    split
    · exact ⟨_, rfl⟩
    · obtain ⟨out, ho⟩ := fs_write_loop_returns D s.boot_block
        (s.inodes (s.file_array i).inode_number) buf fuel _ (s.file_array i).file_position 0
        s.blk hf
      rw [ho]
      simp only
      split
      · exact ⟨_, rfl⟩
      · exact ⟨_, rfl⟩
  · intro fuel r h
    rw [fs_write_unfold D fuel s i buf n hi hu hpos hsz] at h
    split at h
    · rename_i hz
      cases h
      refine ⟨rfl, rfl, rfl, fun _ _ => rfl, rfl, fun _ => rfl, fun _ => ⟨?_, ?_⟩⟩
      · simp [hz]
      · simp [hz]
    · cases ho : Kfs.fs_write_loop D s.boot_block (s.inodes (s.file_array i).inode_number) buf
          fuel (min n ((s.file_array i).file_size - (s.file_array i).file_position))
          (s.file_array i).file_position 0 s.blk with
      | none => rw [ho] at h; cases h
      | some out =>
        rw [ho] at h
        simp only at h
        obtain ⟨_, htot⟩ := fs_write_loop_frame D s.boot_block _ buf fuel _ _ _ _ out ho
        split at h
        · cases h
          exact ⟨rfl, rfl, rfl, fun _ _ => rfl, rfl, fun _ => rfl, fun hne => absurd rfl hne⟩
        · rename_i hnf
          have ht := htot (by simpa using hnf)
          rw [Nat.zero_add] at ht
          cases h
          have hlong : toLong out.total = ((out.total : Nat) : Int) :=
            toLong_of_lt _ (by rw [ht]; omega)
          have hmod : ((s.file_array i).file_position + out.total) % 2 ^ 64
              = (s.file_array i).file_position + out.total :=
            Nat.mod_eq_of_lt (by rw [ht]; omega)
          refine ⟨rfl, rfl, rfl, ?_, ?_, ?_, ?_⟩
          · intro j hj
            simp [Kfs.set_file, hj]
          · simp [Kfs.set_file]
          · intro hr
            rw [hlong] at hr
            have := Ret.val.inj hr
            omega
          · intro _
            refine ⟨by rw [hlong, ht], ?_⟩
            simp only [Kfs.set_file, if_pos, hmod]
            rw [ht]

/-- Witness of C16: on the example file system, a write of 5 bytes to the open
file "a" returns, its size is still 8192 and slot 1 is as before. -/
theorem C16_witness :
    ∃ r, Kfs.fs_write Kfs.ideal_blk 6 Kfs.demo_fs_open (Kfs.IoPtr.slot 0) (fun _ => 7) 5 = some r ∧
      (r.fs.file_array 0).file_size = 8192 ∧ (r.fs.file_array 1) = Kfs.demo_fs_open.file_array 1 :=
  have h := C16_fs_write_frame Kfs.ideal_blk Kfs.demo_fs_open 0 (fun _ => 7) 5
    (by decide) (by decide) (by decide) (by decide)
  match h.1 6 (by decide) with
  | ⟨r, hr⟩ => ⟨r, hr, (h.2 6 r hr).2.2.2.2.1.trans (by decide),
      (h.2 6 r hr).2.2.2.1 1 (by decide)⟩

/-- C17 (`kfs.c`), counterexample.  In `alias_fs` the block numbers of
the inode are valid, the device stores what is written, the file is in use and
has 8192 bytes; SETPOS(0), `fs_write(buf, 8192)`, SETPOS(0), `fs_read(out, 8192)`
makes both calls return 8192, yet `out[0]` is 2 where `buf[0]` is 1: the two
blocks of the file are the same block of the device, and the second half of
the write replaced the first. -/
theorem C17_roundtrip_fails_on_shared_block :
    (∀ j, (Kfs.alias_fs_open.inodes (Kfs.alias_fs_open.file_array 0).inode_number).data_block_num j
      < Kfs.alias_fs_open.boot_block.num_data) ∧
    Kfs.in_use (Kfs.alias_fs_open.file_array 0) ∧
    (Kfs.alias_fs_open.file_array 0).file_size = 8192 ∧
    Kfs.halves 0 = 1 ∧
    ∀ fuel, (Kfs.roundtrip Kfs.ideal_blk (fuel + 3) Kfs.alias_fs_open (Kfs.IoPtr.slot 0) 0
        Kfs.halves zero_mem 8192).map
          (fun t => (t.seek_w, t.written.ret, t.seek_r, t.read.ret, t.read.buf 0))
      = some (Ret.val 0, Ret.val 8192, Ret.val 0, Ret.val 8192, 2) :=
  ⟨fun _ => Nat.zero_lt_one, by decide, by decide, by decide, fun _ => rfl⟩

/-- C17 (`kfs.c`), amended.  On the device that stores what is written and
returns it when read, for a file system whose blocks lie below 4 GiB and an
in-use file of at most 1023 blocks whose inode has valid block numbers, no two
blocks of the file having the same number, for every position `p <= size` and
every `n <= size - p`: SETPOS(p), `fs_write(buf, n)`, SETPOS(p),
`fs_read(out, n)` makes the four calls return 0, `n`, 0 and `n`, leaves
`out[0..n)` equal to `buf[0..n)`, and every file byte outside `[p, p+n)` is on
the device what it was before the write. -/
theorem C17_write_then_read_returns_written (s : Kfs.Fs Kfs.Disk) (i p n fuel : Nat)
    (buf out : Nat → Nat) (hi : i < 32) (hu : Kfs.in_use (s.file_array i))
    (hp : p ≤ (s.file_array i).file_size) (hn : n ≤ (s.file_array i).file_size - p)
    (hcap : (s.file_array i).file_size ≤ 1023 * 4096)
    (hblk : ∀ j, j < 1023 →
      (s.inodes (s.file_array i).inode_number).data_block_num j < s.boot_block.num_data)
    (hfs : 4096 * (1 + s.boot_block.num_inodes + s.boot_block.num_data) ≤ 2 ^ 32)
    (hinj : ∀ j1 j2, j1 * 4096 < (s.file_array i).file_size →
      j2 * 4096 < (s.file_array i).file_size →
      (s.inodes (s.file_array i).inode_number).data_block_num j1 =
        (s.inodes (s.file_array i).inode_number).data_block_num j2 → j1 = j2)
    (hfuel : n < fuel) :
    ∃ t, Kfs.roundtrip Kfs.ideal_blk fuel s (Kfs.IoPtr.slot i) p buf out n = some t ∧
      t.seek_w = Ret.val 0 ∧ t.written.ret = Ret.val (n : Int) ∧
      t.seek_r = Ret.val 0 ∧ t.read.ret = Ret.val (n : Int) ∧
      (∀ j, j < n → t.read.buf j = buf j) ∧
      (∀ idx, idx < (s.file_array i).file_size → ¬ (p ≤ idx ∧ idx < p + n) →
        t.written.fs.blk.data
            (Kfs.file_byte_pos s.boot_block (s.inodes (s.file_array i).inode_number) idx)
          = s.blk.data
            (Kfs.file_byte_pos s.boot_block (s.inodes (s.file_array i).inode_number) idx)) ∧
      t.read.fs.blk.data = t.written.fs.blk.data := by
  have hfinj := file_byte_pos_inj s.boot_block (s.inodes (s.file_array i).inode_number)
    (s.file_array i).file_size hinj
  have hmin : min n ((s.file_array i).file_size - p) = n := by omega
  unfold Kfs.roundtrip
  simp only
  rw [fs_seek_spec s i p hi hu hp (by omega)]
  simp only
  -- the write
  have hfa1 : (Kfs.with_file s i { s.file_array i with file_position := p }).file_array i
      = { s.file_array i with file_position := p } := by
    simp [Kfs.with_file, Kfs.set_file]
  obtain ⟨w, hw, w1, w2, w3, w4, w5, w6⟩ := fs_write_spec
    (Kfs.with_file s i { s.file_array i with file_position := p }) i buf n fuel hi
    (by rw [hfa1]; exact hu) (by rw [hfa1]; exact hp) (by rw [hfa1]; exact hcap)
    (by rw [hfa1]; exact hblk) hfs (by rw [hfa1]; exact hfinj)
    (by rw [hfa1]; show min n ((s.file_array i).file_size - p) < fuel; omega)
  rw [hw]
  simp only
  rw [hfa1] at w1 w4 w5 w6
  simp only [hmin] at w1 w4 w5 w6
  have hbb : w.fs.boot_block = s.boot_block := w2
  have hin : w.fs.inodes = s.inodes := w3
  have hfa2 : w.fs.file_array i = { s.file_array i with file_position := p + n } := by
    rw [w4]
    simp [Kfs.set_file]
  -- the second seek
  rw [fs_seek_spec w.fs i p hi (by rw [hfa2]; exact hu) (by rw [hfa2]; exact hp)
    (by rw [hfa2]; show (s.file_array i).file_size < 2 ^ 64; omega)]
  simp only
  have hfa3 : (Kfs.with_file w.fs i { w.fs.file_array i with file_position := p }).file_array i
      = { s.file_array i with file_position := p } := by
    simp [Kfs.with_file, Kfs.set_file, hfa2]
  -- the read
  obtain ⟨r, hr, r1, r2, _, _, _, r6⟩ := fs_read_spec Kfs.ideal_blk Kfs.Disk.data
    (Kfs.with_file w.fs i { w.fs.file_array i with file_position := p }) i out n fuel
    ideal_blk_serves_reads hi (by rw [hfa3]; exact hu) (by rw [hfa3]; exact hp)
    (by rw [hfa3]; show (s.file_array i).file_size < 2 ^ 64; omega)
    (by rw [hfa3]; show p + min n ((s.file_array i).file_size - p) ≤ 1023 * 4096; omega)
    (by rw [hfa3]; show ∀ j, j < 1023 →
          (w.fs.inodes (s.file_array i).inode_number).data_block_num j < w.fs.boot_block.num_data
        rw [hbb, hin]; exact hblk)
    (by show 4096 * (1 + w.fs.boot_block.num_inodes + w.fs.boot_block.num_data) ≤ 2 ^ 32
        rw [hbb]; exact hfs)
    (by rw [hfa3]; show min n ((s.file_array i).file_size - p) < fuel; omega)
  rw [hr]
  rw [hfa3] at r1 r2
  simp only [hmin] at r1 r2
  refine ⟨_, rfl, rfl, w1, rfl, r1, ?_, ?_, r6⟩
  · intro j hj
    show r.buf j = buf j
    rw [r2 j hj]
    show w.fs.blk.data (Kfs.file_byte_pos w.fs.boot_block
      (w.fs.inodes (s.file_array i).inode_number) (p + j)) = buf j
    rw [hbb, hin]
    exact (w5 (p + j) (by omega) (by omega)).trans (by congr 1; omega)
  · intro idx h1 h2
    exact w6 _ (fun j hj1 hj2 heq => h2 (by
      have := hfinj idx j h1 (by omega) heq
      omega))

/-- Witness of C17: on the example file system, whose file "a" has the two
blocks 0 and 1, 10 bytes written at position 4090, across the block boundary,
are read back. -/
theorem C17_witness :
    ∃ t, Kfs.roundtrip Kfs.ideal_blk 11 Kfs.demo_fs_open (Kfs.IoPtr.slot 0) 4090
        Kfs.halves zero_mem 10 = some t ∧
      t.written.ret = Ret.val 10 ∧ t.read.ret = Ret.val 10 ∧
      ∀ j, j < 10 → t.read.buf j = Kfs.halves j :=
  match C17_write_then_read_returns_written Kfs.demo_fs_open 0 4090 10 11 Kfs.halves zero_mem
      (by decide) (by decide) (by decide) (by decide) (by decide)
      (fun j _ => show (if j = 1 then 1 else 0) < 4 by split <;> decide) (by decide)
      (fun j1 j2 (h1 : j1 * 4096 < 8192) (h2 : j2 * 4096 < 8192)
          (h : (if j1 = 1 then 1 else 0) = (if j2 = 1 then 1 else 0)) => by
        split_ifs at h <;> omega)
      (by decide) with
  | ⟨t, h1, _, h3, _, h5, h6, _, _⟩ => ⟨t, h1, h3, h5, h6⟩

/-- C18 (`kfs.c`).  With `num_dentry <= 63`, `fs_open(name, ioptr)` returns 0 exactly
when some directory entry among the first `num_dentry` matches `name` (`strncmp`
over 32 bytes), some slot among the 32 is not in use, and the inode number of
the first matching entry is below `num_inodes`.  On success the lowest-index
free slot becomes in-use with position 0, size equal to the `byte_len` of that
inode, and `*ioptr` points at it.  Otherwise `fs_open` returns -1, no slot's
in-use flag differs from before the call and `*ioptr` is as it was. -/
theorem C18_fs_open_contract {β : Type} (s : Kfs.Fs β) (name : Nat → Nat)
    (ioptr : Kfs.IoPtr) (_hnd : s.boot_block.num_dentry ≤ 63) :
    ((Kfs.fs_open s name ioptr).1 = Ret.val 0 ↔
      ∃ i0, i0 < s.boot_block.num_dentry ∧ Kfs.name_matches s.boot_block name i0 ∧
        (∀ i, i < i0 → ¬ Kfs.name_matches s.boot_block name i) ∧
        (∃ j, j < 32 ∧ ¬ Kfs.in_use (s.file_array j)) ∧
        (s.boot_block.dir_entries i0).inode < s.boot_block.num_inodes) ∧
    (∀ i0 j0, i0 < s.boot_block.num_dentry → Kfs.name_matches s.boot_block name i0 →
      (∀ i, i < i0 → ¬ Kfs.name_matches s.boot_block name i) →
      j0 < 32 → ¬ Kfs.in_use (s.file_array j0) → (∀ j, j < j0 → Kfs.in_use (s.file_array j)) →
      (s.boot_block.dir_entries i0).inode < s.boot_block.num_inodes →
      Kfs.fs_open s name ioptr =
        (Ret.val 0,
          Kfs.with_file s j0
            { intf_ops := true, file_position := 0,
              file_size := (s.inodes (s.boot_block.dir_entries i0).inode).byte_len,
              inode_number := (s.boot_block.dir_entries i0).inode,
              flags := Kfs.FILE_IN_USE },
          Kfs.IoPtr.slot j0)) ∧
    ((Kfs.fs_open s name ioptr).1 ≠ Ret.val 0 →
      (Kfs.fs_open s name ioptr).1 = Ret.val (-1) ∧
      (∀ j, Kfs.in_use ((Kfs.fs_open s name ioptr).2.1.file_array j) ↔
        Kfs.in_use (s.file_array j)) ∧
      (Kfs.fs_open s name ioptr).2.2 = ioptr) := by
  have h32 : Kfs.MAX_FILES = 32 := rfl
  obtain ⟨hs1, hs2, hs3, hs4⟩ := fs_open_slot_spec s.file_array Kfs.MAX_FILES 0
  -- the success equation, used twice
  have hsucc : ∀ i0 j0, i0 < s.boot_block.num_dentry → Kfs.name_matches s.boot_block name i0 →
      (∀ i, i < i0 → ¬ Kfs.name_matches s.boot_block name i) →
      j0 < 32 → ¬ Kfs.in_use (s.file_array j0) → (∀ j, j < j0 → Kfs.in_use (s.file_array j)) →
      (s.boot_block.dir_entries i0).inode < s.boot_block.num_inodes →
      Kfs.fs_open s name ioptr =
        (Ret.val 0,
          Kfs.with_file s j0
            { intf_ops := true, file_position := 0,
              file_size := (s.inodes (s.boot_block.dir_entries i0).inode).byte_len,
              inode_number := (s.boot_block.dir_entries i0).inode,
              flags := Kfs.FILE_IN_USE },
          Kfs.IoPtr.slot j0) := by
    intro i0 j0 hi hm hfirst hj hfree hlow hino
    have hslot := fs_open_slot_lowest s.file_array j0 hj
      (by simpa [Kfs.in_use] using hfree) (fun j hjj => hlow j hjj)
    rw [fs_open_first_match s name ioptr i0 hi hm hfirst, hslot,
      if_neg (by omega), if_neg (by omega)]
  by_cases hex : ∃ i, i < s.boot_block.num_dentry ∧ Kfs.name_matches s.boot_block name i
  · obtain ⟨i0, hi, hm, hfirst⟩ := first_match_exists s.boot_block name _ hex
    have heq := fs_open_first_match s name ioptr i0 hi hm hfirst
    by_cases hfull : Kfs.fs_open_slot s.file_array Kfs.MAX_FILES 0 = Kfs.MAX_FILES
    · -- no free slot
      rw [if_pos hfull] at heq
      have hall : ∀ j, j < 32 → Kfs.in_use (s.file_array j) :=
        fun j hj => hs3 j (Nat.zero_le _) (by omega)
      refine ⟨?_, hsucc, ?_⟩
      · rw [heq]
        constructor
        · intro h; cases h
        · rintro ⟨_, _, _, _, ⟨j, hj, hfree⟩, _⟩
          exact absurd (hall j hj) hfree
      · intro _
        rw [heq]
        exact ⟨rfl, fun j => Iff.rfl, rfl⟩
    · rw [if_neg hfull] at heq
      have hr : Kfs.fs_open_slot s.file_array Kfs.MAX_FILES 0 < 32 := by omega
      have hfree : ¬ Kfs.in_use (s.file_array (Kfs.fs_open_slot s.file_array Kfs.MAX_FILES 0)) :=
        fun h => h (hs4 (by omega))
      by_cases hino : (s.boot_block.dir_entries i0).inode ≥ s.boot_block.num_inodes
      · rw [if_pos hino] at heq
        refine ⟨?_, hsucc, ?_⟩
        · rw [heq]
          constructor
          · intro h; cases h
          · rintro ⟨i1, _, hm1, hf1, _, hlt⟩
            have := first_match_unique s.boot_block name i0 i1 hm hm1 hfirst hf1
            subst this
            omega
        · intro _
          rw [heq]
          refine ⟨rfl, fun j => ?_, rfl⟩
          simp only [Kfs.with_file, Kfs.set_file]
          by_cases e : j = Kfs.fs_open_slot s.file_array Kfs.MAX_FILES 0
          · rw [if_pos e, e]
            constructor
            · intro h; simp [Kfs.in_use] at h
            · intro h; exact absurd h hfree
          · rw [if_neg e]
      · rw [if_neg hino] at heq
        refine ⟨?_, hsucc, ?_⟩
        · rw [heq]
          constructor
          · intro _
            exact ⟨i0, hi, hm, hfirst, ⟨_, hr, hfree⟩, by omega⟩
          · intro _; rfl
        · intro h
          rw [heq] at h
          exact absurd rfl h
  · have hno : ∀ i, i < s.boot_block.num_dentry → ¬ Kfs.name_matches s.boot_block name i :=
      fun i hi hm => hex ⟨i, hi, hm⟩
    have heq := fs_open_no_match s name ioptr hno
    refine ⟨?_, hsucc, ?_⟩
    · rw [heq]
      constructor
      · intro h; cases h
      · rintro ⟨i0, hi, hm, _⟩
        exact absurd hm (hno i0 hi)
    · intro _
      rw [heq]
      exact ⟨rfl, fun j => Iff.rfl, rfl⟩

/-- Witness of C18: opening "a" on the example file system, no file being open,
succeeds and takes slot 0. -/
theorem C18_witness :
    Kfs.fs_open Kfs.demo_fs (Kfs.one_letter 97) (Kfs.IoPtr.other 0) =
      (Ret.val 0,
        Kfs.with_file Kfs.demo_fs 0
          { intf_ops := true, file_position := 0,
            file_size := (Kfs.demo_fs.inodes (Kfs.demo_fs.boot_block.dir_entries 0).inode).byte_len,
            inode_number := (Kfs.demo_fs.boot_block.dir_entries 0).inode,
            flags := Kfs.FILE_IN_USE },
        Kfs.IoPtr.slot 0) :=
  (C18_fs_open_contract Kfs.demo_fs (Kfs.one_letter 97) (Kfs.IoPtr.other 0) (by decide)).2.1
    0 0 (by decide) (by decide) (fun i hi => absurd hi (Nat.not_lt_zero i)) (by decide)
    (by decide) (fun j hj => absurd hj (Nat.not_lt_zero j)) (by decide)

/-- C19 (`kfs.c`).  `fs_close(io)` on an in-use file marks the slot unused and
changes nothing else: every other slot, the other members of the slot, the boot
block, the inode table and the block device are as they were.  In every state
in which the slot is not in use (so until `fs_open` hands it out again),
`fs_read`, `fs_write` and `fs_ioctl` on that `io` return -1 and `fs_close` on it
returns, all of them leaving the file-system state, the caller's buffer and
memory unchanged. -/
theorem C19_closed_file_is_rejected {β : Type} (D : Kfs.BlkDev β) (s : Kfs.Fs β) (i : Nat)
    (hi : i < 32) :
    (Kfs.in_use (s.file_array i) →
      Kfs.fs_close s (Kfs.IoPtr.slot i)
        = Kfs.with_file s i { s.file_array i with flags := 0 } ∧
      ¬ Kfs.in_use ((Kfs.fs_close s (Kfs.IoPtr.slot i)).file_array i) ∧
      ∀ j, j ≠ i → (Kfs.fs_close s (Kfs.IoPtr.slot i)).file_array j = s.file_array j) ∧
    (¬ Kfs.in_use (s.file_array i) →
      ∀ (fuel : Nat) (buf : Nat → Nat) (n : Nat) (mem : Mem) (cmd : Int) (arg : Nat),
        Kfs.fs_read D fuel s (Kfs.IoPtr.slot i) buf n
          = some { ret := Ret.val (-1), fs := s, buf := buf } ∧
        Kfs.fs_write D fuel s (Kfs.IoPtr.slot i) buf n
          = some { ret := Ret.val (-1), fs := s, buf := buf } ∧
        Kfs.fs_ioctl s mem (Kfs.IoPtr.slot i) cmd arg = (Ret.val (-1), s, mem) ∧
        Kfs.fs_close s (Kfs.IoPtr.slot i) = s) := by
  have hg := get_file_t_slot s.file_array i hi
  constructor
  · intro hu
    rw [if_pos (show (s.file_array i).flags &&& Kfs.FILE_IN_USE ≠ 0 from hu)] at hg
    have e : Kfs.fs_close s (Kfs.IoPtr.slot i)
        = Kfs.with_file s i { s.file_array i with flags := 0 } := by
      unfold Kfs.fs_close
      rw [hg]
      rfl
    rw [e]
    refine ⟨rfl, ?_, ?_⟩
    · simp [Kfs.with_file, Kfs.set_file, Kfs.in_use]
    · intro j hj
      simp [Kfs.with_file, Kfs.set_file, hj]
  · intro hu fuel buf n mem cmd arg
    rw [if_neg (show ¬ (s.file_array i).flags &&& Kfs.FILE_IN_USE ≠ 0 from hu)] at hg
    refine ⟨?_, ?_, ?_, ?_⟩
    · unfold Kfs.fs_read; rw [hg]
    · unfold Kfs.fs_write; rw [hg]
    · unfold Kfs.fs_ioctl; rw [hg]
    · unfold Kfs.fs_close; rw [hg]

/-- Witness of C19: on the example file system, closing the open file "a" of slot 0
leaves the slot unused, and a read on the closed handle returns -1. -/
theorem C19_witness :
    ¬ Kfs.in_use ((Kfs.fs_close Kfs.demo_fs_open (Kfs.IoPtr.slot 0)).file_array 0) ∧
    Kfs.fs_read Kfs.ideal_blk 1 (Kfs.fs_close Kfs.demo_fs_open (Kfs.IoPtr.slot 0))
        (Kfs.IoPtr.slot 0) zero_mem 10
      = some { ret := Ret.val (-1), fs := Kfs.fs_close Kfs.demo_fs_open (Kfs.IoPtr.slot 0),
               buf := zero_mem } :=
  ⟨((C19_closed_file_is_rejected Kfs.ideal_blk Kfs.demo_fs_open 0 (by decide)).1
      (by decide)).2.1,
   ((C19_closed_file_is_rejected Kfs.ideal_blk
        (Kfs.fs_close Kfs.demo_fs_open (Kfs.IoPtr.slot 0)) 0 (by decide)).2
      (by decide) 1 zero_mem 10 zero_mem 0 0).1⟩

/-- C20 (`elf.c`), evaluation at the failing input.  The image `wrap_image` holds one PT_LOAD
segment with `p_vaddr = 0xFFFFFFFFFFFFF000` and `p_memsz = 0x2000`, whose range
ends at `2^64 + 0x1000`, far above `0x8100000000`; the test of `elf_load` adds
the two in 64 bits, gets `0x1000`, and lets the segment through: `elf_load`
returns 0 and has copied the 0x2000 bytes to `0xFFFFFFFFFFFFF000`. -/
theorem C20_wrapping_segment_is_copied :
    Elf.Phdr_of_bytes (fun x => Elf.wrap_image (64 + x)) 0 =
      { p_type := Elf.PT_LOAD, p_vaddr := 0xFFFFFFFFFFFFF000, p_filesz := 0,
        p_memsz := 0x2000 } ∧
    ¬ (0xFFFFFFFFFFFFF000 + 0x2000 ≤ Elf.ELF_MAX_ADDR) ∧
    (0xFFFFFFFFFFFFF000 + 0x2000) % 2 ^ 64 = 0x1000 ∧
    (Elf.elf_load (Elf.stream_host Elf.wrap_image 120 65536) 0).ret = 0 ∧
    (Elf.elf_load (Elf.stream_host Elf.wrap_image 120 65536) 0).copies.map
        (fun c => (c.dst, c.len)) = [(0xFFFFFFFFFFFFF000, 0x2000)] := by
  refine ⟨by decide, by decide, by decide, by decide, by decide⟩

/-- C21, evaluation at the failing input (code defect in `vioblk.c`).  After a
successful `vioblk_attach` on the scenario device the template of
`vioblk_my.c` is the one claimed, and so are `desc[1]` and `desc[2]` of
`vioblk.c`; but `desc[3]` of `vioblk.c`, which addresses the status byte, has
length 8 and the flag NEXT, the device-write flag being clear.  In both drafts
the address in `desc[2]` is the value of `dev->blkbuf`, which no draft assigns
after the `memset`: it is 0. -/
theorem C21_vioblk_status_descriptor_not_device_writable :
    ((VioblkMy.vioblk_attach demo_env demo_regs 1).isSome = true ∧
      (demo_my.dev.vq.desc 1).addr = Addr.req_header ∧ (demo_my.dev.vq.desc 1).len = 16 ∧
      (demo_my.dev.vq.desc 1).flags = VIRTQ_DESC_F_NEXT ∧ (demo_my.dev.vq.desc 1).next = 2 ∧
      (demo_my.dev.vq.desc 2).addr = Addr.abs demo_my.dev.blkbuf ∧ demo_my.dev.blkbuf = 0 ∧
      (demo_my.dev.vq.desc 2).len = demo_my.dev.blksz ∧
      (demo_my.dev.vq.desc 2).flags = VIRTQ_DESC_F_NEXT ∧ (demo_my.dev.vq.desc 2).next = 3 ∧
      (demo_my.dev.vq.desc 3).addr = Addr.req_status ∧ (demo_my.dev.vq.desc 3).len = 1 ∧
      (demo_my.dev.vq.desc 3).flags = VIRTQ_DESC_F_WRITE) ∧
    ((Vioblk.vioblk_attach demo_env demo_regs 1).isSome = true ∧
      (demo_vioblk.dev.vq.desc 1).addr = Addr.req_header ∧ (demo_vioblk.dev.vq.desc 1).len = 16 ∧
      (demo_vioblk.dev.vq.desc 1).flags = VIRTQ_DESC_F_NEXT ∧
      (demo_vioblk.dev.vq.desc 1).next = 2 ∧
      (demo_vioblk.dev.vq.desc 2).addr = Addr.abs demo_vioblk.dev.blkbuf ∧
      demo_vioblk.dev.blkbuf = 0 ∧
      (demo_vioblk.dev.vq.desc 2).len = demo_vioblk.dev.blksz ∧
      (demo_vioblk.dev.vq.desc 2).flags = VIRTQ_DESC_F_NEXT ∧
      (demo_vioblk.dev.vq.desc 2).next = 3 ∧
      (demo_vioblk.dev.vq.desc 3).addr = Addr.req_status ∧
      (demo_vioblk.dev.vq.desc 3).len = 8 ∧
      (demo_vioblk.dev.vq.desc 3).flags = VIRTQ_DESC_F_NEXT ∧
      (demo_vioblk.dev.vq.desc 3).flags &&& VIRTQ_DESC_F_WRITE = 0) := by
  decide

/-- C22, evaluation at the failing input (code defect).  On the opened scenario
device of `vioblk_my.c`, `vioblk_read(out, 512)` followed by
`vioblk_write(buf, 512)` rings the doorbell twice; at the second doorbell, the
one of the write, the header type is 1 (write-to-device) and the flags of
`desc[2]` are 3: the device-write flag the read has set is still there. -/
theorem C22_write_after_read_keeps_device_write_flag (fuel : Nat) :
    (VioblkMy.read_then_write demo_env (fuel + 2) demo_my_open zero_mem zero_mem 512).map
        (fun r => ((doorbell_records r.sys.log).map
          (fun d => (d.vq.req_header.type, (d.vq.desc 2).flags)), r.ret))
      = some ([(VIRTIO_BLK_T_IN, 3), (VIRTIO_BLK_T_OUT, 3)], Ret.val 512) ∧
    3 &&& VIRTQ_DESC_F_WRITE ≠ 0 :=
  ⟨rfl, by decide⟩

/-- C23 (`vioblk_my.c`).  With a block size above 0, `vioblk_read` and
`vioblk_write` return for every device and every length, and the calls they add
to the log contain one doorbell notification per chunk: with `count` the number
of bytes transferred at the return and `k` the number of doorbells,
`count <= k * blksz < count + blksz` (so `k` is `count / blksz` rounded up), and
`count = (k - 1) * blksz` with `k >= 1` when `vioblk_read` returns `-EIO`, the
last doorbell being the one of the failed chunk.  At every one of these
doorbells the request header has type 0 (read-from-device) for `vioblk_read` and
type 1 (write-to-device) for `vioblk_write`, its sector is the position the
device record holds at that moment divided by the block size, and the block
size is the one the call started with.  `vioblk_read` returns `count` unless it
returns `-EIO`, and so does `vioblk_write` on a device that is not read-only. -/
theorem C23_request_header_at_doorbell {σ : Type} (E : Env σ) (s : Sys σ) (buf : Nat → Nat)
    (n : Nat) (hb : 0 < s.dev.blksz) :
    (∀ fuel, n < fuel → ∃ r, VioblkMy.vioblk_read E fuel s buf n = some r) ∧
    (∀ fuel r, VioblkMy.vioblk_read E fuel s buf n = some r →
      ∃ evs, r.sys.log = s.log ++ evs ∧
        (∀ d ∈ doorbell_records evs,
          d.vq.req_header.type = 0 ∧ d.vq.req_header.sector = d.pos / d.blksz ∧
          d.blksz = s.dev.blksz) ∧
        (r.ret = Ret.neg Errno.ioerr →
          r.count + s.dev.blksz = (doorbell_records evs).length * s.dev.blksz) ∧
        (r.ret ≠ Ret.neg Errno.ioerr →
          r.ret = Ret.val (toLong r.count) ∧
          r.count ≤ (doorbell_records evs).length * s.dev.blksz ∧
          (doorbell_records evs).length * s.dev.blksz < r.count + s.dev.blksz)) ∧
    (∀ fuel, n < fuel → ∃ r, VioblkMy.vioblk_write E fuel s buf n = some r) ∧
    (∀ fuel r, VioblkMy.vioblk_write E fuel s buf n = some r →
      ∃ evs, r.sys.log = s.log ++ evs ∧
        (∀ d ∈ doorbell_records evs,
          d.vq.req_header.type = 1 ∧ d.vq.req_header.sector = d.pos / d.blksz ∧
          d.blksz = s.dev.blksz) ∧
        r.count ≤ (doorbell_records evs).length * s.dev.blksz ∧
        (doorbell_records evs).length * s.dev.blksz < r.count + s.dev.blksz ∧
        (s.dev.readonly = 0 → r.ret = Ret.val (toLong r.count))) := by
  refine ⟨fun fuel hf => my_read_loop_returns E n fuel s buf 0 hb (by omega), ?_, ?_, ?_⟩
  · intro fuel r h
    obtain ⟨evs, e1, e2, _, _, e5, e6⟩ := my_read_loop_chunks E n fuel s buf 0 r hb h
    rw [Nat.zero_add] at e5 e6
    exact ⟨evs, e1, e2, e5, e6⟩
  · intro fuel hf
    unfold VioblkMy.vioblk_write
    simp only
    split
    · exact ⟨_, rfl⟩
    · exact my_write_loop_returns E buf n s.dev.blksz 0 hb fuel s 0 (by omega)
  · intro fuel r h
    unfold VioblkMy.vioblk_write at h
    simp only at h
    split at h
    · rename_i hro
      cases h
      refine ⟨[], (List.append_nil _).symm, fun d hd => by simp [doorbell_records] at hd,
        ?_, ?_, fun h0 => absurd h0 hro⟩
      · simp [doorbell_records]
      · simp [doorbell_records]
        exact hb
    · obtain ⟨evs, e1, e2, _, _, e5, e6, e7⟩ :=
        my_write_loop_chunks E buf n s.dev.blksz hb fuel s 0 r h
      rw [Nat.zero_add] at e6 e7
      exact ⟨evs, e1, e2, e6, e7, fun _ => e5⟩

/-- Witness of C23: a read of 1024 bytes on the opened scenario device (block size
512, position 0) returns 1024 after two doorbells, whose headers have type 0 and
the sectors 0 and 1 of the positions 0 and 512. -/
theorem C23_witness :
    0 < demo_my_open.dev.blksz ∧
    (VioblkMy.vioblk_read demo_env 1025 demo_my_open zero_mem 1024).map
        (fun r => ((doorbell_records r.sys.log).map
          (fun d => (d.vq.req_header.type, d.vq.req_header.sector, d.pos)), r.ret, r.count))
      = some ([(0, 0, 0), (0, 1, 512)], Ret.val 1024, 1024) ∧
    ∃ r, VioblkMy.vioblk_read demo_env 1025 demo_my_open zero_mem 1024 = some r ∧
      ∃ evs, r.sys.log = demo_my_open.log ++ evs ∧
        (∀ d ∈ doorbell_records evs,
          d.vq.req_header.type = 0 ∧ d.vq.req_header.sector = d.pos / d.blksz ∧
          d.blksz = demo_my_open.dev.blksz) ∧
        (r.ret = Ret.neg Errno.ioerr →
          r.count + demo_my_open.dev.blksz
            = (doorbell_records evs).length * demo_my_open.dev.blksz) ∧
        (r.ret ≠ Ret.neg Errno.ioerr →
          r.ret = Ret.val (toLong r.count) ∧
          r.count ≤ (doorbell_records evs).length * demo_my_open.dev.blksz ∧
          (doorbell_records evs).length * demo_my_open.dev.blksz
            < r.count + demo_my_open.dev.blksz) :=
  ⟨by decide, rfl,
   match (C23_request_header_at_doorbell demo_env demo_my_open zero_mem 1024 (by decide)).1
      1025 (by decide) with
   | ⟨r, hr⟩ => ⟨r, hr,
      (C23_request_header_at_doorbell demo_env demo_my_open zero_mem 1024 (by decide)).2.1
        1025 r hr⟩⟩

/-- C24, evaluation at the failing input (code defect).  On the opened scenario
device of `vioblk_my.c` the submission index is 0; at the doorbell of
`vioblk_write(buf, 512)` it is still 0, not 1.  After a read, which advances the
index from 0 to 1 and puts the head index 1 in slot 0, the write puts 0 in the
slot the index names, slot 1, and sets the index to 0.  In every state the
write stores 0 in slot `avail.idx` and then sets `avail.idx` to 0. -/
theorem C24_write_does_not_advance_submission_index (fuel : Nat) :
    demo_my_open.dev.vq.avail.idx = 0 ∧
    (VioblkMy.vioblk_write demo_env (fuel + 2) demo_my_open zero_mem 512).map
        (fun r => ((doorbell_records r.sys.log).map
          (fun d => (d.vq.avail.idx, d.vq.avail.ring 0)), r.ret))
      = some ([(0, 0)], Ret.val 512) ∧
    (VioblkMy.read_then_write demo_env (fuel + 2) demo_my_open zero_mem zero_mem 512).map
        (fun r => (doorbell_records r.sys.log).map
          (fun d => (d.vq.avail.idx, d.vq.avail.ring 0)))
      = some [(1, 1), (0, 1)] ∧
    (∀ (s : Sys (Nat → Nat → Nat)) (buf : Nat → Nat) (b c : Nat),
      (VioblkMy.vioblk_write_submit demo_env s buf b c).dev.vq.avail.ring
        = set_slot s.dev.vq.avail.ring s.dev.vq.avail.idx 0 ∧
      (VioblkMy.vioblk_write_submit demo_env s buf b c).dev.vq.avail.idx = 0) :=
  ⟨rfl, rfl, rfl, fun _ _ _ _ => ⟨rfl, rfl⟩⟩

/-- C25, evaluation at the failing input (code defect in `vioblk.c`).  On the
opened scenario device, registered with interrupt number 1, with the
`interrupt_status` register reading 1: `vioblk_isr(1, dev)` of `vioblk_my.c`
leaves 1 in `interrupt_ack`; `vioblk_isr(1, dev)` of `vioblk.c` writes no
register, `interrupt_ack` still holds 0.  The only write of `vioblk.c` to
`interrupt_ack` is that of the constant 0 when the status read is 0. -/
theorem C25_vioblk_isr_does_not_acknowledge :
    (VioblkMy.vioblk_isr (with_interrupt_status demo_my_open 1) 1).regs.interrupt_ack = 1 ∧
    (with_interrupt_status demo_vioblk_open 1).dev.irqno = 1 ∧
    (with_interrupt_status demo_vioblk_open 1).regs.interrupt_ack = 0 ∧
    Vioblk.vioblk_isr (with_interrupt_status demo_vioblk_open 1) 1
      = with_interrupt_status demo_vioblk_open 1 ∧
    (Vioblk.vioblk_isr (with_interrupt_status demo_vioblk_open 1) 1).regs.interrupt_ack = 0 :=
  ⟨rfl, rfl, rfl, rfl, rfl⟩

/-- C26, evaluation at the failing input (code defect).  With the pending word of
sources 0..31 holding 1 (bit 0 set), `plic_source_pending(0)` returns 0; with
the word holding 2 (bit 0 clear, bit 1 set) it returns 1: the code shifts the
word by the mask `1 << (srcno % 32)`, here 1, instead of by `srcno % 32`. -/
theorem C26_pending_tests_the_wrong_bit :
    (Plic.store32 Plic.zero_regs (Plic.PLIC_IOBASE + 0x1000) 1
        (Plic.PLIC_IOBASE + 0x1000 + 4 * (0 / 32))).testBit (0 % 32) = true ∧
    Plic.plic_source_pending (Plic.store32 Plic.zero_regs (Plic.PLIC_IOBASE + 0x1000) 1) 0 = 0 ∧
    (Plic.store32 Plic.zero_regs (Plic.PLIC_IOBASE + 0x1000) 2
        (Plic.PLIC_IOBASE + 0x1000 + 4 * (0 / 32))).testBit (0 % 32) = false ∧
    Plic.plic_source_pending (Plic.store32 Plic.zero_regs (Plic.PLIC_IOBASE + 0x1000) 2) 0 = 1 := by
  decide

/-- C27, evaluation at the failing input (code defect).  From the all-zero register
file, after enabling sources 0 and 1 for context 0 the enable word holds 3;
disabling source 1 then leaves 0 in it: bit 0 is cleared with bit 1, and source
0 is no longer enabled.  The mask is `~1 << 1`, the word `0xFFFFFFFC`. -/
theorem C27_disable_clears_lower_sources :
    Plic.plic_enable_source_for_context
        (Plic.plic_enable_source_for_context Plic.zero_regs 0 0) 0 1
        (Plic.PLIC_IOBASE + 0x2000) = 3 ∧
    Plic.plic_disable_source_for_context
        (Plic.plic_enable_source_for_context
          (Plic.plic_enable_source_for_context Plic.zero_regs 0 0) 0 1) 0 1
        (Plic.PLIC_IOBASE + 0x2000) = 0 ∧
    (Plic.plic_disable_source_for_context
        (Plic.plic_enable_source_for_context
          (Plic.plic_enable_source_for_context Plic.zero_regs 0 0) 0 1) 0 1
        (Plic.PLIC_IOBASE + 0x2000)).testBit 0 = false := by
  decide

/-- C28 (`kfs.c`).  From a state in which every in-use file has
`file_position <= file_size`, the same holds after `fs_open`, after `fs_read`
and `fs_write` (which return for every block device), and after `fs_ioctl` with
any command, whatever the handle and the arguments.  `fs_setpos` with a
non-null argument returns -1 and changes nothing when the new position, the
64-bit word the argument addresses, is above `file_size`, and returns 0 and
sets the position when it is at most `file_size`, `file_size` itself included. -/
theorem C28_position_stays_within_size {β : Type} (D : Kfs.BlkDev β) (s : Kfs.Fs β)
    (h : Kfs.positions_ok s) :
    (∀ name ioptr, Kfs.positions_ok (Kfs.fs_open s name ioptr).2.1) ∧
    (∀ fuel io buf n, n < fuel → ∃ r, Kfs.fs_read D fuel s io buf n = some r) ∧
    (∀ fuel io buf n r, Kfs.fs_read D fuel s io buf n = some r → Kfs.positions_ok r.fs) ∧
    (∀ fuel io buf n, n < fuel → ∃ r, Kfs.fs_write D fuel s io buf n = some r) ∧
    (∀ fuel io buf n r, Kfs.fs_write D fuel s io buf n = some r → Kfs.positions_ok r.fs) ∧
    (∀ mem io cmd arg, Kfs.positions_ok (Kfs.fs_ioctl s mem io cmd arg).2.1) ∧
    (∀ mem i arg, arg ≠ 0 →
      (load_le mem arg 8 > (s.file_array i).file_size →
        Kfs.fs_setpos s mem i arg = (Ret.val (-1), s, mem)) ∧
      (load_le mem arg 8 ≤ (s.file_array i).file_size →
        Kfs.fs_setpos s mem i arg =
          (Ret.val 0,
            Kfs.with_file s i { s.file_array i with file_position := load_le mem arg 8 },
            mem))) := by
  refine ⟨fs_open_positions_ok s h, fun fuel io buf n hf => fs_read_returns D s fuel io buf n hf,
    fs_read_positions_ok D s h, fun fuel io buf n hf => fs_write_returns D s fuel io buf n hf,
    fs_write_positions_ok D s h, fs_ioctl_positions_ok s h, ?_⟩
  intro mem i arg ha
  constructor
  · intro hgt
    unfold Kfs.fs_setpos
    rw [if_neg ha]
    simp only
    rw [if_pos hgt]
  · intro hle
    unfold Kfs.fs_setpos
    rw [if_neg ha]
    simp only
    rw [if_neg (by omega)]
    rfl

/-- Witness of C28: on the example file system with "a" open, where the invariant
holds, SETPOS to the size 8192 through `fs_ioctl` keeps it, and `fs_setpos` with
8193 at the argument address returns -1. -/
theorem C28_witness :
    Kfs.positions_ok Kfs.demo_fs_open ∧
    Kfs.positions_ok
      (Kfs.fs_ioctl Kfs.demo_fs_open (store_le zero_mem 8 8 8192) (Kfs.IoPtr.slot 0)
        IOCTL_SETPOS 8).2.1 ∧
    Kfs.fs_setpos Kfs.demo_fs_open (store_le zero_mem 8 8 8193) 0 8
      = (Ret.val (-1), Kfs.demo_fs_open, store_le zero_mem 8 8 8193) :=
  have h : Kfs.positions_ok Kfs.demo_fs_open := by
    unfold Kfs.positions_ok
    decide
  ⟨h, (C28_position_stays_within_size Kfs.ideal_blk Kfs.demo_fs_open h).2.2.2.2.2.1 _ _ _ _,
   ((C28_position_stays_within_size Kfs.ideal_blk Kfs.demo_fs_open h).2.2.2.2.2.2
      (store_le zero_mem 8 8 8193) 0 8 (by decide)).1 (by decide)⟩

/-- C29, evaluation at the failing input (code defect).  On the opened scenario
device of `vioblk.c` (block size 512), whose device completes every request with
status OK, neither `vioblk_read(out, n)` nor `vioblk_write(buf, n)` returns for
any length `n >= 1`, the two-block length 1024 included: whatever the number
of loop iterations allowed, the call is still in its loop.  With length 0 both
return 0 at once. -/
theorem C29_vioblk_transfers_never_return (fuel n : Nat) (buf : Nat → Nat) :
    demo_vioblk_open.dev.blksz = 512 ∧
    Vioblk.vioblk_read demo_env fuel demo_vioblk_open buf (n + 1) = none ∧
    Vioblk.vioblk_write demo_env fuel demo_vioblk_open buf (n + 1) = none ∧
    Vioblk.vioblk_read demo_env fuel demo_vioblk_open buf 1024 = none ∧
    Vioblk.vioblk_write demo_env fuel demo_vioblk_open buf 1024 = none ∧
    (Vioblk.vioblk_read demo_env (fuel + 1) demo_vioblk_open buf 0).map (fun r => r.ret)
      = some (Ret.val 0) ∧
    (Vioblk.vioblk_write demo_env (fuel + 1) demo_vioblk_open buf 0).map (fun r => r.ret)
      = some (Ret.val 0) :=
  ⟨rfl,
   vioblk_read_loop_never_returns demo_env demo_env_ok (n + 1) 0 (Nat.succ_pos n) fuel _ buf 0 0,
   vioblk_write_loop_never_returns demo_env demo_env_ok buf (n + 1) 0 (Nat.succ_pos n) fuel _ 0 0,
   vioblk_read_loop_never_returns demo_env demo_env_ok 1024 0 (by decide) fuel _ buf 0 0,
   vioblk_write_loop_never_returns demo_env demo_env_ok buf 1024 0 (by decide) fuel _ 0 0,
   rfl, rfl⟩

/-- C30, evaluation at the failing input (code defect).  The image `fat_image`
holds one PT_LOAD segment with `p_filesz = 0x2000` and `p_memsz = 0x1000`, inside
the address range.  `elf_load` allocates the segment buffer with
`kmalloc(0x1000)` and then calls `ioread_full` for 0x2000 bytes into it; it
returns 0 after copying 0x1000 bytes to the segment address. -/
theorem C30_segment_read_exceeds_its_buffer :
    Elf.Phdr_of_bytes (fun x => Elf.fat_image (64 + x)) 0 =
      { p_type := Elf.PT_LOAD, p_vaddr := 0x8010000000, p_filesz := 0x2000,
        p_memsz := 0x1000 } ∧
    (Elf.elf_load (Elf.traced (Elf.stream_host Elf.fat_image (120 + 0x2000) 65536)) (0, [])).st.2
      = [Elf.HostCall.ioread_full 64, Elf.HostCall.kmalloc 56, Elf.HostCall.ioread_full 56,
         Elf.HostCall.kmalloc 0x1000, Elf.HostCall.ioread_full 0x2000] ∧
    (Elf.elf_load (Elf.traced (Elf.stream_host Elf.fat_image (120 + 0x2000) 65536)) (0, [])).ret
      = 0 ∧
    (Elf.elf_load (Elf.traced (Elf.stream_host Elf.fat_image (120 + 0x2000) 65536))
        (0, [])).copies.map (fun c => (c.dst, c.len)) = [(0x8010000000, 0x1000)] := by
  decide

end CS415MP
